import Mathlib

/-!
# Eventing consumer: dispatch pipeline and stream requests

A shallow embedding of the parts of `consumer/process_events.go` and
`consumer/protocol.go` that decide how DCP events and worker responses are
routed.  Calls that leave the consumer (channel sends, metadata-bucket
callbacks, DCP stream requests) are recorded, in program order, as a list of
`Action`s; answers that come from outside (bucket reads, planner decisions,
library parsers) are inputs of the embedded functions.
-/

namespace Eventing

/-! ## Machine integers -/

/-- Reduction of a natural number to the range of a Go `uint32`. -/
def u32 (n : Nat) : Nat := n % 2 ^ 32

/-- Reduction of a natural number to the range of a Go `uint64`. -/
def u64 (n : Nat) : Nat := n % 2 ^ 64

/-! ## Go byte slices -/

/-- A Go `[]byte`: `arr` is the backing array from the first element of the
slice up to its capacity, `len` is the length of the slice. -/
structure GoSlice where
  arr : List UInt8
  len : Nat
  deriving DecidableEq, Repr

namespace GoSlice

/-- The slice whose length and capacity are both the length of `l`. -/
def ofList (l : List UInt8) : GoSlice := ⟨l, l.length⟩

/-- Capacity `cap(s)`. -/
def cap (s : GoSlice) : Nat := s.arr.length

/-- The bytes of the slice, `s[0:len(s)]`. -/
def toList (s : GoSlice) : List UInt8 := s.arr.take s.len

/-- Go `s[lo:hi]`: panics (`none`) unless `lo ≤ hi ≤ cap(s)`. -/
def slice (s : GoSlice) (lo hi : Nat) : Option GoSlice :=
  if lo ≤ hi ∧ hi ≤ s.cap then some ⟨s.arr.drop lo, hi - lo⟩ else none

/-- Go `s[lo:]`: panics (`none`) unless `lo ≤ len(s)`. -/
def sliceFrom (s : GoSlice) (lo : Nat) : Option GoSlice :=
  if lo ≤ s.len then some ⟨s.arr.drop lo, s.len - lo⟩ else none

/-- Go `binary.BigEndian.Uint32(s)`: panics (`none`) when `len(s) < 4`. -/
def beUint32 (s : GoSlice) : Option Nat :=
  if 4 ≤ s.len then
    match s.arr with
    | b0 :: b1 :: b2 :: b3 :: _ =>
      some (b0.toNat * 2 ^ 24 + b1.toNat * 2 ^ 16 + b2.toNat * 2 ^ 8 + b3.toNat)
    | _ => none
  else none

end GoSlice

/-! ## `strings.Split(s, "::")` -/

/-- Splitting of a character list at every non-overlapping occurrence of
`"::"`, scanning from the left, as `strings.Split` does for a non-empty
separator: the result always has one more field than there are separators. -/
def splitChars : List Char → List (List Char)
  | [] => [[]]
  | ':' :: ':' :: rest => [] :: splitChars rest
  | c :: rest =>
    match splitChars rest with
    | [] => [[c]]
    | f :: fs => (c :: f) :: fs

/-- Go `strings.Split(s, "::")`. -/
def stringsSplit (s : String) : List String :=
  (splitChars s.toList).map String.mk

/-! ## Data model -/

/-- The eventing xattr `xattrMetadata` (declared outside the files at hand;
fields as used by `processEvents`). -/
structure XattrMetadata where
  Cas : String
  Digest : Nat
  Timers : List String
  deriving DecidableEq, Repr

/-- Go zero value of `xattrMetadata`. -/
def XattrMetadata.zero : XattrMetadata := ⟨"", 0, []⟩

/-- Opcode of a DCP event (`mcd.DCP_*`); the four codes `processEvents`
switches on are distinct constants, every other opcode is `other`. -/
inductive Opcode
  | DCP_MUTATION
  | DCP_DELETION
  | DCP_STREAMREQ
  | DCP_STREAMEND
  | other (code : Nat)
  deriving DecidableEq, Repr

/-- Datatype byte of a DCP mutation: the two constants `processEvents`
switches on, every other value is `other`. -/
inductive Datatype
  | dcpDatatypeJSON
  | dcpDatatypeJSONXattr
  | other (code : Nat)
  deriving DecidableEq, Repr

/-- Status of a DCP response (`mcd.Status`): the codes `processEvents` and
`handleFailoverLog` compare with, every other status is `other`. -/
inductive Status
  | SUCCESS
  | KEY_EEXISTS
  | NOT_MY_VBUCKET
  | EINVAL
  | ROLLBACK
  | ENOMEM
  | other (code : Nat)
  deriving DecidableEq, Repr

/-- A failover log: the list of `(vbuuid, seqno)` pairs of a vbucket. -/
abbrev FailoverLog := List (Nat × Nat)

/-- The fields of `mcd.DcpEvent` read by the consumer. -/
structure DcpEvent where
  Opcode : Opcode
  Status : Status
  Datatype : Datatype
  VBucket : Nat
  Key : String
  Value : GoSlice
  Cas : Nat
  Seqno : Nat
  FailoverLog : FailoverLog
  deriving DecidableEq, Repr

/-- An entry of the timer store channel, `plasmaStoreEntry`. -/
structure PlasmaStoreEntry where
  callbackFn : String
  key : String
  timerTs : String
  vb : Nat
  deriving DecidableEq, Repr

/-- An entry of `vbFlogChan`, `vbFlogEntry`. -/
structure VbFlogEntry where
  flog : FailoverLog
  seqNo : Nat
  signalStreamEnd : Bool
  statusCode : Status
  streamReqRetry : Bool
  vb : Nat
  deriving DecidableEq, Repr

/-- Go zero value of `vbFlogEntry`. -/
def VbFlogEntry.zero : VbFlogEntry := ⟨[], 0, false, Status.SUCCESS, false, 0⟩

/-- An `OwnershipEntry` of a vbucket blob. -/
structure OwnershipEntry where
  AssignedWorker : String
  CurrentVBOwner : String
  Operation : String
  StartSeqNo : Nat
  Timestamp : String
  deriving DecidableEq, Repr

/-- The metadata blob `vbucketKVBlob` of a vbucket, with the fields the
consumer code at hand reads or writes. -/
structure VbucketKVBlob where
  AssignedWorker : String
  CurrentVBOwner : String
  DCPStreamStatus : String
  LastCheckpointTime : String
  LastDocTimerFeedbackSeqNo : Nat
  LastSeqNoProcessed : Nat
  NodeUUID : String
  OwnershipHistory : List OwnershipEntry
  PreviousAssignedWorker : String
  PreviousNodeUUID : String
  PreviousVBOwner : String
  VBId : Nat
  VBuuid : Nat
  CurrentProcessedDocIDTimer : String
  LastProcessedDocIDTimerEvent : String
  NextDocIDTimerToProcess : String
  deriving DecidableEq, Repr

/-- Go zero value of `vbucketKVBlob`. -/
def VbucketKVBlob.zero : VbucketKVBlob :=
  ⟨"", "", "", "", 0, 0, "", [], "", "", "", 0, 0, "", "", ""⟩

/-- Stream status string `dcpStreamRunning`. -/
def dcpStreamRunning : String := "running"

/-- Stream status string `dcpStreamStopped`. -/
def dcpStreamStopped : String := "stopped"

/-- Stream status string `dcpStreamBootstrap`. -/
def dcpStreamBootstrap : String := "bootstrap"

/-- Debugger state `debuggerOpcode` (`iota` = 0 in `protocol.go`). -/
def debuggerOpcode : Int := 0

/-- Debugger state `startDebug` (1 in `protocol.go`). -/
def startDebug : Int := 1

/-- Debugger state `stopDebug` (2 in `protocol.go`). -/
def stopDebug : Int := 2

/-- A value held in the per-vbucket stats map (`interface{}` in the source):
the consumer stores strings and `uint64` sequence numbers. -/
inductive StatVal
  | str (s : String)
  | u64 (n : Nat)
  deriving DecidableEq, Repr

/-- The record `common.CompileStatus`. -/
structure CompileStatus where
  Language : String
  CompileSuccess : Bool
  Index : Int
  Line : Int
  Column : Int
  Description : String
  deriving DecidableEq, Repr

/-- The queue depths reported by the worker, `c.cppQueueSizes`. -/
structure CppQueueSizes where
  AggQueueSize : Int
  DocTimerQueueSize : Int
  deriving DecidableEq, Repr

/-- A value that Go's `json.Unmarshal` stores in an `interface{}`: a `string`,
a `float64` (kept as its IEEE 754 bits), or a value of another type (`bool`,
`nil`, a slice or a map). -/
inductive JsonValue
  | str (s : String)
  | num (bits : Nat)
  | other
  deriving DecidableEq, Repr

/-! ## Consumer state, environment and recorded actions -/

/-- Library and helper functions used by the consumer whose code is not part
of the files at hand; every theorem below holds for all their behaviours. -/
structure Env where
  /-- The constant `xattrPrefix` as bytes. -/
  xattrPrefix : List UInt8
  /-- Go `json.Unmarshal(data, &xMeta)`: the metadata after the call and
  whether the call returned no error. -/
  jsonUnmarshal : List UInt8 → XattrMetadata → XattrMetadata × Bool
  /-- The helper `util.ConvertBigEndianToUint64`; `none` is an error. -/
  ConvertBigEndianToUint64 : String → Option Nat
  /-- Go `crc32.Update(0, c.crcTable, data)`. -/
  crc32Update : List UInt8 → Nat
  /-- The method `FailoverLog.Latest`: the returned `vbuuid` and `seqno`, and
  whether the returned error is `nil`. -/
  Latest : FailoverLog → Nat × Nat × Bool
  /-- The helper `util.VbucketByKey(key, numVbuckets)`. -/
  VbucketByKey : String → Nat → Nat
  /-- Go `json.Unmarshal` of a worker message into a `map[string]uint64`. -/
  unmarshalCounts : String → List (String × Nat) → List (String × Nat)
  /-- Go `json.Unmarshal` of a worker message into a `map[string]interface{}`;
  the decoded values are kept as text. -/
  unmarshalAny : String → List (String × String) → List (String × String)
  /-- Go `json.Unmarshal` of a worker message into `c.compileInfo`. -/
  unmarshalCompileInfo : String → CompileStatus → CompileStatus
  /-- Go `json.Unmarshal` of a worker message into `c.cppQueueSizes`. -/
  unmarshalQueueSizes : String → Option CppQueueSizes → Option CppQueueSizes
  /-- The helper `util.VbsSliceDiff(X, Y)`. -/
  VbsSliceDiff : List Nat → List Nat → List Nat
  /-- Go `json.Unmarshal` of the settings bytes into a
  `map[string]interface{}`, as the list of its entries; `none` is an error. -/
  unmarshalSettings : List UInt8 → Option (List (String × JsonValue))
  /-- Go conversion `int(f)` of a `float64` given by its IEEE 754 bits. -/
  intOfFloat64 : Nat → Int

/-- The fields of `Consumer` that the embedded functions read or write. -/
structure Consumer where
  /-- Value returned by `c.ConsumerName()`. -/
  ConsumerName : String
  /-- Value returned by `c.HostPortAddr()`. -/
  HostPortAddr : String
  /-- Value returned by `c.NodeUUID()`. -/
  NodeUUID : String
  uuid : String
  /-- The handler name `c.app.AppName`. -/
  AppName : String
  numVbuckets : Nat
  debuggerState : Int
  sendMsgToDebugger : Bool
  dcpMutationCounter : Nat
  dcpDeletionCounter : Nat
  doctimerResponsesRecieved : Nat
  errorParsingDocTimerResponses : Nat
  /-- The counter map `dcpMessagesProcessed`; an absent key reads as 0. -/
  dcpMessagesProcessed : Opcode → Nat
  /-- The map `vbProcessingStats`: per vbucket, stat name to value. -/
  vbProcessingStats : Nat → String → Option StatVal
  /-- Key set of the map `vbStreamRequested`. -/
  vbStreamRequested : Nat → Bool
  /-- The map `vbsStreamClosed`. -/
  vbsStreamClosed : Nat → Option Bool
  vbsRemainingToRestream : List Nat
  sourceMap : String
  handlerCode : String
  latencyStats : List (String × Nat)
  failureStats : List (String × String)
  executionStats : List (String × String)
  lcbExceptionStats : List (String × Nat)
  compileInfo : CompileStatus
  /-- The pointer `c.cppQueueSizes`; `none` is `nil`. -/
  cppQueueSizes : Option CppQueueSizes
  workerName : String
  dcpStreamBoundary : String
  /-- The map `kvVbMap` from vbucket to KV host; an absent key reads as `""`. -/
  kvVbMap : Nat → String
  /-- The map `kvHostDcpFeedMap` from KV host to feed pointer: the outer
  `none` is an absent key, the inner `none` a `nil` pointer. -/
  kvHostDcpFeedMap : String → Option (Option Nat)
  /-- The map `vbDcpFeedMap` from vbucket to feed pointer. -/
  vbDcpFeedMap : Nat → Option (Option Nat)
  /-- The map `dcpFeedVbMap` from feed pointer to the vbuckets it serves; an
  absent key reads as the empty list. -/
  dcpFeedVbMap : Option Nat → List Nat
  /-- Length of the list `dcpFeedCancelChs`. -/
  dcpFeedCancelChs : Nat
  workerQueueCap : Int
  feedbackQueueCap : Int
  logLevel : String
  skipTimerThreshold : Int
  vbOwnershipGiveUpRoutineCount : Int
  vbOwnershipTakeoverRoutineCount : Int

/-- Modelled from the spec: `vbProcessingStats.getVbStat` is declared outside
the files at hand; the stats are the per-vbucket "map-of-any" of the spec and
the getter reads the value stored under the stat name. -/
def getVbStat (stats : Nat → String → Option StatVal) (vb : Nat) (statName : String) :
    Option StatVal :=
  stats vb statName

/-- Modelled from the spec: `vbProcessingStats.updateVbStat` is declared
outside the files at hand; the stats are the per-vbucket "map-of-any" of the
spec and the update stores `val` under the stat name of that vbucket, as its
callers rely on when they store owner names and the empty string. -/
def updateVbStat (stats : Nat → String → Option StatVal) (vb : Nat) (statName : String)
    (val : StatVal) : Nat → String → Option StatVal :=
  fun v n => if v = vb ∧ n = statName then some val else stats v n

/-- Calls that leave the consumer, in program order. -/
inductive Action
  /-- Send on `signalUpdateDebuggerInstBlobCh`. -/
  | signalUpdateDebuggerInstBlob
  /-- The call `go c.startDebuggerServer()`. -/
  | startDebuggerServer
  /-- The call `c.sendDcpEvent(e, sendToDebugger)`; `goroutine` tells whether
  it was started with `go`. -/
  | sendDcpEvent (e : DcpEvent) (sendToDebugger : Bool) (goroutine : Bool)
  /-- Send `c.plasmaStoreCh <- pEntry`. -/
  | plasmaStoreCh (pEntry : PlasmaStoreEntry)
  /-- Send `c.vbFlogChan <- vbFlog`. -/
  | vbFlogChan (vbFlog : VbFlogEntry)
  /-- A `util.Retry` of `getOpCallback` on `vbKey`. -/
  | getOpCallback (vbKey : String)
  /-- A `util.Retry` of `setOpCallback`. -/
  | setOpCallback (vbKey : String) (vbBlob : VbucketKVBlob)
  /-- A `util.Retry` of `addOwnershipHistorySRCallback`. -/
  | addOwnershipHistorySRCallback (vbKey : String) (vbBlob : VbucketKVBlob)
      (entry : OwnershipEntry)
  /-- A `util.Retry` of `addOwnershipHistorySECallback`. -/
  | addOwnershipHistorySECallback (vbKey : String) (entry : OwnershipEntry)
  /-- The call `c.updateCheckpoint(vbKey, vb, &vbBlob)`. -/
  | updateCheckpoint (vbKey : String) (vb : Nat) (vbBlob : VbucketKVBlob)
  /-- A `util.Retry` of `updateCheckpointCallback`. -/
  | updateCheckpointCallback (vbKey : String) (vbBlob : VbucketKVBlob)
  /-- The call `dcpFeed.DcpRequestStream(vb, opq, flags, vbuuid, startSeq,
  endSeq, snapStart, snapEnd)` on the feed `dcpFeed` (`none` is `nil`). -/
  | DcpRequestStream (dcpFeed : Option Nat) (vb opq flags vbuuid startSeq endSeq
      snapStart snapEnd : Nat)
  /-- The call `c.cbBucket.Refresh()`. -/
  | cbBucketRefresh
  /-- A `util.Retry` of `getKvVbMap`. -/
  | getKvVbMap
  /-- A `util.Retry` of `getEventingNodeAddrOpCallback`. -/
  | getEventingNodeAddrOpCallback
  /-- The call `util.BucketSeqnos`. -/
  | BucketSeqnos
  /-- A `util.Retry` of `populateDcpFeedVbEntriesCallback`. -/
  | populateDcpFeedVbEntriesCallback
  /-- A `util.Retry` of `startDCPFeedOpCallback` for the KV host `kvAddr`. -/
  | startDCPFeedOpCallback (feedName : String) (kvAddr : String)
  /-- The call `c.addToAggChan(dcpFeed, cancelCh)`. -/
  | addToAggChan (dcpFeed : Option Nat)
  /-- The call `feed.Close()`. -/
  | feedClose (dcpFeed : Option Nat)
  /-- The call `time.Sleep(seconds * time.Second)`. -/
  | timeSleep (seconds : Nat)
  /-- The call `c.superSup.GetLocallyDeployedApps()`. -/
  | GetLocallyDeployedApps
  /-- The call `c.updateVbOwnerAndStartDCPStream(vbKey, vb, &vbBlob)`. -/
  | updateVbOwnerAndStartDCPStream (vbKey : String) (vb : Nat) (vbBlob : VbucketKVBlob)
  /-- The call `logging.SetLogLevel(util.GetLogLevel(logLevel))`. -/
  | SetLogLevel (logLevel : String)
  /-- The call `c.sendLogLevel(logLevel, sendToDebugger)`. -/
  | sendLogLevel (logLevel : String) (sendToDebugger : Bool)
  deriving DecidableEq, Repr

/-- How a Go function can fail to return: a run-time panic, or a loop that
never ends. -/
inductive Fault
  | panic
  | diverge
  deriving DecidableEq, Repr

/-- The key `fmt.Sprintf("%s::vb::%d", c.app.AppName, vb)`. -/
def vbKey (c : Consumer) (vb : Nat) : String :=
  c.AppName ++ "::vb::" ++ toString vb

/-! ## Decoding of the xattr section (`processEvents`, lines 88-117) -/

/-- The loop `for bytesDecoded < totalXattrLen` of `processEvents`.  `fuel`
bounds the number of iterations; the one state that repeats itself (a frame
length that makes `4+frameLength` wrap to 0) is reported as `diverge`. -/
def decodeFrames (env : Env) (totalXattrLen : Nat) :
    Nat → Nat → GoSlice → XattrMetadata → Except Fault XattrMetadata
  | 0, _, _, _ => Except.error Fault.diverge
  | fuel + 1, bytesDecoded, totalXattrData, xMeta =>
    if bytesDecoded < totalXattrLen then
      match totalXattrData.beUint32 with
      | none => Except.error Fault.panic
      | some frameLength =>
        match totalXattrData.slice 4 (u32 (4 + frameLength - 1)) with
        | none => Except.error Fault.panic
        | some frameData =>
          let bytesDecoded2 := u32 (u32 (bytesDecoded + 4) + frameLength)
          let next : Option GoSlice :=
            if bytesDecoded2 < totalXattrLen then
              totalXattrData.sliceFrom (u32 (4 + frameLength))
            else some totalXattrData
          match next with
          | none => Except.error Fault.panic
          | some totalXattrData2 =>
            let xMeta2 :=
              if frameData.len > env.xattrPrefix.length then
                if frameData.toList.take env.xattrPrefix.length = env.xattrPrefix then
                  (env.jsonUnmarshal
                    (frameData.toList.drop (env.xattrPrefix.length + 1)) xMeta).1
                else xMeta
              else xMeta
            if bytesDecoded2 < totalXattrLen ∧ u32 (4 + frameLength) = 0 then
              Except.error Fault.diverge
            else decodeFrames env totalXattrLen fuel bytesDecoded2 totalXattrData2 xMeta2
    else Except.ok xMeta

/-- Lines 88-117 of `processEvents`: the declared length of the xattr section
and the metadata decoded from it. -/
def decodeXattrs (env : Env) (value : GoSlice) : Except Fault (Nat × XattrMetadata) :=
  match value.sliceFrom 0 with
  | none => Except.error Fault.panic
  | some v0 =>
    match v0.beUint32 with
    | none => Except.error Fault.panic
    | some totalXattrLen =>
      match value.slice 4 (u32 (4 + totalXattrLen - 1)) with
      | none => Except.error Fault.panic
      | some totalXattrData =>
        match decodeFrames env totalXattrLen (totalXattrData.len + 1) 0 totalXattrData
            XattrMetadata.zero with
        | Except.error f => Except.error f
        | Except.ok xMeta => Except.ok (totalXattrLen, xMeta)

/-! ## `Consumer.processEvents`: one event of `aggDCPFeed` -/

/-- Answers from outside the dispatch loop that one iteration may consume. -/
structure Inputs where
  /-- Whether `signalStartDebuggerCh` holds a message when it is polled. -/
  startDebuggerSignalled : Bool
  /-- The blob left in `vbBlob` by the first `getOpCallback` of the iteration. -/
  getOp1 : VbucketKVBlob
  /-- The blob left in `vbBlob` by the second `getOpCallback` of the iteration. -/
  getOp2 : VbucketKVBlob
  /-- Result of `c.checkIfCurrentConsumerShouldOwnVb(e.VBucket)`. -/
  shouldOwnVb : Bool
  /-- Result of `time.Now().Format(time.RFC3339)`. -/
  nowRFC3339 : String
  /-- Result of `time.Now().String()`. -/
  nowString : String

/-- The debugger handshake at the head of the mutation and deletion cases
(lines 61-76 and 212-226). -/
def debuggerHandshake (c : Consumer) (inp : Inputs) : Consumer × List Action :=
  if c.debuggerState = startDebug then
    if inp.startDebuggerSignalled then
      ({ c with sendMsgToDebugger := true, debuggerState := stopDebug },
        [Action.signalUpdateDebuggerInstBlob, Action.startDebuggerServer])
    else
      ({ c with debuggerState := stopDebug }, [Action.signalUpdateDebuggerInstBlob])
  else (c, [])

/-- The forwarding block of the mutation case: `c.dcpMutationCounter++`
followed by `c.sendDcpEvent(e, c.sendMsgToDebugger)`, run in a goroutine when
the event goes to the debugger. -/
def forwardMutation (c : Consumer) (e : DcpEvent) : Consumer × List Action :=
  ({ c with dcpMutationCounter := u64 (c.dcpMutationCounter + 1) },
    [Action.sendDcpEvent e c.sendMsgToDebugger c.sendMsgToDebugger])

/-- The forwarding block of the deletion case (lines 228-234). -/
def forwardDeletion (c : Consumer) (e : DcpEvent) : Consumer × List Action :=
  ({ c with dcpDeletionCounter := u64 (c.dcpDeletionCounter + 1) },
    [Action.sendDcpEvent e c.sendMsgToDebugger c.sendMsgToDebugger])

/-- The loop `for _, timerEntry := range xMeta.Timers` (lines 154-170 and
175-191): one send on `plasmaStoreCh` for every entry with three fields. -/
def enqueueTimers (e : DcpEvent) (timers : List String) : List Action :=
  timers.filterMap fun timerEntry =>
    let data := stringsSplit timerEntry
    if data.length = 3 then
      some (Action.plasmaStoreCh
        { callbackFn := data.getD 2 "", key := e.Key, timerTs := data.getD 1 "",
          vb := e.VBucket })
    else none

/-- The case `dcpDatatypeJSONXattr` of the mutation case (lines 87-208). -/
def processXattrMutation (env : Env) (c : Consumer) (e : DcpEvent) :
    Except Fault (Consumer × List Action) :=
  match decodeXattrs env e.Value with
  | Except.error f => Except.error f
  | Except.ok (totalXattrLen, xMeta) =>
    if xMeta.Cas ≠ "" then
      match env.ConvertBigEndianToUint64 xMeta.Cas with
      | none => Except.ok (c, [])
      | some cas =>
        if cas ≠ e.Cas then
          match e.Value.sliceFrom (u32 (4 + totalXattrLen)) with
          | none => Except.error Fault.panic
          | some body =>
            if env.crc32Update body.toList ≠ xMeta.Digest then
              Except.ok (forwardMutation c { e with Value := body })
            else
              Except.ok (c, enqueueTimers { e with Value := body } xMeta.Timers)
        else
          Except.ok (c, enqueueTimers e xMeta.Timers)
    else
      match e.Value.sliceFrom (u32 (4 + totalXattrLen)) with
      | none => Except.error Fault.panic
      | some body => Except.ok (forwardMutation c { e with Value := body })

/-- The case `mcd.DCP_MUTATION` (lines 56-209). -/
def processMutation (env : Env) (c : Consumer) (e : DcpEvent) (inp : Inputs) :
    Except Fault (Consumer × List Action) :=
  let (c1, acts1) := debuggerHandshake c inp
  match e.Datatype with
  | Datatype.dcpDatatypeJSON =>
    let (c2, acts2) := forwardMutation c1 e
    Except.ok (c2, acts1 ++ acts2)
  | Datatype.dcpDatatypeJSONXattr =>
    match processXattrMutation env c1 e with
    | Except.error f => Except.error f
    | Except.ok (c2, acts2) => Except.ok (c2, acts1 ++ acts2)
  | Datatype.other _ => Except.ok (c1, acts1)

/-- The case `mcd.DCP_DELETION` (lines 211-234). -/
def processDeletion (c : Consumer) (e : DcpEvent) (inp : Inputs) : Consumer × List Action :=
  let (c1, acts1) := debuggerHandshake c inp
  let (c2, acts2) := forwardDeletion c1 e
  (c2, acts1 ++ acts2)

/-- The case `mcd.DCP_STREAMREQ` (lines 236-318). -/
def processStreamReq (env : Env) (c : Consumer) (e : DcpEvent) (inp : Inputs) :
    Consumer × List Action :=
  if e.Status = Status.SUCCESS then
    let vbFlog : VbFlogEntry :=
      { VbFlogEntry.zero with statusCode := e.Status, streamReqRetry := false, vb := e.VBucket }
    let key := vbKey c e.VBucket
    match env.Latest e.FailoverLog with
    | (_, _, false) => (c, [Action.getOpCallback key, Action.vbFlogChan vbFlog])
    | (vbuuid, seqNo, true) =>
      let vbBlob : VbucketKVBlob :=
        { inp.getOp1 with
          AssignedWorker := c.ConsumerName
          CurrentVBOwner := c.HostPortAddr
          DCPStreamStatus := dcpStreamRunning
          LastCheckpointTime := inp.nowRFC3339
          LastSeqNoProcessed := seqNo
          NodeUUID := c.uuid
          VBuuid := vbuuid }
      let startSeqNo : Nat :=
        match getVbStat c.vbProcessingStats e.VBucket "last_processed_seq_no" with
        | some (StatVal.u64 n) => n
        | _ => 0
      let entry : OwnershipEntry :=
        { AssignedWorker := c.ConsumerName
          CurrentVBOwner := c.HostPortAddr
          Operation := dcpStreamRunning
          StartSeqNo := startSeqNo
          Timestamp := inp.nowString }
      let s1 := updateVbStat c.vbProcessingStats e.VBucket "assigned_worker"
        (StatVal.str c.ConsumerName)
      let s2 := updateVbStat s1 e.VBucket "current_vb_owner" (StatVal.str c.HostPortAddr)
      let s3 := updateVbStat s2 e.VBucket "dcp_stream_status" (StatVal.str dcpStreamRunning)
      let s4 := updateVbStat s3 e.VBucket "node_uuid" (StatVal.str c.uuid)
      ({ c with vbProcessingStats := s4 },
        [Action.getOpCallback key, Action.addOwnershipHistorySRCallback key vbBlob entry,
          Action.vbFlogChan vbFlog])
  else if e.Status = Status.KEY_EEXISTS ∨ e.Status = Status.NOT_MY_VBUCKET then
    (c, [Action.vbFlogChan
      { VbFlogEntry.zero with statusCode := e.Status, streamReqRetry := false, vb := e.VBucket }])
  else if e.Status = Status.EINVAL ∨ e.Status = Status.ROLLBACK ∨ e.Status = Status.ENOMEM then
    (c, [Action.vbFlogChan
      { flog := e.FailoverLog, seqNo := e.Seqno, signalStreamEnd := false,
        statusCode := e.Status, streamReqRetry := true, vb := e.VBucket }])
  else (c, [])

/-- The case `mcd.DCP_STREAMEND` (lines 319-380).  The method
`c.updateCheckpoint` is declared outside the files at hand and is recorded as
a call with the blob it is handed. -/
def processStreamEnd (c : Consumer) (e : DcpEvent) (inp : Inputs) : Consumer × List Action :=
  let key := vbKey c e.VBucket
  let c1 : Consumer :=
    { c with vbStreamRequested := fun v => if v = e.VBucket then false else c.vbStreamRequested v }
  let entry : OwnershipEntry :=
    { AssignedWorker := c.ConsumerName
      CurrentVBOwner := c.HostPortAddr
      Operation := dcpStreamStopped
      StartSeqNo := 0
      Timestamp := inp.nowString }
  let cUpdated : Bool := (c1.vbsStreamClosed e.VBucket).isSome
  let c2 : Consumer :=
    if cUpdated then c1
    else { c1 with vbsStreamClosed :=
      fun v => if v = e.VBucket then some true else c1.vbsStreamClosed v }
  let acts1 : List Action :=
    if cUpdated then []
    else [Action.getOpCallback key, Action.updateCheckpoint key e.VBucket inp.getOp1]
  if inp.shouldOwnVb then
    ({ c2 with vbsRemainingToRestream := c2.vbsRemainingToRestream ++ [e.VBucket] },
      Action.addOwnershipHistorySECallback key entry :: acts1 ++
        [Action.vbFlogChan { VbFlogEntry.zero with signalStreamEnd := true, vb := e.VBucket },
          Action.getOpCallback key,
          Action.updateCheckpoint key e.VBucket
            (if cUpdated then inp.getOp1 else inp.getOp2)])
  else
    (c2, Action.addOwnershipHistorySECallback key entry :: acts1)

/-- The update of `dcpMessagesProcessed` at the head of an iteration of
`processEvents` (lines 48-53). -/
def countMessage (c : Consumer) (e : DcpEvent) : Consumer :=
  { c with dcpMessagesProcessed :=
    fun op => if op = e.Opcode then u64 (c.dcpMessagesProcessed op + 1)
      else c.dcpMessagesProcessed op }

/-- One iteration of the loop of `processEvents` that receives `e` from
`aggDCPFeed` (lines 39-383): the consumer after the iteration and the calls
made, or the fault that ends it. -/
def processEvents (env : Env) (c : Consumer) (e : DcpEvent) (inp : Inputs) :
    Except Fault (Consumer × List Action) :=
  let c0 := countMessage c e
  match e.Opcode with
  | Opcode.DCP_MUTATION => processMutation env c0 e inp
  | Opcode.DCP_DELETION => Except.ok (processDeletion c0 e inp)
  | Opcode.DCP_STREAMREQ => Except.ok (processStreamReq env c0 e inp)
  | Opcode.DCP_STREAMEND => Except.ok (processStreamEnd c0 e inp)
  | Opcode.other _ => Except.ok (c0, [])

/-! ## `Consumer.routeResponse` (`protocol.go`) -/

/-- Opcode `sourceMap` (1 in `protocol.go`). -/
def sourceMap : Int := 1

/-- Opcode `handlerCode` (2 in `protocol.go`). -/
def handlerCode : Int := 2

/-- Opcode `latencyStats` (5 in `protocol.go`). -/
def latencyStats : Int := 5

/-- Opcode `failureStats` (6 in `protocol.go`). -/
def failureStats : Int := 6

/-- Opcode `executionStats` (7 in `protocol.go`). -/
def executionStats : Int := 7

/-- Opcode `compileInfo` (8 in `protocol.go`). -/
def compileInfo : Int := 8

/-- Stream boundary `common.DcpEverything`. -/
def DcpEverything : String := "everything"

/-- Stream boundary `common.DcpFromNow`. -/
def DcpFromNow : String := "from_now"

/-- The function `Consumer.clearUpOnwershipInfoFromMeta(vb)`; `read` is the
blob left in `vbBlob` by its `getOpCallback`. -/
def clearUpOnwershipInfoFromMeta (c : Consumer) (vb : Nat) (read : VbucketKVBlob)
    (nowRFC3339 nowString : String) : Consumer × List Action :=
  let key := vbKey c vb
  let vbBlob : VbucketKVBlob :=
    { read with
      AssignedWorker := ""
      CurrentVBOwner := ""
      DCPStreamStatus := dcpStreamStopped
      LastCheckpointTime := nowRFC3339
      NodeUUID := ""
      PreviousAssignedWorker := c.ConsumerName
      PreviousNodeUUID := c.NodeUUID
      PreviousVBOwner := c.HostPortAddr }
  let entry : OwnershipEntry :=
    { AssignedWorker := c.ConsumerName
      CurrentVBOwner := c.HostPortAddr
      Operation := dcpStreamStopped
      StartSeqNo := 0
      Timestamp := nowString }
  let cUpdated : Bool := (c.vbsStreamClosed vb).isSome
  let closed : Nat → Option Bool :=
    if cUpdated then c.vbsStreamClosed
    else fun v => if v = vb then some true else c.vbsStreamClosed v
  let writes : List Action :=
    if cUpdated then []
    else [Action.addOwnershipHistorySECallback key entry,
      Action.updateCheckpointCallback key vbBlob]
  let s1 := updateVbStat c.vbProcessingStats vb "assigned_worker" (StatVal.str vbBlob.AssignedWorker)
  let s2 := updateVbStat s1 vb "current_vb_owner" (StatVal.str vbBlob.CurrentVBOwner)
  let s3 := updateVbStat s2 vb "dcp_stream_status" (StatVal.str vbBlob.DCPStreamStatus)
  let s4 := updateVbStat s3 vb "node_uuid" (StatVal.str vbBlob.NodeUUID)
  ({ c with vbsStreamClosed := closed, vbProcessingStats := s4 },
    Action.getOpCallback key :: writes)

/-- Answers from outside consumed by `cleanupStaleDcpFeedHandles`. -/
structure CleanupInputs where
  /-- Result of `util.StrSliceDiff(kvHostDcpFeedMapEntries, kvAddrListPerVbMap)`. -/
  kvAddrDcpFeedsToClose : List String
  /-- The map `c.dcpFeedVbMap` left by `populateDcpFeedVbEntriesCallback`. -/
  dcpFeedVbMap : Option Nat → List Nat
  /-- The blob read by `clearUpOnwershipInfoFromMeta` for a vbucket. -/
  getOp : Nat → VbucketKVBlob
  nowRFC3339 : String
  nowString : String

/-- The loop `for _, vbno := range vbsMetadataToUpdate` of
`cleanupStaleDcpFeedHandles`. -/
def clearUpVbs (inp : CleanupInputs) : Consumer → List Nat → Consumer × List Action
  | c, [] => (c, [])
  | c, vbno :: rest =>
    let (c1, acts1) :=
      clearUpOnwershipInfoFromMeta c vbno (inp.getOp vbno) inp.nowRFC3339 inp.nowString
    let (c2, acts2) := clearUpVbs inp c1 rest
    (c2, acts1 ++ acts2)

/-- The loop `for _, kvAddr := range kvAddrDcpFeedsToClose` of
`cleanupStaleDcpFeedHandles`. -/
def closeFeeds (inp : CleanupInputs) : Consumer → List String → Consumer × List Action
  | c, [] => (c, [])
  | c, kvAddr :: rest =>
    let closes : List Action :=
      match c.kvHostDcpFeedMap kvAddr with
      | some (some feed) => [Action.feedClose (some feed)]
      | _ => []
    let vbsMetadataToUpdate : List Nat :=
      c.dcpFeedVbMap ((c.kvHostDcpFeedMap kvAddr).getD none)
    let c1 : Consumer :=
      { c with kvHostDcpFeedMap := fun a => if a = kvAddr then none else c.kvHostDcpFeedMap a }
    let (c2, acts2) := clearUpVbs inp c1 vbsMetadataToUpdate
    let (c3, acts3) := closeFeeds inp c2 rest
    (c3, closes ++ acts2 ++ acts3)

/-- The function `Consumer.cleanupStaleDcpFeedHandles()`. -/
def cleanupStaleDcpFeedHandles (c : Consumer) (inp : CleanupInputs) : Consumer × List Action :=
  if inp.kvAddrDcpFeedsToClose.length > 0 then
    let (c1, acts) :=
      closeFeeds inp { c with dcpFeedVbMap := inp.dcpFeedVbMap } inp.kvAddrDcpFeedsToClose
    (c1, Action.populateDcpFeedVbEntriesCallback :: acts)
  else (c, [])

/-- Answers from outside consumed by one call of `dcpRequestStreamHandle`. -/
structure StreamInputs where
  /-- The map `c.kvVbMap` left by `getKvVbMap`. -/
  kvVbMap : Nat → String
  cleanup : CleanupInputs
  /-- The entry of `c.kvHostDcpFeedMap` for the KV host after
  `startDCPFeedOpCallback` (outer `none`: still no entry). -/
  startedFeed : Option (Option Nat)
  /-- Whether `DcpRequestStream` returns an error. -/
  requestFails : Bool
  /-- Result of `c.checkIfCurrentConsumerShouldOwnVb(vbno)`. -/
  shouldOwnVb : Bool

/-- The function `Consumer.dcpRequestStreamHandle(vbno, vbBlob, start)`: the
consumer after the call, the calls made, and whether an error is returned. -/
def dcpRequestStreamHandle (c : Consumer) (vbno : Nat) (vbBlob : VbucketKVBlob) (start : Nat)
    (inp : StreamInputs) : Consumer × List Action × Bool :=
  let c1 : Consumer := { c with kvVbMap := inp.kvVbMap }
  let vbKvAddr := c1.kvVbMap vbno
  let (c2, actsCleanup) := cleanupStaleDcpFeedHandles c1 inp.cleanup
  let (c3, dcpFeed, actsFeed) : Consumer × Option Nat × List Action :=
    match c2.kvHostDcpFeedMap vbKvAddr with
    | some feed => (c2, feed, [])
    | none =>
      let feedName := "eventing:" ++ c2.HostPortAddr ++ "_" ++ vbKvAddr ++ "_" ++ c2.workerName
      ({ c2 with
          kvHostDcpFeedMap :=
            fun a => if a = vbKvAddr then inp.startedFeed else c2.kvHostDcpFeedMap a
          dcpFeedCancelChs := c2.dcpFeedCancelChs + 1 },
        inp.startedFeed.getD none,
        [Action.startDCPFeedOpCallback feedName vbKvAddr,
          Action.addToAggChan (inp.startedFeed.getD none)])
  let c4 : Consumer :=
    { c3 with vbDcpFeedMap := fun v => if v = vbno then some dcpFeed else c3.vbDcpFeedMap v }
  let opq := vbno
  let flags := 0
  let endSeq := 0xFFFFFFFFFFFFFFFF
  let snapStart := start
  let snapEnd := start
  let request :=
    Action.DcpRequestStream dcpFeed vbno opq flags vbBlob.VBuuid start endSeq snapStart snapEnd
  let pre := [Action.cbBucketRefresh, Action.getKvVbMap] ++ actsCleanup ++ actsFeed
  if inp.requestFails then
    let c5 : Consumer :=
      { c4 with
        vbStreamRequested := fun v => if v = vbno then false else c4.vbStreamRequested v
        vbsRemainingToRestream :=
          if inp.shouldOwnVb then c4.vbsRemainingToRestream ++ [vbno]
          else c4.vbsRemainingToRestream
        kvHostDcpFeedMap := fun a => if a = vbKvAddr then none else c4.kvHostDcpFeedMap a }
    (c5, pre ++ [request, Action.feedClose dcpFeed], true)
  else (c4, pre ++ [request], false)

/-- One entry received from `vbFlogChan` by `handleFailoverLog` (lines
758-791); `read` is the answer of its `getOpCallback`, `none` when the key
does not exist (`isNoEnt`), in which case `vbBlob` keeps its zero value. -/
def handleFailoverLog (c : Consumer) (vbFlog : VbFlogEntry) (read : Option VbucketKVBlob)
    (inp : StreamInputs) : Consumer × List Action :=
  if vbFlog.signalStreamEnd then (c, [])
  else if !vbFlog.streamReqRetry && vbFlog.statusCode = Status.SUCCESS then (c, [])
  else if vbFlog.streamReqRetry then
    let key := vbKey c vbFlog.vb
    let vbBlob := read.getD VbucketKVBlob.zero
    let start := if vbFlog.statusCode = Status.ROLLBACK then vbFlog.seqNo else 0
    let (c1, acts, _) := dcpRequestStreamHandle c vbFlog.vb vbBlob start inp
    (c1, Action.getOpCallback key :: acts)
  else (c, [])

/-- Answers from outside consumed by one iteration of the loop of `startDcp`. -/
structure StartDcpVbInputs where
  /-- Answer of `getOpCallback`: `none` when the key does not exist
  (`isNoEnt`), in which case `vbBlob` keeps its zero value. -/
  read : Option VbucketKVBlob
  /-- Result of `time.Now().String()`. -/
  nowString : String
  /-- Results of the three `time.Now().UTC()...Format(time.RFC3339)` calls. -/
  nowCurrent : String
  nowLast : String
  nowNext : String
  stream : StreamInputs

/-- The body of the loop `for vbno, flog := range flogs` of `startDcp`
(lines 485-541); `vbSeqnos` is the slice returned by `util.BucketSeqnos`. -/
def startDcpVb (env : Env) (vbSeqnos : List Nat) (c : Consumer) (vbno : Nat)
    (flog : FailoverLog) (inp : StartDcpVbInputs) : Except Fault (Consumer × List Action) :=
  let vbuuid := (env.Latest flog).1
  let key := vbKey c vbno
  match inp.read with
  | none =>
    let entry : OwnershipEntry :=
      { AssignedWorker := c.ConsumerName
        CurrentVBOwner := c.HostPortAddr
        Operation := dcpStreamBootstrap
        StartSeqNo := 0
        Timestamp := inp.nowString }
    let vbBlob : VbucketKVBlob :=
      { VbucketKVBlob.zero with
        VBuuid := vbuuid
        VBId := vbno
        AssignedWorker := c.ConsumerName
        CurrentVBOwner := c.HostPortAddr
        PreviousAssignedWorker := c.ConsumerName
        PreviousNodeUUID := c.NodeUUID
        PreviousVBOwner := c.HostPortAddr
        OwnershipHistory := VbucketKVBlob.zero.OwnershipHistory ++ [entry]
        CurrentProcessedDocIDTimer := inp.nowCurrent
        LastProcessedDocIDTimerEvent := inp.nowLast
        NextDocIDTimerToProcess := inp.nowNext }
    let stored := [Action.getOpCallback key, Action.setOpCallback key vbBlob]
    if c.dcpStreamBoundary = DcpEverything then
      let (c1, acts, _) := dcpRequestStreamHandle c vbno vbBlob 0 inp.stream
      Except.ok (c1, stored ++ acts)
    else if c.dcpStreamBoundary = DcpFromNow then
      match vbSeqnos.get? vbno with
      | none => Except.error Fault.panic
      | some start =>
        let (c1, acts, _) := dcpRequestStreamHandle c vbno vbBlob start inp.stream
        Except.ok (c1, stored ++ acts)
    else Except.ok (c, stored)
  | some vbBlob =>
    let streamStartSeqNo :=
      if vbBlob.LastDocTimerFeedbackSeqNo < vbBlob.LastSeqNoProcessed then
        vbBlob.LastDocTimerFeedbackSeqNo
      else vbBlob.LastSeqNoProcessed
    if vbBlob.NodeUUID = c.NodeUUID then
      let (c1, acts, _) := dcpRequestStreamHandle c vbno vbBlob streamStartSeqNo inp.stream
      Except.ok (c1, Action.getOpCallback key :: acts)
    else Except.ok (c, [Action.getOpCallback key])

/-- The loop `for vbno, flog := range flogs` of `startDcp`, over the entries
of the map in the order the iteration visits them. -/
def startDcpLoop (env : Env) (vbSeqnos : List Nat) :
    Consumer → List (Nat × FailoverLog × StartDcpVbInputs) →
      Except Fault (Consumer × List Action)
  | c, [] => Except.ok (c, [])
  | c, (vbno, flog, inp) :: rest =>
    match startDcpVb env vbSeqnos c vbno flog inp with
    | Except.error f => Except.error f
    | Except.ok (c1, acts1) =>
      match startDcpLoop env vbSeqnos c1 rest with
      | Except.error f => Except.error f
      | Except.ok (c2, acts2) => Except.ok (c2, acts1 ++ acts2)

/-- The function `Consumer.startDcp(flogs)`; `seqnosErr` tells whether
`util.BucketSeqnos` returned an error and `vbSeqnos` is the slice it returned. -/
def startDcp (env : Env) (c : Consumer) (seqnosErr : Bool) (vbSeqnos : List Nat)
    (flogs : List (Nat × FailoverLog × StartDcpVbInputs)) :
    Except Fault (Consumer × List Action) :=
  let head := [Action.getEventingNodeAddrOpCallback, Action.BucketSeqnos]
  if seqnosErr ∧ c.dcpStreamBoundary ≠ DcpEverything then Except.ok (c, head)
  else
    match startDcpLoop env vbSeqnos c flogs with
    | Except.error f => Except.error f
    | Except.ok (c1, acts) => Except.ok (c1, head ++ acts)

/-! ## Observations on recorded actions -/

/-- The events handed to `sendDcpEvent`, in order. -/
def forwardedToWorker (acts : List Action) : List DcpEvent :=
  acts.filterMap fun a =>
    match a with
    | Action.sendDcpEvent e _ _ => some e
    | _ => none

/-- The entries sent on `plasmaStoreCh`, in order. -/
def sentToTimerStore (acts : List Action) : List PlasmaStoreEntry :=
  acts.filterMap fun a =>
    match a with
    | Action.plasmaStoreCh p => some p
    | _ => none

/-- The entries sent on `vbFlogChan`, in order. -/
def sentToVbFlogChan (acts : List Action) : List VbFlogEntry :=
  acts.filterMap fun a =>
    match a with
    | Action.vbFlogChan f => some f
    | _ => none

/-- The calls of `DcpRequestStream`, in order. -/
def streamRequests (acts : List Action) : List Action :=
  acts.filter fun a =>
    match a with
    | Action.DcpRequestStream _ _ _ _ _ _ _ _ _ => true
    | _ => false

/-- Whether `strings.Split(t, "::")` has exactly three fields. -/
def hasThreeFields (t : String) : Bool :=
  decide ((stringsSplit t).length = 3)

/-- The timer-store entry built from a three-field timer string of event `e`. -/
def timerEntryOf (e : DcpEvent) (t : String) : PlasmaStoreEntry :=
  { callbackFn := (stringsSplit t).getD 2 "", key := e.Key,
    timerTs := (stringsSplit t).getD 1 "", vb := e.VBucket }

/-! ## Example data -/

/-- An environment for the examples: the xattr prefix is `ev`, the JSON `{}`
decodes to a fixed metadata record, the checksum of a body is its length. -/
def exEnv : Env :=
  { xattrPrefix := [101, 118]
    jsonUnmarshal := fun data _ =>
      if data = [123, 125] then
        (⟨"c", 7, ["o::2025-01-01T00:00:01Z::cb", "bad", "a::b::c::d"]⟩, true)
      else (XattrMetadata.zero, false)
    ConvertBigEndianToUint64 := fun s => if s = "c" then some 43981 else none
    crc32Update := fun data => data.length
    Latest := fun flog =>
      match flog with
      | [] => (0, 0, false)
      | (u, q) :: _ => (u, q, true)
    VbucketByKey := fun key n => key.length % n
    unmarshalCounts := fun _ m => m
    unmarshalAny := fun _ m => m
    unmarshalCompileInfo := fun _ m => m
    unmarshalQueueSizes := fun _ m => m
    VbsSliceDiff := fun X Y =>
      X.filter (fun x => !Y.contains x) ++ Y.filter (fun y => !X.contains y)
    unmarshalSettings := fun data =>
      if data = [123, 34, 108, 111, 103, 95, 108, 101, 118, 101, 108, 34, 58, 34, 68, 69, 66,
          85, 71, 34, 44, 34, 115, 107, 105, 112, 95, 116, 105, 109, 101, 114, 95, 116, 104,
          114, 101, 115, 104, 111, 108, 100, 34, 58, 51, 46, 53, 44, 34, 116, 105, 99, 107, 95,
          100, 117, 114, 97, 116, 105, 111, 110, 34, 58, 53, 48, 48, 48, 125] then
        some [("log_level", JsonValue.str "DEBUG"),
          ("skip_timer_threshold", JsonValue.num 0x400c000000000000),
          ("tick_duration", JsonValue.num 0x40b3880000000000)]
      else if data = [123, 34, 115, 107, 105, 112, 95, 116, 105, 109, 101, 114, 95, 116, 104,
          114, 101, 115, 104, 111, 108, 100, 34, 58, 34, 56, 54, 52, 48, 48, 34, 125] then
        some [("skip_timer_threshold", JsonValue.str "86400")]
      else none
    intOfFloat64 := fun bits =>
      if bits = 0x400c000000000000 then 3
      else if bits = 0x40b3880000000000 then 5000
      else 0 }

/-- The metadata that `exEnv` decodes from the frame `ev\0{}\0`. -/
def exMeta : XattrMetadata :=
  ⟨"c", 7, ["o::2025-01-01T00:00:01Z::cb", "bad", "a::b::c::d"]⟩

/-- A value with a ten-byte xattr section holding the frame `ev\0{}\0`,
followed by the body `body`. -/
def exValue (body : List UInt8) : GoSlice :=
  GoSlice.ofList ([0, 0, 0, 10, 0, 0, 0, 6, 101, 118, 0, 123, 125, 0] ++ body)

/-- A consumer for the examples. -/
def exConsumer : Consumer :=
  { ConsumerName := "worker_app_0"
    HostPortAddr := "127.0.0.1:8096"
    NodeUUID := "node-a"
    uuid := "node-a"
    AppName := "app"
    numVbuckets := 1024
    debuggerState := debuggerOpcode
    sendMsgToDebugger := false
    dcpMutationCounter := 0
    dcpDeletionCounter := 0
    doctimerResponsesRecieved := 0
    errorParsingDocTimerResponses := 0
    dcpMessagesProcessed := fun _ => 0
    vbProcessingStats := fun _ _ => none
    vbStreamRequested := fun _ => false
    vbsStreamClosed := fun _ => none
    vbsRemainingToRestream := []
    sourceMap := ""
    handlerCode := ""
    latencyStats := []
    failureStats := []
    executionStats := []
    lcbExceptionStats := []
    compileInfo := ⟨"", false, 0, 0, 0, ""⟩
    cppQueueSizes := none
    workerName := "worker_app_0"
    dcpStreamBoundary := DcpEverything
    kvVbMap := fun _ => ""
    kvHostDcpFeedMap := fun _ => none
    vbDcpFeedMap := fun _ => none
    dcpFeedVbMap := fun _ => []
    dcpFeedCancelChs := 0
    workerQueueCap := 100
    feedbackQueueCap := 50
    logLevel := "INFO"
    skipTimerThreshold := 86400
    vbOwnershipGiveUpRoutineCount := 3
    vbOwnershipTakeoverRoutineCount := 3 }

/-- Inputs for the examples. -/
def exInputs : Inputs :=
  { startDebuggerSignalled := false
    getOp1 := VbucketKVBlob.zero
    getOp2 := VbucketKVBlob.zero
    shouldOwnVb := false
    nowRFC3339 := "2025-01-01T00:00:00Z"
    nowString := "2025-01-01 00:00:00 +0000 UTC" }

/-- A JSON+XATTR mutation of vbucket 5 with the given cas and body. -/
def exMutation (cas : Nat) (body : List UInt8) : DcpEvent :=
  { Opcode := Opcode.DCP_MUTATION
    Status := Status.SUCCESS
    Datatype := Datatype.dcpDatatypeJSONXattr
    VBucket := 5
    Key := "k"
    Value := exValue body
    Cas := cas
    Seqno := 1
    FailoverLog := [] }

/-- The vbucket, vbuuid and start sequence of every `DcpRequestStream` call,
in order. -/
def streamStarts (acts : List Action) : List (Nat × Nat × Nat) :=
  acts.filterMap fun a =>
    match a with
    | Action.DcpRequestStream _ vb _ _ vbuuid startSeq _ _ _ => some (vb, vbuuid, startSeq)
    | _ => none

/-- Inputs of `dcpRequestStreamHandle` for the examples: the vbucket lives on
`kv1`, no feed is stale, the feed 1 is started, the request succeeds. -/
def exStreamInputs : StreamInputs :=
  { kvVbMap := fun _ => "kv1"
    cleanup :=
      { kvAddrDcpFeedsToClose := []
        dcpFeedVbMap := fun _ => []
        getOp := fun _ => VbucketKVBlob.zero
        nowRFC3339 := "2025-01-01T00:00:00Z"
        nowString := "2025-01-01 00:00:00 +0000 UTC" }
    startedFeed := some (some 1)
    requestFails := false
    shouldOwnVb := true }

/-- A stored blob of vbucket 7 owned by node `owner`: vbuuid 99, last
processed sequence number 100, last doc-timer feedback sequence number 80. -/
def exBlob (owner : String) : VbucketKVBlob :=
  { VbucketKVBlob.zero with
    NodeUUID := owner
    VBId := 7
    VBuuid := 99
    LastSeqNoProcessed := 100
    LastDocTimerFeedbackSeqNo := 80 }

/-- Inputs of one iteration of `startDcp` that reads the blob `exBlob owner`. -/
def exStartInputs (owner : String) : StartDcpVbInputs :=
  { read := some (exBlob owner)
    nowString := "2025-01-01 00:00:00 +0000 UTC"
    nowCurrent := "2025-01-01T00:00:00Z"
    nowLast := "2025-01-01T00:00:00Z"
    nowNext := "2025-01-01T00:00:01Z"
    stream := exStreamInputs }

/-- Whether an action writes to the metadata bucket. -/
def isMetadataWrite (a : Action) : Bool :=
  match a with
  | Action.setOpCallback _ _ => true
  | Action.addOwnershipHistorySRCallback _ _ _ => true
  | Action.addOwnershipHistorySECallback _ _ => true
  | Action.updateCheckpoint _ _ _ => true
  | Action.updateCheckpointCallback _ _ => true
  | _ => false

/-- A `DCP_STREAMREQ` event of vbucket 7 with the given status, sequence
number and failover log. -/
def exStreamReq (status : Status) (seqno : Nat) (flog : FailoverLog) : DcpEvent :=
  { Opcode := Opcode.DCP_STREAMREQ
    Status := status
    Datatype := Datatype.other 0
    VBucket := 7
    Key := ""
    Value := GoSlice.ofList []
    Cas := 0
    Seqno := seqno
    FailoverLog := flog }

/-- The throttling check at the head of every iteration of `processEvents`
(lines 29-36): the calls of `time.Sleep` it makes. -/
def throttle (c : Consumer) : List Action :=
  match c.cppQueueSizes with
  | none => []
  | some q =>
    if c.workerQueueCap < q.AggQueueSize ∨ c.feedbackQueueCap < q.DocTimerQueueSize then
      [Action.timeSleep 1]
    else []

/-- The example consumer (caps 100 and 50) after the worker reported the
queue depths `agg` and `docTimer`. -/
def exConsumerQueues (agg docTimer : Int) : Consumer :=
  { exConsumer with cppQueueSizes := some ⟨agg, docTimer⟩ }

/-- A `DCP_STREAMEND` event of vbucket 7. -/
def exStreamEnd : DcpEvent :=
  { Opcode := Opcode.DCP_STREAMEND
    Status := Status.SUCCESS
    Datatype := Datatype.other 0
    VBucket := 7
    Key := ""
    Value := GoSlice.ofList []
    Cas := 0
    Seqno := 0
    FailoverLog := [] }

/-- The checkpoint calls `c.updateCheckpoint(vbKey, vb, &vbBlob)` made for
vbucket `vb`, in order. -/
def checkpointWrites (vb : Nat) (acts : List Action) : List Action :=
  acts.filter fun a =>
    match a with
    | Action.updateCheckpoint _ v _ => decide (v = vb)
    | _ => false

/-! ## `Consumer.controlRoutine`: the restream ticker (`control_routine.go`, lines 76-163) -/

/-- Answers from outside for one vbucket of the loop over `vbsToRestream`. -/
structure RestreamVbInputs where
  /-- Result of `c.checkIfVbAlreadyOwnedByCurrConsumer(vb)`. -/
  alreadyOwned : Bool
  /-- Result of `c.checkIfCurrentConsumerShouldOwnVb(vb)`. -/
  shouldOwn : Bool
  /-- The blob left in `vbBlob` by `getOpCallback`. -/
  read : VbucketKVBlob
  /-- Whether `c.updateVbOwnerAndStartDCPStream` returns an error. -/
  startFails : Bool

/-- Answers from outside for one pass of the restream retry. -/
structure RestreamInputs where
  /-- The keys of the map returned by `c.superSup.GetLocallyDeployedApps()`. -/
  deployedApps : List String
  /-- The answers for the vbucket at each position of the sorted snapshot. -/
  vbs : Nat → RestreamVbInputs

/-- The loop `for _, vb := range vbsToRestream` (lines 109-144), from
position `i` of the sorted snapshot on: the consumer after it, the calls made
and the list `vbsFailedToStartStream`.  The method
`updateVbOwnerAndStartDCPStream` is declared outside the files at hand and is
recorded as a call whose result is an input. -/
def restreamVbs (inp : Nat → RestreamVbInputs) :
    Nat → Consumer → List Nat → Consumer × List Action × List Nat
  | _, c, [] => (c, [], [])
  | i, c, vb :: rest =>
    if (inp i).alreadyOwned then restreamVbs inp (i + 1) c rest
    else if !(inp i).shouldOwn then restreamVbs inp (i + 1) c rest
    else
      let key := vbKey c vb
      let calls := [Action.getOpCallback key,
        Action.updateVbOwnerAndStartDCPStream key vb (inp i).read]
      if (inp i).startFails then
        let c1 : Consumer :=
          { c with vbStreamRequested := fun v => if v = vb then false else c.vbStreamRequested v }
        let (c2, acts, failed) := restreamVbs inp (i + 1) c1 rest
        (c2, calls ++ acts, vb :: failed)
      else
        let (c2, acts, failed) := restreamVbs inp (i + 1) c rest
        (c2, calls ++ acts, failed)

/-- One pass of the case `<-c.restartVbDcpStreamTicker.C` from the label
`retryVbsRemainingToRestream` on (lines 78-163): the consumer after the pass,
the calls made, and whether the pass ends with
`goto retryVbsRemainingToRestream`. -/
def restreamPass (env : Env) (c : Consumer) (inp : RestreamInputs) :
    Consumer × List Action × Bool :=
  let vbsToRestream := c.vbsRemainingToRestream
  if vbsToRestream.length = 0 then (c, [], false)
  else if ¬ (c.AppName ∈ inp.deployedApps) then
    ({ c with vbsRemainingToRestream := [] }, [Action.GetLocallyDeployedApps], false)
  else
    let sorted := vbsToRestream.insertionSort (· ≤ ·)
    let (c1, acts, vbsFailedToStartStream) := restreamVbs inp.vbs 0 c sorted
    let vbsToRestream2 := env.VbsSliceDiff vbsFailedToStartStream sorted
    let diff := env.VbsSliceDiff vbsToRestream2 c1.vbsRemainingToRestream
    ({ c1 with vbsRemainingToRestream := diff.insertionSort (· ≤ ·) },
      Action.GetLocallyDeployedApps :: acts, decide (diff.length > 0))

/-- The case `<-c.restartVbDcpStreamTicker.C` of `controlRoutine`: passes are
repeated while a pass ends with `goto`; `fuel` bounds their number and
`inps k` holds the answers for pass `k`. -/
def restreamTick (env : Env) (inps : Nat → RestreamInputs) :
    Nat → Nat → Consumer → Except Fault (Consumer × List Action)
  | 0, _, _ => Except.error Fault.diverge
  | fuel + 1, k, c =>
    match restreamPass env c (inps k) with
    | (c1, acts, false) => Except.ok (c1, acts)
    | (c1, acts, true) =>
      match restreamTick env inps fuel (k + 1) c1 with
      | Except.error f => Except.error f
      | Except.ok (c2, acts2) => Except.ok (c2, acts ++ acts2)

/-- Whether an action reads or writes a vbucket blob of the metadata bucket. -/
def touchesVbucketBlob (a : Action) : Bool :=
  match a with
  | Action.getOpCallback _ => true
  | Action.updateVbOwnerAndStartDCPStream _ _ _ => true
  | other => isMetadataWrite other

/-- The example consumer with the vbuckets 9, 4 and 7 left to restream. -/
def exConsumerRestream : Consumer :=
  { exConsumer with vbsRemainingToRestream := [9, 4, 7] }

/-- Answers for one pass over the sorted snapshot `[4, 7, 9]`: vbucket 4 is
already owned, the stream of vbucket 7 fails to start, the stream of vbucket 9
starts. -/
def exRestreamInputs (deployed : List String) : RestreamInputs :=
  { deployedApps := deployed
    vbs := fun i =>
      { alreadyOwned := decide (i = 0)
        shouldOwn := true
        read := VbucketKVBlob.zero
        startFails := decide (i = 1) } }

/-- The ownership entries with operation `stopped` handed to
`addOwnershipHistorySECallback`, in order. -/
def stoppedAppends (acts : List Action) : List OwnershipEntry :=
  acts.filterMap fun a =>
    match a with
    | Action.addOwnershipHistorySECallback _ entry =>
      if entry.Operation = dcpStreamStopped then some entry else none
    | _ => none

/-- Inputs of one iteration of `startDcp` for a vbucket without a stored blob. -/
def exStartInputsNew : StartDcpVbInputs :=
  { read := none
    nowString := "2025-01-01 00:00:00 +0000 UTC"
    nowCurrent := "2025-01-01T00:00:00Z"
    nowLast := "2025-01-01T00:00:00Z"
    nowNext := "2025-01-01T00:00:01Z"
    stream := exStreamInputs }

/-- The blobs handed to `setOpCallback`, in order. -/
def storedBlobs (acts : List Action) : List VbucketKVBlob :=
  acts.filterMap fun a =>
    match a with
    | Action.setOpCallback _ b => some b
    | _ => none

/-- The names by which a consumer identifies itself and its stream boundary
are the same in `c1` as in `c`. -/
def sameIdentity (c1 c : Consumer) : Prop :=
  c1.ConsumerName = c.ConsumerName ∧ c1.HostPortAddr = c.HostPortAddr ∧
    c1.NodeUUID = c.NodeUUID ∧ c1.AppName = c.AppName ∧
    c1.dcpStreamBoundary = c.dcpStreamBoundary

/-! ## The header of a worker message (`protocol.go`, `makeHeader` and `readHeader`) -/

/-- Modelled from the spec: the wire form of a header is a sequence of tagged
fields ("tagged fields, forward compatible"); the package `header` and the
FlatBuffers builder that produce it are outside the files at hand.  A length
is written in base 128, least significant digit first, every digit but the
last with its high bit set; `fuel` bounds the number of digits. -/
def encodeVarintAux : Nat → Nat → List UInt8
  | 0, _ => []
  | fuel + 1, n =>
    if n < 128 then [UInt8.ofNat n]
    else UInt8.ofNat (n % 128 + 128) :: encodeVarintAux fuel (n / 128)

/-- Modelled from the spec: the length prefix of a tagged field (see
`encodeVarintAux`). -/
def encodeVarint (n : Nat) : List UInt8 := encodeVarintAux (n + 1) n

/-- Modelled from the spec: reading of a length prefix written by
`encodeVarint`, with the bytes that follow it; `none` when the bytes end
inside the prefix. -/
def decodeVarint : List UInt8 → Option (Nat × List UInt8)
  | [] => none
  | b :: bs =>
    if b.toNat < 128 then some (b.toNat, bs)
    else
      match decodeVarint bs with
      | none => none
      | some (m, rest) => some (b.toNat - 128 + 128 * m, rest)

/-- Modelled from the spec: one tagged field on the wire: the tag (the slot
of the field in the table), the length of the payload, the payload. -/
def encodeField (tag : Nat) (payload : List UInt8) : List UInt8 :=
  UInt8.ofNat tag :: (encodeVarint payload.length ++ payload)

/-- Modelled from the spec: the wire form of a table, its fields one after
the other. -/
def encodeFields : List (Nat × List UInt8) → List UInt8
  | [] => []
  | (tag, payload) :: rest => encodeField tag payload ++ encodeFields rest

/-- Modelled from the spec: reading of the tagged fields of a buffer; `none`
when the buffer is not a sequence of fields.  `fuel` bounds the number of
fields read. -/
def decodeFields : Nat → List UInt8 → Option (List (Nat × List UInt8))
  | 0, _ => none
  | _ + 1, [] => some []
  | fuel + 1, tag :: bs =>
    match decodeVarint bs with
    | none => none
    | some (len, rest) =>
      if len ≤ rest.length then
        match decodeFields fuel (rest.drop len) with
        | none => none
        | some fields => some ((tag.toNat, rest.take len) :: fields)
      else none

/-- Modelled from the spec: the byte of an `int8` (two's complement). -/
def int8Byte (x : Int) : UInt8 := UInt8.ofNat (x % 256).toNat

/-- Modelled from the spec: the `int8` of a byte (two's complement). -/
def int8OfByte (b : UInt8) : Int :=
  if b.toNat < 128 then (b.toNat : Int) else (b.toNat : Int) - 256

/-- Modelled from the spec: the two bytes of an `int16` (two's complement,
most significant byte first). -/
def int16Bytes (x : Int) : List UInt8 :=
  [UInt8.ofNat ((x % 65536).toNat / 256), UInt8.ofNat ((x % 65536).toNat % 256)]

/-- Modelled from the spec: the `int16` of two bytes (two's complement, most
significant byte first); 0 for any other payload. -/
def int16OfBytes : List UInt8 → Int
  | [hi, lo] =>
    if hi.toNat * 256 + lo.toNat < 32768 then ((hi.toNat * 256 + lo.toNat : Nat) : Int)
    else ((hi.toNat * 256 + lo.toNat : Nat) : Int) - 65536
  | _ => 0

/-- Modelled from the spec: the FlatBuffers builder handed out by
`c.getBuilder()` is outside the files at hand.  It holds the strings created
so far (the offset of a string is its position counted from 1, offset 0 is
"no string"), the fields of the table under construction and the finished
bytes. -/
structure Builder where
  strings : List (List UInt8)
  fields : List (Nat × List UInt8)
  finished : List UInt8
  deriving DecidableEq, Repr

/-- Modelled from the spec: the builder returned by `c.getBuilder()`, empty. -/
def getBuilder : Builder := ⟨[], [], []⟩

/-- Modelled from the spec: `builder.CreateString(s)`, the offset of the new
string and the builder that holds it. -/
def Builder.CreateString (b : Builder) (s : List UInt8) : Nat × Builder :=
  (b.strings.length + 1, { b with strings := b.strings ++ [s] })

/-- Modelled from the spec: `header.HeaderStart(builder)` opens a table
without fields. -/
def HeaderStart (b : Builder) : Builder := { b with fields := [] }

/-- Modelled from the spec: `header.HeaderAddEvent(builder, event)` sets slot
0; a value equal to the default 0 is not written. -/
def HeaderAddEvent (b : Builder) (event : Int) : Builder :=
  if event = 0 then b else { b with fields := b.fields ++ [(0, [int8Byte event])] }

/-- Modelled from the spec: `header.HeaderAddOpcode(builder, opcode)` sets
slot 1; a value equal to the default 0 is not written. -/
def HeaderAddOpcode (b : Builder) (opcode : Int) : Builder :=
  if opcode = 0 then b else { b with fields := b.fields ++ [(1, [int8Byte opcode])] }

/-- Modelled from the spec: `header.HeaderAddPartition(builder, partition)`
sets slot 2; a value equal to the default 0 is not written. -/
def HeaderAddPartition (b : Builder) (partition : Int) : Builder :=
  if partition = 0 then b else { b with fields := b.fields ++ [(2, int16Bytes partition)] }

/-- Modelled from the spec: `header.HeaderAddMetadata(builder, metadata)`
sets slot 3 to the string at offset `metadata`; offset 0 is not written. -/
def HeaderAddMetadata (b : Builder) (metadata : Nat) : Builder :=
  if metadata = 0 then b
  else { b with fields := b.fields ++ [(3, b.strings.getD (metadata - 1) [])] }

/-- Modelled from the spec: `header.HeaderEnd(builder)` closes the table and
returns it as the position of the header. -/
def HeaderEnd (b : Builder) : List (Nat × List UInt8) × Builder :=
  (b.fields, { b with fields := [] })

/-- Modelled from the spec: `builder.Finish(headerPos)` writes the table as
tagged fields. -/
def Builder.Finish (b : Builder) (headerPos : List (Nat × List UInt8)) : Builder :=
  { b with finished := encodeFields headerPos }

/-- Modelled from the spec: `builder.FinishedBytes()`. -/
def Builder.FinishedBytes (b : Builder) : List UInt8 := b.finished

/-- The function `Consumer.makeHeader(event, opcode, partition, meta)`
(`protocol.go`, lines 155-172); `metaStr` is the Go string `meta` as bytes. -/
def makeHeader (event opcode partition : Int) (metaStr : List UInt8) : List UInt8 :=
  let builder := getBuilder
  let (metadata, builder1) := builder.CreateString metaStr
  let builder2 := HeaderStart builder1
  let builder3 := HeaderAddEvent builder2 event
  let builder4 := HeaderAddOpcode builder3 opcode
  let builder5 := HeaderAddPartition builder4 partition
  let builder6 := HeaderAddMetadata builder5 metadata
  let (headerPos, builder7) := HeaderEnd builder6
  let builder8 := builder7.Finish headerPos
  builder8.FinishedBytes

/-- Modelled from the spec: the table view `header.Header` returned by
`header.GetRootAsHeader(buf, 0)`: the tagged fields read from the buffer (none
when the buffer is malformed). -/
def GetRootAsHeader (buf : List UInt8) : List (Nat × List UInt8) :=
  (decodeFields (buf.length + 1) buf).getD []

/-- Modelled from the spec: the payload of the first field with tag `slot`. -/
def slotOf (slot : Nat) : List (Nat × List UInt8) → Option (List UInt8)
  | [] => none
  | (tag, payload) :: rest => if tag = slot then some payload else slotOf slot rest

/-- Modelled from the spec: the accessor `Header.Event()`, 0 when slot 0 is
absent. -/
def HeaderEvent (h : List (Nat × List UInt8)) : Int :=
  match slotOf 0 h with
  | some [b] => int8OfByte b
  | _ => 0

/-- Modelled from the spec: the accessor `Header.Opcode()`, 0 when slot 1 is
absent. -/
def HeaderOpcode (h : List (Nat × List UInt8)) : Int :=
  match slotOf 1 h with
  | some [b] => int8OfByte b
  | _ => 0

/-- Modelled from the spec: the accessor `Header.Partition()`, 0 when slot 2
is absent. -/
def HeaderPartition (h : List (Nat × List UInt8)) : Int :=
  match slotOf 2 h with
  | some bs => int16OfBytes bs
  | none => 0

/-- Modelled from the spec: the accessor `Header.Metadata()`, empty when slot
3 is absent. -/
def HeaderMetadata (h : List (Nat × List UInt8)) : List UInt8 :=
  (slotOf 3 h).getD []

/-- The function `readHeader(buf)` (`protocol.go`, lines 313-323): it reads
event, opcode and metadata, logs them and returns the event. -/
def readHeader (buf : List UInt8) : Int :=
  HeaderEvent (GetRootAsHeader buf)

/-- A `DCP_MUTATION` event of vbucket 5 with datatype JSON and body `{}`. -/
def exJsonMutation : DcpEvent :=
  { Opcode := Opcode.DCP_MUTATION
    Status := Status.SUCCESS
    Datatype := Datatype.dcpDatatypeJSON
    VBucket := 5
    Key := "k"
    Value := GoSlice.ofList [123, 125]
    Cas := 1
    Seqno := 1
    FailoverLog := [] }

/-- A `DCP_DELETION` event of vbucket 5. -/
def exDeletion : DcpEvent :=
  { Opcode := Opcode.DCP_DELETION
    Status := Status.SUCCESS
    Datatype := Datatype.other 0
    VBucket := 5
    Key := "k"
    Value := GoSlice.ofList []
    Cas := 2
    Seqno := 2
    FailoverLog := [] }

/-- A JSON+XATTR mutation of vbucket 5 whose xattr section holds one frame
`xx\0{}\0` (no eventing frame), followed by the given body. -/
def exForeignXattrMutation (body : List UInt8) : DcpEvent :=
  { exMutation 1 body with
    Value := GoSlice.ofList ([0, 0, 0, 10, 0, 0, 0, 6, 120, 120, 0, 123, 125, 0] ++ body) }

/-- A `DCP_MUTATION` event of vbucket 5 with a datatype other than JSON and
JSON+XATTR. -/
def exRawMutation : DcpEvent :=
  { exJsonMutation with Datatype := Datatype.other 0 }

/-- The example consumer with the debugger about to start. -/
def exConsumerStartDebug : Consumer :=
  { exConsumer with debuggerState := startDebug }

/-- A JSON+XATTR mutation of vbucket 5 whose value is the given byte string. -/
def exXattrMutationOf (value : List UInt8) : DcpEvent :=
  { exMutation 1 [] with Value := GoSlice.ofList value }

/-! ## Producer and supervisor (`producer/exported_functions.go`,
`supervisor/exported_functions.go`) -/

/-- Read of a Go map with string keys, kept as the list of its entries:
`v, ok := m[k]`. -/
def mapGet {V : Type} : List (String × V) → String → Option V
  | [], _ => none
  | (k0, v0) :: m, k => if k = k0 then some v0 else mapGet m k

/-- Write of a Go map with string keys: `m[k] = v`. -/
def mapSet {V : Type} : List (String × V) → String → V → List (String × V)
  | [], k, v => [(k, v)]
  | (k0, v0) :: m, k, v => if k = k0 then (k0, v) :: m else (k0, v0) :: mapSet m k v

/-- Conversion of an integer to Go's 64-bit `int` (two's complement). -/
def goInt (x : Int) : Int := (x + 2 ^ 63) % 2 ^ 64 - 2 ^ 63

/-- The struct `common.RebalanceProgress`. -/
structure RebalanceProgress where
  VbsRemainingToShuffle : Int
  VbsOwnedPerPlan : Int
  deriving DecidableEq, Repr

/-- A running consumer as the producer sees it through the interface
`common.EventingConsumer`: each field is what the method of that name returns. -/
structure EventingConsumer where
  ConsumerName : String
  GetLatencyStats : List (String × Nat)
  GetLcbExceptionsStats : List (String × Nat)
  GetEventProcessingStats : List (String × Nat)
  RebalanceStatus : Bool
  RebalanceTaskProgress : RebalanceProgress
  deriving Repr

/-- The fields of `Producer` read by the functions at hand. -/
structure Producer where
  runningConsumers : List EventingConsumer
  deriving Repr

/-- The body of the aggregation loops on a `map[string]uint64`: the key is
stored with 0 when `_, ok := m[k]` gives `!ok`, then `m[k] += v`. -/
def addStat (m : List (String × Nat)) (k : String) (v : Nat) : List (String × Nat) :=
  let m1 := if (mapGet m k).isSome then m else mapSet m k 0
  mapSet m1 k (u64 ((mapGet m1 k).getD 0 + v))

/-- The function `Producer.GetLatencyStats` (lines 42-55). -/
def Producer.GetLatencyStats (p : Producer) : List (String × Nat) :=
  p.runningConsumers.foldl
    (fun latencyStats c =>
      c.GetLatencyStats.foldl (fun m kv => addStat m kv.1 kv.2) latencyStats) []

/-- The function `Producer.GetLcbExceptionsStats` (lines 106-119). -/
def Producer.GetLcbExceptionsStats (p : Producer) : List (String × Nat) :=
  p.runningConsumers.foldl
    (fun exceptionStats c =>
      c.GetLcbExceptionsStats.foldl (fun m kv => addStat m kv.1 kv.2) exceptionStats) []

/-- The function `Producer.GetEventProcessingStats` (lines 127-140). -/
def Producer.GetEventProcessingStats (p : Producer) : List (String × Nat) :=
  p.runningConsumers.foldl
    (fun aggStats consumer =>
      consumer.GetEventProcessingStats.foldl (fun m kv => addStat m kv.1 kv.2) aggStats) []

/-- The function `Producer.RebalanceTaskProgress` (lines 500-513); `+=` on the
`int` fields wraps at 64 bits. -/
def Producer.RebalanceTaskProgress (p : Producer) : RebalanceProgress :=
  p.runningConsumers.foldl
    (fun producerLevelProgress consumer =>
      { VbsRemainingToShuffle :=
          goInt (producerLevelProgress.VbsRemainingToShuffle +
            consumer.RebalanceTaskProgress.VbsRemainingToShuffle)
        VbsOwnedPerPlan :=
          goInt (producerLevelProgress.VbsOwnedPerPlan +
            consumer.RebalanceTaskProgress.VbsOwnedPerPlan) })
    { VbsRemainingToShuffle := 0, VbsOwnedPerPlan := 0 }

/-- The loop `for _, rebStatus := range statuses` that returns `true` at the
first `true` value and `false` after the last one. -/
def anyStatus (statuses : List (String × Bool)) : Bool :=
  statuses.any fun kv => kv.2

/-- The function `Producer.RebalanceStatus` (lines 747-766). -/
def Producer.RebalanceStatus (p : Producer) : Bool :=
  let consumerRebStatuses : List (String × Bool) :=
    p.runningConsumers.foldl (fun m c => mapSet m c.ConsumerName c.RebalanceStatus) []
  anyStatus consumerRebStatuses

/-- The fields of `SuperSupervisor` read by the functions at hand; every map is
the list of its entries. -/
structure SuperSupervisor where
  appDeploymentStatus : List (String × Bool)
  appProcessingStatus : List (String × Bool)
  runningProducers : List (String × Producer)
  deriving Repr

/-- App state `common.AppState` (`iota` = 0 in `common.go`). -/
def AppState : Int := 0

/-- App state `common.AppStateUndeployed`. -/
def AppStateUndeployed : Int := 1

/-- App state `common.AppStateEnabled`. -/
def AppStateEnabled : Int := 2

/-- App state `common.AppStateDisabled`. -/
def AppStateDisabled : Int := 3

/-- App state `common.AppStateUnexpected`. -/
def AppStateUnexpected : Int := 4

/-- The function `SuperSupervisor.GetAppState` (lines 178-197); a map read of
an absent key gives `false`. -/
def SuperSupervisor.GetAppState (s : SuperSupervisor) (appName : String) : Int :=
  if (mapGet s.appDeploymentStatus appName).getD false = true then
    if (mapGet s.appProcessingStatus appName).getD false = true then AppStateEnabled
    else if (mapGet s.appProcessingStatus appName).getD false = false then AppStateDisabled
    else AppState
  else if (mapGet s.appDeploymentStatus appName).getD false = false then
    if (mapGet s.appDeploymentStatus appName).getD false = true then AppStateUnexpected
    else if (mapGet s.appDeploymentStatus appName).getD false = false then AppStateUndeployed
    else AppState
  else AppState

/-- The function `SuperSupervisor.RebalanceStatus` (lines 300-319). -/
def SuperSupervisor.RebalanceStatus (s : SuperSupervisor) : Bool :=
  let rebalanceStatuses : List (String × Bool) :=
    s.runningProducers.foldl (fun m ap => mapSet m ap.1 ap.2.RebalanceStatus) []
  anyStatus rebalanceStatuses

/-- The values reported under the key `k` in a list of map entries. -/
def statValues (k : String) (stats : List (String × Nat)) : List Nat :=
  stats.filterMap fun kv => if kv.1 = k then some kv.2 else none

/-- A supervisor with the app `a` deployed and processing, the app `b`
deployed with processing off, and the app `c` undeployed with processing on. -/
def exSupervisor : SuperSupervisor :=
  { appDeploymentStatus := [("a", true), ("b", true), ("c", false)]
    appProcessingStatus := [("a", true), ("b", false), ("c", true)]
    runningProducers := [] }

/-- Two running consumers, the second of which reports an ongoing rebalance. -/
def exProducer : Producer :=
  { runningConsumers :=
      [ { ConsumerName := "worker_app_0"
          GetLatencyStats := [("100", 3), ("200", 1)]
          GetLcbExceptionsStats := [("12", 1)]
          GetEventProcessingStats := [("DCP_MUTATION", 18446744073709551615)]
          RebalanceStatus := false
          RebalanceTaskProgress := ⟨2, 512⟩ },
        { ConsumerName := "worker_app_1"
          GetLatencyStats := [("200", 4)]
          GetLcbExceptionsStats := []
          GetEventProcessingStats := [("DCP_MUTATION", 2), ("DCP_DELETION", 5)]
          RebalanceStatus := true
          RebalanceTaskProgress := ⟨1, 512⟩ } ] }

/-- A supervisor that runs `exProducer` under the app name `app` and a
producer without consumers under the app name `idle`. -/
def exSupervisorRunning : SuperSupervisor :=
  { exSupervisor with
    runningProducers := [("app", exProducer), ("idle", { runningConsumers := [] })] }

/-- The values that the given reports of the running consumers hold under the
key `k`, consumer after consumer. -/
def reportedValues (k : String) (reports : List (List (String × Nat))) : List Nat :=
  (reports.map (statValues k)).flatten

/-! ## `Consumer.controlRoutine`: a settings change (`control_routine.go`, lines 37-74) -/

/-- The block `if val, ok := settings["log_level"]; ok`: the type assertion
`val.(string)` panics on a value that is not a string. -/
def applyLogLevel (c : Consumer) (settings : List (String × JsonValue)) :
    Except Fault (Consumer × List Action) :=
  match mapGet settings "log_level" with
  | none => Except.ok (c, [])
  | some (JsonValue.str s) =>
    Except.ok ({ c with logLevel := s }, [Action.SetLogLevel s, Action.sendLogLevel s false])
  | some _ => Except.error Fault.panic

/-- The expression `int(val.(float64))` for the value stored under `key`, when
the key is present; the type assertion panics on a value that is not a number. -/
def intSetting (env : Env) (settings : List (String × JsonValue)) (key : String) :
    Except Fault (Option Int) :=
  match mapGet settings key with
  | none => Except.ok none
  | some (JsonValue.num bits) => Except.ok (some (env.intOfFloat64 bits))
  | some _ => Except.error Fault.panic

/-- The case `<-c.signalSettingsChangeCh` of `controlRoutine`; `sData` is the
result of `util.MetakvGet(settingsPath)`, `none` when it returns an error. -/
def settingsChange (env : Env) (c : Consumer) (sData : Option (List UInt8)) :
    Except Fault (Consumer × List Action) :=
  match sData with
  | none => Except.ok (c, [])
  | some data =>
    match env.unmarshalSettings data with
    | none => Except.ok (c, [])
    | some settings =>
      match applyLogLevel c settings with
      | Except.error f => Except.error f
      | Except.ok (c1, acts) =>
        match intSetting env settings "skip_timer_threshold" with
        | Except.error f => Except.error f
        | Except.ok skip =>
          let c2 := { c1 with skipTimerThreshold := skip.getD c1.skipTimerThreshold }
          match intSetting env settings "vb_ownership_giveup_routine_count" with
          | Except.error f => Except.error f
          | Except.ok giveup =>
            let c3 :=
              { c2 with
                vbOwnershipGiveUpRoutineCount := giveup.getD c2.vbOwnershipGiveUpRoutineCount }
            match intSetting env settings "vb_ownership_takeover_routine_count" with
            | Except.error f => Except.error f
            | Except.ok takeover =>
              Except.ok
                ({ c3 with
                    vbOwnershipTakeoverRoutineCount :=
                      takeover.getD c3.vbOwnershipTakeoverRoutineCount },
                  acts)

/-- Whether the value stored under `key`, if any, is a JSON string. -/
def stringOrAbsent (settings : List (String × JsonValue)) (key : String) : Prop :=
  mapGet settings key = none ∨ ∃ s, mapGet settings key = some (JsonValue.str s)

/-- Whether the value stored under `key`, if any, is a JSON number. -/
def numberOrAbsent (settings : List (String × JsonValue)) (key : String) : Prop :=
  mapGet settings key = none ∨ ∃ bits, mapGet settings key = some (JsonValue.num bits)

/-- The string stored under `key`, or `old` when the key is absent. -/
def stringSetting (settings : List (String × JsonValue)) (key : String) (old : String) :
    String :=
  match mapGet settings key with
  | some (JsonValue.str s) => s
  | _ => old

/-- The number stored under `key` converted with `int(...)`, or `old` when the
key is absent. -/
def numberSetting (env : Env) (settings : List (String × JsonValue)) (key : String)
    (old : Int) : Int :=
  match mapGet settings key with
  | some (JsonValue.num bits) => env.intOfFloat64 bits
  | _ => old

/-- The bytes of `{"log_level":"DEBUG","skip_timer_threshold":3.5,"tick_duration":5000}`. -/
def exSettingsBytes : List UInt8 :=
  [123, 34, 108, 111, 103, 95, 108, 101, 118, 101, 108, 34, 58, 34, 68, 69, 66,
    85, 71, 34, 44, 34, 115, 107, 105, 112, 95, 116, 105, 109, 101, 114, 95, 116, 104,
    114, 101, 115, 104, 111, 108, 100, 34, 58, 51, 46, 53, 44, 34, 116, 105, 99, 107, 95,
    100, 117, 114, 97, 116, 105, 111, 110, 34, 58, 53, 48, 48, 48, 125]

/-- The bytes of `{"skip_timer_threshold":"86400"}`. -/
def exSettingsBytesMistyped : List UInt8 :=
  [123, 34, 115, 107, 105, 112, 95, 116, 105, 109, 101, 114, 95, 116, 104,
    114, 101, 115, 104, 111, 108, 100, 34, 58, 34, 56, 54, 52, 48, 48, 34, 125]

/-! ## The dispatch pipeline: `addToAggChan` and the loop of `processEvents` -/

/-- The outcome of one `select` of the goroutine of `addToAggChan`: an event
received from `dcpFeed.C`, the channel `dcpFeed.C` found closed (`kvAddr` is
the address that the loop over `c.kvHostDcpFeedMap` finds for the feed, the
empty string when it finds none), or a receive from `cancelCh`. -/
inductive FeedSelect
  | event (e : DcpEvent)
  | closed (kvAddr : String)
  | cancel
  deriving DecidableEq, Repr

/-- The goroutine started by `addToAggChan` (lines 548-592), run over the
outcomes of its `select` in order: the consumer it leaves and the events it
sends on `c.aggDCPFeed`, in order.  An event is sent before the next `select`;
a closed `dcpFeed.C` deletes the entry of the feed from `kvHostDcpFeedMap` and
returns; a receive from `cancelCh` returns. -/
def addToAggChan (c : Consumer) : List FeedSelect → Consumer × List DcpEvent
  | [] => (c, [])
  | FeedSelect.event e :: rest =>
    let (c1, sent) := addToAggChan c rest
    (c1, e :: sent)
  | FeedSelect.closed kvAddr :: _ =>
    ({ c with kvHostDcpFeedMap := fun a => if a = kvAddr then none else c.kvHostDcpFeedMap a },
      [])
  | FeedSelect.cancel :: _ => (c, [])

/-- The orders in which a channel can deliver what several goroutines send on
it: every goroutine's sends are delivered in the order it made them, and the
sends of different goroutines are interleaved in any way.  In
`ChannelOrder senders out`, `senders` holds for each goroutine the events it
has still to send, `out` the events as the receiver gets them. -/
inductive ChannelOrder : List (List DcpEvent) → List DcpEvent → Prop
  | done (senders : List (List DcpEvent)) :
      (∀ s ∈ senders, s = []) → ChannelOrder senders []
  | recv (pre post : List (List DcpEvent)) (e : DcpEvent) (s out : List DcpEvent) :
      ChannelOrder (pre ++ s :: post) out →
      ChannelOrder (pre ++ (e :: s) :: post) (e :: out)

/-- The event that an iteration of `processEvents` hands to `sendDcpEvent` for
the event `e`, if any (lines 78-209 and 228-234): a JSON mutation and a
deletion as they are; a JSON+XATTR mutation with its value cut down to the
document body, when its eventing cas is empty or differs from the cas of the
event while the checksum of the body differs from the stored digest; nothing
otherwise. -/
def handedOver (env : Env) (e : DcpEvent) : Option DcpEvent :=
  match e.Opcode with
  | Opcode.DCP_MUTATION =>
    match e.Datatype with
    | Datatype.dcpDatatypeJSON => some e
    | Datatype.dcpDatatypeJSONXattr =>
      match decodeXattrs env e.Value with
      | Except.error _ => none
      | Except.ok (totalXattrLen, xMeta) =>
        match e.Value.sliceFrom (u32 (4 + totalXattrLen)) with
        | none => none
        | some body =>
          if xMeta.Cas = "" then some { e with Value := body }
          else
            match env.ConvertBigEndianToUint64 xMeta.Cas with
            | none => none
            | some cas =>
              if cas ≠ e.Cas ∧ env.crc32Update body.toList ≠ xMeta.Digest then
                some { e with Value := body }
              else none
    | Datatype.other _ => none
  | Opcode.DCP_DELETION => some e
  | _ => none

/-- The loop `for` of `processEvents` over the events it receives from
`aggDCPFeed`, in order; `inp i` holds the answers from outside for the
iteration number `i`. -/
def processEventsLoop (env : Env) (inp : Nat → Inputs) :
    Consumer → Nat → List DcpEvent → Except Fault (Consumer × List Action)
  | c, _, [] => Except.ok (c, [])
  | c, i, e :: rest =>
    match processEvents env c e (inp i) with
    | Except.error f => Except.error f
    | Except.ok (c1, acts1) =>
      match processEventsLoop env inp c1 (i + 1) rest with
      | Except.error f => Except.error f
      | Except.ok (c2, acts2) => Except.ok (c2, acts1 ++ acts2)

/-- The events whose `sendDcpEvent` call is started with a `go` statement. -/
def startedAsGoroutine (acts : List Action) : List DcpEvent :=
  acts.filterMap fun a =>
    match a with
    | Action.sendDcpEvent e _ true => some e
    | _ => none

/-- The orders in which the calls of `sendDcpEvent` recorded in a trace can
hand their events to the worker.  A plain call hands its event over at its
place in the program; a call started with a `go` statement joins the started
goroutines, each of which hands its event over at any later moment.  In
`HandOff acts started out`, `acts` is the rest of the program, `started` the
goroutines started and not yet run, `out` the events in the order of hand-off. -/
inductive HandOff : List Action → List DcpEvent → List DcpEvent → Prop
  | done : HandOff [] [] []
  | call (e : DcpEvent) (d : Bool) (rest : List Action) (started out : List DcpEvent) :
      HandOff rest started out →
      HandOff (Action.sendDcpEvent e d false :: rest) started (e :: out)
  | go (e : DcpEvent) (d : Bool) (rest : List Action) (started out : List DcpEvent) :
      HandOff rest (started ++ [e]) out →
      HandOff (Action.sendDcpEvent e d true :: rest) started out
  | run (e : DcpEvent) (acts : List Action) (pre post out : List DcpEvent) :
      HandOff acts (pre ++ post) out →
      HandOff acts (pre ++ e :: post) (e :: out)
  | skip (a : Action) (rest : List Action) (started out : List DcpEvent) :
      forwardedToWorker [a] = [] →
      HandOff rest started out →
      HandOff (a :: rest) started out

/-- An event that the mutation or deletion case forwards as it is: a JSON
mutation or a deletion. -/
def forwardedAsIs (e : DcpEvent) : Prop :=
  (e.Opcode = Opcode.DCP_MUTATION ∧ e.Datatype = Datatype.dcpDatatypeJSON) ∨
    e.Opcode = Opcode.DCP_DELETION

/-- Inputs of an iteration during which the debugger start is signalled. -/
def exInputsDebug : Inputs :=
  { exInputs with startDebuggerSignalled := true }

/-! ## The checkpoint store (spec, section 4.1) -/

theorem debuggerHandshake_counter (c : Consumer) (inp : Inputs) :
    (debuggerHandshake c inp).1.dcpMutationCounter = c.dcpMutationCounter := by
  unfold debuggerHandshake
  split
  · split <;> rfl
  · rfl

theorem debuggerHandshake_forwarded (c : Consumer) (inp : Inputs) :
    forwardedToWorker (debuggerHandshake c inp).2 = [] := by
  unfold debuggerHandshake
  split
  · split <;> rfl
  · rfl

theorem debuggerHandshake_timers (c : Consumer) (inp : Inputs) :
    sentToTimerStore (debuggerHandshake c inp).2 = [] := by
  unfold debuggerHandshake
  split
  · split <;> rfl
  · rfl

theorem debuggerHandshake_debugger (c : Consumer) (inp : Inputs) :
    (debuggerHandshake c inp).1.sendMsgToDebugger =
      (c.sendMsgToDebugger || (decide (c.debuggerState = startDebug) &&
        inp.startDebuggerSignalled)) := by
  unfold debuggerHandshake
  by_cases h : c.debuggerState = startDebug
  · by_cases h2 : inp.startDebuggerSignalled <;> simp [h, h2]
  · simp [h]

theorem forwardedToWorker_append (a b : List Action) :
    forwardedToWorker (a ++ b) = forwardedToWorker a ++ forwardedToWorker b := by
  simp [forwardedToWorker, List.filterMap_append]

theorem sentToTimerStore_append (a b : List Action) :
    sentToTimerStore (a ++ b) = sentToTimerStore a ++ sentToTimerStore b := by
  simp [sentToTimerStore, List.filterMap_append]

theorem enqueueTimers_forwarded (e : DcpEvent) (timers : List String) :
    forwardedToWorker (enqueueTimers e timers) = [] := by
  induction timers with
  | nil => rfl
  | cons t ts ih =>
    unfold enqueueTimers at ih ⊢
    unfold forwardedToWorker at ih ⊢
    by_cases h : (stringsSplit t).length = 3
    · simp [List.filterMap_cons, h] at ih ⊢
      exact ih
    · simp [List.filterMap_cons, h] at ih ⊢
      exact ih

theorem enqueueTimers_timers (e : DcpEvent) (timers : List String) :
    sentToTimerStore (enqueueTimers e timers) =
      (timers.filter hasThreeFields).map (timerEntryOf e) := by
  induction timers with
  | nil => rfl
  | cons t ts ih =>
    unfold enqueueTimers at ih ⊢
    unfold sentToTimerStore at ih ⊢
    by_cases h : (stringsSplit t).length = 3
    · simp [List.filterMap_cons, h, hasThreeFields, timerEntryOf] at ih ⊢
      exact ih
    · simp [List.filterMap_cons, h, hasThreeFields] at ih ⊢
      exact ih

/-- Unfolding of one iteration of `processEvents` on a JSON+XATTR mutation. -/
theorem processEvents_xattr (env : Env) (c : Consumer) (e : DcpEvent) (inp : Inputs)
    (hop : e.Opcode = Opcode.DCP_MUTATION)
    (hdt : e.Datatype = Datatype.dcpDatatypeJSONXattr) :
    processEvents env c e inp =
      match processXattrMutation env (debuggerHandshake (countMessage c e) inp).1 e with
      | Except.error f => Except.error f
      | Except.ok (c2, acts2) =>
        Except.ok (c2, (debuggerHandshake (countMessage c e) inp).2 ++ acts2) := by
  unfold processEvents processMutation
  simp only [hop, hdt]

/-! ## C1: a mutation written by the handler itself is suppressed -/

/-- C1: a JSON+XATTR mutation whose eventing xattr has a non-empty cas that
decodes to the cas of the event is not forwarded to the worker
(`sendDcpEvent` is not called, `dcpMutationCounter` keeps its value), and the
timer store channel receives exactly one entry for each element of
`xattr.timers` with three fields, in list order. -/
theorem C1_suppress_on_equal_cas (env : Env) (c : Consumer) (e : DcpEvent) (inp : Inputs)
    (totalXattrLen : Nat) (xMeta : XattrMetadata)
    (hop : e.Opcode = Opcode.DCP_MUTATION)
    (hdt : e.Datatype = Datatype.dcpDatatypeJSONXattr)
    (hdec : decodeXattrs env e.Value = Except.ok (totalXattrLen, xMeta))
    (hcas : xMeta.Cas ≠ "")
    (hconv : env.ConvertBigEndianToUint64 xMeta.Cas = some e.Cas) :
    ∃ c2 acts, processEvents env c e inp = Except.ok (c2, acts) ∧
      forwardedToWorker acts = [] ∧
      c2.dcpMutationCounter = c.dcpMutationCounter ∧
      sentToTimerStore acts = (xMeta.Timers.filter hasThreeFields).map (timerEntryOf e) := by
  refine ⟨(debuggerHandshake (countMessage c e) inp).1,
    (debuggerHandshake (countMessage c e) inp).2 ++ enqueueTimers e xMeta.Timers, ?_, ?_, ?_, ?_⟩
  · rw [processEvents_xattr env c e inp hop hdt]
    simp [processXattrMutation, hdec, hcas, hconv]
  · rw [forwardedToWorker_append, debuggerHandshake_forwarded, enqueueTimers_forwarded]
    rfl
  · rw [debuggerHandshake_counter]
    rfl
  · rw [sentToTimerStore_append, debuggerHandshake_timers, enqueueTimers_timers]
    rfl

/-- C1 at a concrete mutation: cas `0xABCD`, body `v`, timers as in `exMeta`. -/
theorem C1_suppress_on_equal_cas_witness :
    ∃ c2 acts, processEvents exEnv exConsumer (exMutation 43981 [118]) exInputs =
        Except.ok (c2, acts) ∧
      forwardedToWorker acts = [] ∧
      c2.dcpMutationCounter = exConsumer.dcpMutationCounter ∧
      sentToTimerStore acts =
        (exMeta.Timers.filter hasThreeFields).map (timerEntryOf (exMutation 43981 [118])) :=
  C1_suppress_on_equal_cas exEnv exConsumer (exMutation 43981 [118]) exInputs 10 exMeta
    rfl rfl rfl (by decide) rfl

/-! ## C2: cas and checksum both differ -/

/-- C2 (as amended): a JSON+XATTR mutation whose eventing xattr cas decodes to
a value different from the cas of the event and whose document body has a
CRC32 different from `xattr.digest` is forwarded to the worker exactly once,
with the body as its value and `dcpMutationCounter` increased by one; nothing
is sent to the timer store. -/
theorem C2_forward_on_diverged_content (env : Env) (c : Consumer) (e : DcpEvent) (inp : Inputs)
    (totalXattrLen cas : Nat) (xMeta : XattrMetadata) (body : GoSlice)
    (hop : e.Opcode = Opcode.DCP_MUTATION)
    (hdt : e.Datatype = Datatype.dcpDatatypeJSONXattr)
    (hdec : decodeXattrs env e.Value = Except.ok (totalXattrLen, xMeta))
    (hcas : xMeta.Cas ≠ "")
    (hconv : env.ConvertBigEndianToUint64 xMeta.Cas = some cas)
    (hne : cas ≠ e.Cas)
    (hbody : e.Value.sliceFrom (u32 (4 + totalXattrLen)) = some body)
    (hcrc : env.crc32Update body.toList ≠ xMeta.Digest) :
    ∃ c2 acts, processEvents env c e inp = Except.ok (c2, acts) ∧
      forwardedToWorker acts = [{ e with Value := body }] ∧
      c2.dcpMutationCounter = u64 (c.dcpMutationCounter + 1) ∧
      sentToTimerStore acts = [] := by
  refine ⟨(forwardMutation (debuggerHandshake (countMessage c e) inp).1
      { e with Value := body }).1,
    (debuggerHandshake (countMessage c e) inp).2 ++
      (forwardMutation (debuggerHandshake (countMessage c e) inp).1
        { e with Value := body }).2, ?_, ?_, ?_, ?_⟩
  · rw [processEvents_xattr env c e inp hop hdt]
    simp [processXattrMutation, hdec, hcas, hconv, hne, hbody, hcrc]
  · rw [forwardedToWorker_append, debuggerHandshake_forwarded]
    rfl
  · show u64 ((debuggerHandshake (countMessage c e) inp).1.dcpMutationCounter + 1) = _
    rw [debuggerHandshake_counter]
    rfl
  · rw [sentToTimerStore_append, debuggerHandshake_timers]
    rfl

/-- C2 at a concrete mutation: xattr cas `0xABCD`, event cas 1, body `v`. -/
theorem C2_forward_on_diverged_content_witness :
    ∃ c2 acts, processEvents exEnv exConsumer (exMutation 1 [118]) exInputs =
        Except.ok (c2, acts) ∧
      forwardedToWorker acts =
        [{ exMutation 1 [118] with Value := ⟨[118], 1⟩ }] ∧
      c2.dcpMutationCounter = u64 (exConsumer.dcpMutationCounter + 1) ∧
      sentToTimerStore acts = [] :=
  C2_forward_on_diverged_content exEnv exConsumer (exMutation 1 [118]) exInputs 10 43981 exMeta
    ⟨[118], 1⟩ rfl rfl rfl (by decide) rfl (by decide) rfl (by decide)

/-- C2 as stated fails: the mutation with xattr cas `0xABCD`, event cas 1 and
body `v` (checksum 1, digest 7) carries the three-field timer
`o::2025-01-01T00:00:01Z::cb`, it is forwarded to the worker, and no entry
reaches the timer store. -/
theorem C2_counterexample :
    decodeXattrs exEnv (exMutation 1 [118]).Value = Except.ok (10, exMeta) ∧
    exEnv.ConvertBigEndianToUint64 exMeta.Cas = some 43981 ∧
    43981 ≠ (exMutation 1 [118]).Cas ∧
    (exMutation 1 [118]).Value.sliceFrom (u32 (4 + 10)) = some ⟨[118], 1⟩ ∧
    exEnv.crc32Update (GoSlice.toList ⟨[118], 1⟩) ≠ exMeta.Digest ∧
    (exMeta.Timers.filter hasThreeFields).map (timerEntryOf (exMutation 1 [118])) =
      [⟨"cb", "k", "2025-01-01T00:00:01Z", 5⟩] ∧
    ∃ c2 acts, processEvents exEnv exConsumer (exMutation 1 [118]) exInputs =
        Except.ok (c2, acts) ∧
      forwardedToWorker acts = [{ exMutation 1 [118] with Value := ⟨[118], 1⟩ }] ∧
      sentToTimerStore acts = [] :=
  ⟨rfl, rfl, by decide, rfl, by decide, by decide,
    (forwardMutation (debuggerHandshake (countMessage exConsumer (exMutation 1 [118]))
      exInputs).1 { exMutation 1 [118] with Value := ⟨[118], 1⟩ }).1,
    _, rfl, rfl, rfl⟩

/-! ## C3: cas differs, checksum equal -/

/-- C3: a JSON+XATTR mutation whose eventing xattr cas differs from the cas of
the event but whose document body has CRC32 equal to `xattr.digest` is not
forwarded to the worker; only the three-field entries of `xattr.timers` are
sent to the timer store, in list order. -/
theorem C3_timers_only_on_equal_digest (env : Env) (c : Consumer) (e : DcpEvent) (inp : Inputs)
    (totalXattrLen cas : Nat) (xMeta : XattrMetadata) (body : GoSlice)
    (hop : e.Opcode = Opcode.DCP_MUTATION)
    (hdt : e.Datatype = Datatype.dcpDatatypeJSONXattr)
    (hdec : decodeXattrs env e.Value = Except.ok (totalXattrLen, xMeta))
    (hcas : xMeta.Cas ≠ "")
    (hconv : env.ConvertBigEndianToUint64 xMeta.Cas = some cas)
    (hne : cas ≠ e.Cas)
    (hbody : e.Value.sliceFrom (u32 (4 + totalXattrLen)) = some body)
    (hcrc : env.crc32Update body.toList = xMeta.Digest) :
    ∃ c2 acts, processEvents env c e inp = Except.ok (c2, acts) ∧
      forwardedToWorker acts = [] ∧
      c2.dcpMutationCounter = c.dcpMutationCounter ∧
      sentToTimerStore acts = (xMeta.Timers.filter hasThreeFields).map (timerEntryOf e) := by
  refine ⟨(debuggerHandshake (countMessage c e) inp).1,
    (debuggerHandshake (countMessage c e) inp).2 ++
      enqueueTimers { e with Value := body } xMeta.Timers, ?_, ?_, ?_, ?_⟩
  · rw [processEvents_xattr env c e inp hop hdt]
    simp [processXattrMutation, hdec, hcas, hconv, hne, hbody, hcrc]
  · rw [forwardedToWorker_append, debuggerHandshake_forwarded, enqueueTimers_forwarded]
    rfl
  · rw [debuggerHandshake_counter]
    rfl
  · rw [sentToTimerStore_append, debuggerHandshake_timers, enqueueTimers_timers]
    rfl

/-- C3 at a concrete mutation: xattr cas `0xABCD`, event cas 1, a body of
seven bytes (checksum 7, digest 7). -/
theorem C3_timers_only_on_equal_digest_witness :
    ∃ c2 acts, processEvents exEnv exConsumer (exMutation 1 [1, 2, 3, 4, 5, 6, 7]) exInputs =
        Except.ok (c2, acts) ∧
      forwardedToWorker acts = [] ∧
      c2.dcpMutationCounter = exConsumer.dcpMutationCounter ∧
      sentToTimerStore acts =
        (exMeta.Timers.filter hasThreeFields).map
          (timerEntryOf (exMutation 1 [1, 2, 3, 4, 5, 6, 7])) :=
  C3_timers_only_on_equal_digest exEnv exConsumer (exMutation 1 [1, 2, 3, 4, 5, 6, 7]) exInputs
    10 43981 exMeta ⟨[1, 2, 3, 4, 5, 6, 7], 7⟩ rfl rfl rfl (by decide) rfl (by decide) rfl rfl

/-! ## C4: what a suppressed mutation tells -/

theorem forwardMutation_forwarded (c : Consumer) (e : DcpEvent) :
    forwardedToWorker (forwardMutation c e).2 = [e] := rfl

/-- C4 (as amended): when a JSON+XATTR mutation is not forwarded to the
worker, its eventing xattr cas is non-empty and one of these holds: the cas
string does not decode, the decoded cas equals the cas of the event, or the
decoded cas differs and the CRC32 of the document body equals
`xattr.digest`. -/
theorem C4_suppressed_implies_cas_or_digest (env : Env) (c : Consumer) (e : DcpEvent)
    (inp : Inputs) (totalXattrLen : Nat) (xMeta : XattrMetadata) (c2 : Consumer)
    (acts : List Action)
    (hop : e.Opcode = Opcode.DCP_MUTATION)
    (hdt : e.Datatype = Datatype.dcpDatatypeJSONXattr)
    (hdec : decodeXattrs env e.Value = Except.ok (totalXattrLen, xMeta))
    (hrun : processEvents env c e inp = Except.ok (c2, acts))
    (hsup : forwardedToWorker acts = []) :
    xMeta.Cas ≠ "" ∧
      (env.ConvertBigEndianToUint64 xMeta.Cas = none ∨
        env.ConvertBigEndianToUint64 xMeta.Cas = some e.Cas ∨
        ∃ cas body, env.ConvertBigEndianToUint64 xMeta.Cas = some cas ∧ cas ≠ e.Cas ∧
          e.Value.sliceFrom (u32 (4 + totalXattrLen)) = some body ∧
          env.crc32Update body.toList = xMeta.Digest) := by
  rw [processEvents_xattr env c e inp hop hdt] at hrun
  by_cases hcas : xMeta.Cas = ""
  · exfalso
    cases hbody : e.Value.sliceFrom (u32 (4 + totalXattrLen)) with
    | none => simp [processXattrMutation, hdec, hcas, hbody] at hrun
    | some body =>
      simp [processXattrMutation, hdec, hcas, hbody] at hrun
      rw [← hrun.2, forwardedToWorker_append, forwardMutation_forwarded] at hsup
      simp at hsup
  · refine ⟨hcas, ?_⟩
    cases hconv : env.ConvertBigEndianToUint64 xMeta.Cas with
    | none => exact Or.inl rfl
    | some cas =>
      right
      by_cases hne : cas = e.Cas
      · exact Or.inl (by rw [hne])
      · right
        cases hbody : e.Value.sliceFrom (u32 (4 + totalXattrLen)) with
        | none => simp [processXattrMutation, hdec, hcas, hconv, hne, hbody] at hrun
        | some body =>
          by_cases hcrc : env.crc32Update body.toList = xMeta.Digest
          · exact ⟨cas, body, rfl, hne, rfl, hcrc⟩
          · exfalso
            simp [processXattrMutation, hdec, hcas, hconv, hne, hbody, hcrc] at hrun
            rw [← hrun.2, forwardedToWorker_append, forwardMutation_forwarded] at hsup
            simp at hsup

/-- C4 (as amended) at the mutation with xattr cas `0xABCD`, event cas
`0xABCD` and body `v`. -/
theorem C4_suppressed_implies_cas_or_digest_witness :
    exMeta.Cas ≠ "" ∧
      (exEnv.ConvertBigEndianToUint64 exMeta.Cas = none ∨
        exEnv.ConvertBigEndianToUint64 exMeta.Cas = some (exMutation 43981 [118]).Cas ∨
        ∃ cas body, exEnv.ConvertBigEndianToUint64 exMeta.Cas = some cas ∧
          cas ≠ (exMutation 43981 [118]).Cas ∧
          (exMutation 43981 [118]).Value.sliceFrom (u32 (4 + 10)) = some body ∧
          exEnv.crc32Update body.toList = exMeta.Digest) :=
  C4_suppressed_implies_cas_or_digest exEnv exConsumer (exMutation 43981 [118]) exInputs 10
    exMeta (debuggerHandshake (countMessage exConsumer (exMutation 43981 [118])) exInputs).1
    ((debuggerHandshake (countMessage exConsumer (exMutation 43981 [118])) exInputs).2 ++
      enqueueTimers (exMutation 43981 [118]) exMeta.Timers) rfl rfl rfl rfl rfl

/-- C4 as stated fails in both conjuncts.  The mutation with xattr cas
`0xABCD`, event cas `0xABCD` and body `v` is suppressed although the checksum
of its body (1) differs from the digest (7); the mutation with event cas 1 and
a seven-byte body is suppressed although its cas differs from the xattr cas. -/
theorem C4_counterexample :
    (decodeXattrs exEnv (exMutation 43981 [118]).Value = Except.ok (10, exMeta) ∧
      (exMutation 43981 [118]).Value.sliceFrom (u32 (4 + 10)) = some ⟨[118], 1⟩ ∧
      exEnv.crc32Update (GoSlice.toList ⟨[118], 1⟩) ≠ exMeta.Digest ∧
      ∃ c2 acts, processEvents exEnv exConsumer (exMutation 43981 [118]) exInputs =
          Except.ok (c2, acts) ∧ forwardedToWorker acts = []) ∧
    (decodeXattrs exEnv (exMutation 1 [1, 2, 3, 4, 5, 6, 7]).Value = Except.ok (10, exMeta) ∧
      exEnv.ConvertBigEndianToUint64 exMeta.Cas = some 43981 ∧
      43981 ≠ (exMutation 1 [1, 2, 3, 4, 5, 6, 7]).Cas ∧
      ∃ c2 acts, processEvents exEnv exConsumer (exMutation 1 [1, 2, 3, 4, 5, 6, 7]) exInputs =
          Except.ok (c2, acts) ∧ forwardedToWorker acts = []) :=
  ⟨⟨rfl, rfl, by decide,
      (debuggerHandshake (countMessage exConsumer (exMutation 43981 [118])) exInputs).1,
      _, rfl, rfl⟩,
    ⟨rfl, rfl, by decide,
      (debuggerHandshake (countMessage exConsumer (exMutation 1 [1, 2, 3, 4, 5, 6, 7]))
        exInputs).1, _, rfl, rfl⟩⟩

/-! ## Stream requests: shared lemmas -/

theorem streamStarts_append (a b : List Action) :
    streamStarts (a ++ b) = streamStarts a ++ streamStarts b := by
  simp [streamStarts, List.filterMap_append]

theorem clearUpOnwershipInfoFromMeta_starts (c : Consumer) (vb : Nat) (read : VbucketKVBlob)
    (t1 t2 : String) :
    streamStarts (clearUpOnwershipInfoFromMeta c vb read t1 t2).2 = [] := by
  unfold clearUpOnwershipInfoFromMeta
  cases h : (c.vbsStreamClosed vb).isSome <;> simp [streamStarts, h]

theorem clearUpOnwershipInfoFromMeta_ids (c : Consumer) (vb : Nat) (read : VbucketKVBlob)
    (t1 t2 : String) :
    (clearUpOnwershipInfoFromMeta c vb read t1 t2).1.NodeUUID = c.NodeUUID ∧
      (clearUpOnwershipInfoFromMeta c vb read t1 t2).1.dcpStreamBoundary =
        c.dcpStreamBoundary := by
  unfold clearUpOnwershipInfoFromMeta
  exact ⟨rfl, rfl⟩

theorem clearUpVbs_starts (inp : CleanupInputs) (vbs : List Nat) (c : Consumer) :
    streamStarts (clearUpVbs inp c vbs).2 = [] := by
  induction vbs generalizing c with
  | nil => rfl
  | cons vb rest ih =>
    unfold clearUpVbs
    simp only []
    rw [streamStarts_append, clearUpOnwershipInfoFromMeta_starts, ih]
    rfl

theorem clearUpVbs_ids (inp : CleanupInputs) (vbs : List Nat) (c : Consumer) :
    (clearUpVbs inp c vbs).1.NodeUUID = c.NodeUUID ∧
      (clearUpVbs inp c vbs).1.dcpStreamBoundary = c.dcpStreamBoundary := by
  induction vbs generalizing c with
  | nil => exact ⟨rfl, rfl⟩
  | cons vb rest ih =>
    unfold clearUpVbs
    simp only []
    have h1 := ih (clearUpOnwershipInfoFromMeta c vb (inp.getOp vb) inp.nowRFC3339
      inp.nowString).1
    have h2 := clearUpOnwershipInfoFromMeta_ids c vb (inp.getOp vb) inp.nowRFC3339
      inp.nowString
    exact ⟨h1.1.trans h2.1, h1.2.trans h2.2⟩

theorem closeFeeds_starts (inp : CleanupInputs) (addrs : List String) (c : Consumer) :
    streamStarts (closeFeeds inp c addrs).2 = [] := by
  induction addrs generalizing c with
  | nil => rfl
  | cons a rest ih =>
    unfold closeFeeds
    simp only []
    rw [streamStarts_append, streamStarts_append, clearUpVbs_starts, ih]
    cases h : c.kvHostDcpFeedMap a with
    | none => rfl
    | some f => cases f <;> rfl

theorem closeFeeds_ids (inp : CleanupInputs) (addrs : List String) (c : Consumer) :
    (closeFeeds inp c addrs).1.NodeUUID = c.NodeUUID ∧
      (closeFeeds inp c addrs).1.dcpStreamBoundary = c.dcpStreamBoundary := by
  induction addrs generalizing c with
  | nil => exact ⟨rfl, rfl⟩
  | cons a rest ih =>
    unfold closeFeeds
    simp only []
    have h1 := ih (clearUpVbs inp
      { c with kvHostDcpFeedMap := fun b => if b = a then none else c.kvHostDcpFeedMap b }
      (c.dcpFeedVbMap ((c.kvHostDcpFeedMap a).getD none))).1
    have h2 := clearUpVbs_ids inp (c.dcpFeedVbMap ((c.kvHostDcpFeedMap a).getD none))
      { c with kvHostDcpFeedMap := fun b => if b = a then none else c.kvHostDcpFeedMap b }
    exact ⟨h1.1.trans h2.1, h1.2.trans h2.2⟩

theorem cleanupStaleDcpFeedHandles_starts (c : Consumer) (inp : CleanupInputs) :
    streamStarts (cleanupStaleDcpFeedHandles c inp).2 = [] := by
  unfold cleanupStaleDcpFeedHandles
  split
  · show streamStarts (Action.populateDcpFeedVbEntriesCallback :: _) = []
    have h := closeFeeds_starts inp inp.kvAddrDcpFeedsToClose
      { c with dcpFeedVbMap := inp.dcpFeedVbMap }
    simpa [streamStarts] using h
  · rfl

theorem cleanupStaleDcpFeedHandles_ids (c : Consumer) (inp : CleanupInputs) :
    (cleanupStaleDcpFeedHandles c inp).1.NodeUUID = c.NodeUUID ∧
      (cleanupStaleDcpFeedHandles c inp).1.dcpStreamBoundary = c.dcpStreamBoundary := by
  unfold cleanupStaleDcpFeedHandles
  split
  · exact closeFeeds_ids inp inp.kvAddrDcpFeedsToClose
      { c with dcpFeedVbMap := inp.dcpFeedVbMap }
  · exact ⟨rfl, rfl⟩

/-- Every call of `dcpRequestStreamHandle` makes exactly one stream request:
for its vbucket, with the vbuuid of the blob and the start sequence given. -/
theorem dcpRequestStreamHandle_starts (c : Consumer) (vbno : Nat) (vbBlob : VbucketKVBlob)
    (start : Nat) (inp : StreamInputs) :
    streamStarts (dcpRequestStreamHandle c vbno vbBlob start inp).2.1 =
      [(vbno, vbBlob.VBuuid, start)] := by
  have hc := cleanupStaleDcpFeedHandles_starts { c with kvVbMap := inp.kvVbMap } inp.cleanup
  unfold dcpRequestStreamHandle
  simp only []
  generalize cleanupStaleDcpFeedHandles { c with kvVbMap := inp.kvVbMap } inp.cleanup = cl
    at hc
  obtain ⟨c2, a2⟩ := cl
  simp only [] at hc
  cases hf : c2.kvHostDcpFeedMap (inp.kvVbMap vbno) <;>
    cases hr : inp.requestFails <;>
    simp [streamStarts, hf, hr] at hc ⊢ <;>
    exact hc

theorem dcpRequestStreamHandle_ids (c : Consumer) (vbno : Nat) (vbBlob : VbucketKVBlob)
    (start : Nat) (inp : StreamInputs) :
    (dcpRequestStreamHandle c vbno vbBlob start inp).1.NodeUUID = c.NodeUUID ∧
      (dcpRequestStreamHandle c vbno vbBlob start inp).1.dcpStreamBoundary =
        c.dcpStreamBoundary := by
  have hc := cleanupStaleDcpFeedHandles_ids { c with kvVbMap := inp.kvVbMap } inp.cleanup
  unfold dcpRequestStreamHandle
  simp only []
  generalize cleanupStaleDcpFeedHandles { c with kvVbMap := inp.kvVbMap } inp.cleanup = cl
    at hc
  obtain ⟨c2, a2⟩ := cl
  simp only [] at hc
  cases hf : c2.kvHostDcpFeedMap (inp.kvVbMap vbno) <;>
    cases hr : inp.requestFails <;>
    simp [hf, hr] <;>
    exact hc

/-- The start sequence computed by `startDcp` for a stored blob (lines
531-536) is the smaller of the two sequence numbers. -/
theorem streamStartSeqNo_eq_min (fb lp : Nat) :
    (if fb < lp then fb else lp) = min lp fb := by
  rw [Nat.min_def]
  split <;> split <;> omega

theorem streamStarts_stored (k : String) (b : VbucketKVBlob) (l : List Action) :
    streamStarts ([Action.getOpCallback k, Action.setOpCallback k b] ++ l) =
      streamStarts l := rfl

theorem streamStarts_read (k : String) (l : List Action) :
    streamStarts (Action.getOpCallback k :: l) = streamStarts l := rfl

/-- One iteration of the loop of `startDcp`. -/
theorem startDcpVb_spec (env : Env) (vbSeqnos : List Nat) (c : Consumer) (vbno : Nat)
    (flog : FailoverLog) (inp : StartDcpVbInputs)
    (hidx : c.dcpStreamBoundary = DcpFromNow → inp.read = none → vbno < vbSeqnos.length) :
    ∃ c1 acts1, startDcpVb env vbSeqnos c vbno flog inp = Except.ok (c1, acts1) ∧
      c1.NodeUUID = c.NodeUUID ∧ c1.dcpStreamBoundary = c.dcpStreamBoundary ∧
      (∀ r ∈ streamStarts acts1, r.1 = vbno) ∧
      ∀ blob, inp.read = some blob →
        streamStarts acts1 =
          if blob.NodeUUID = c.NodeUUID then
            [(vbno, blob.VBuuid, min blob.LastSeqNoProcessed blob.LastDocTimerFeedbackSeqNo)]
          else [] := by
  cases hread : inp.read with
  | none =>
    by_cases hE : c.dcpStreamBoundary = DcpEverything
    · refine ⟨_, _, by simp only [startDcpVb, hread, hE, if_true]; rfl, ?_, ?_, ?_, ?_⟩
      · exact (dcpRequestStreamHandle_ids _ _ _ _ _).1
      · exact (dcpRequestStreamHandle_ids _ _ _ _ _).2
      · intro r hr
        rw [streamStarts_stored, dcpRequestStreamHandle_starts] at hr
        simp at hr
        rw [hr]
      · intro blob hb
        cases hb
    · by_cases hN : c.dcpStreamBoundary = DcpFromNow
      · have hlt := hidx hN hread
        obtain ⟨start, hs⟩ : ∃ start, vbSeqnos.get? vbno = some start :=
          ⟨vbSeqnos.get ⟨vbno, hlt⟩, List.get?_eq_get hlt⟩
        refine ⟨_, _, by simp only [startDcpVb, hread, hE, hN, hs, if_true, if_false]; rfl,
          ?_, ?_, ?_, ?_⟩
        · exact (dcpRequestStreamHandle_ids _ _ _ _ _).1
        · exact (dcpRequestStreamHandle_ids _ _ _ _ _).2
        · intro r hr
          rw [streamStarts_stored, dcpRequestStreamHandle_starts] at hr
          simp at hr
          rw [hr]
        · intro blob hb
          cases hb
      · refine ⟨_, _, by simp only [startDcpVb, hread, hE, hN, if_false]; rfl, rfl, rfl,
          ?_, ?_⟩
        · intro r hr
          simp [streamStarts] at hr
        · intro blob hb
          cases hb
  | some b =>
    by_cases hown : b.NodeUUID = c.NodeUUID
    · refine ⟨_, _, by simp only [startDcpVb, hread, hown, if_true]; rfl, ?_, ?_, ?_, ?_⟩
      · exact (dcpRequestStreamHandle_ids _ _ _ _ _).1
      · exact (dcpRequestStreamHandle_ids _ _ _ _ _).2
      · intro r hr
        rw [streamStarts_read, dcpRequestStreamHandle_starts] at hr
        simp at hr
        rw [hr]
      · intro blob hb
        cases hb
        rw [streamStarts_read, dcpRequestStreamHandle_starts, streamStartSeqNo_eq_min,
          if_pos hown]
    · refine ⟨_, _, by simp only [startDcpVb, hread, hown, if_false]; rfl, rfl, rfl, ?_, ?_⟩
      · intro r hr
        simp [streamStarts] at hr
      · intro blob hb
        cases hb
        rw [if_neg hown]
        rfl

/-- The loop of `startDcp` runs to its end when no `vbSeqnos` index is out of
range, and requests for every vbucket with a stored blob what its iteration
requests. -/
theorem startDcpLoop_spec (env : Env) (vbSeqnos : List Nat)
    (flogs : List (Nat × FailoverLog × StartDcpVbInputs)) (c : Consumer)
    (hidx : c.dcpStreamBoundary = DcpFromNow →
      ∀ x ∈ flogs, x.2.2.read = none → x.1 < vbSeqnos.length) :
    ∃ c2 acts, startDcpLoop env vbSeqnos c flogs = Except.ok (c2, acts) ∧
      (∀ r ∈ streamStarts acts, r.1 ∈ flogs.map Prod.fst) ∧
      ((flogs.map Prod.fst).Nodup → ∀ vbno flog inp blob, (vbno, flog, inp) ∈ flogs →
        inp.read = some blob →
        (streamStarts acts).filter (fun r => decide (r.1 = vbno)) =
          if blob.NodeUUID = c.NodeUUID then
            [(vbno, blob.VBuuid, min blob.LastSeqNoProcessed blob.LastDocTimerFeedbackSeqNo)]
          else []) := by
  induction flogs generalizing c with
  | nil =>
    refine ⟨c, [], rfl, ?_, ?_⟩
    · intro r hr
      simp [streamStarts] at hr
    · intro _ vbno flog inp blob hmem
      simp at hmem
  | cons x rest ih =>
    obtain ⟨vb0, flog0, inp0⟩ := x
    obtain ⟨c1, acts1, hrun1, hid1, hbd1, hvb1, hst1⟩ :=
      startDcpVb_spec env vbSeqnos c vb0 flog0 inp0
        (fun hN hr => hidx hN (vb0, flog0, inp0) (List.mem_cons_self _ _) hr)
    obtain ⟨c2, acts2, hrun2, hvb2, hst2⟩ := ih c1
      (fun hN x hx hr => hidx (hbd1 ▸ hN) x (List.mem_cons_of_mem _ hx) hr)
    refine ⟨c2, acts1 ++ acts2, ?_, ?_, ?_⟩
    · simp only [startDcpLoop, hrun1, hrun2]
    · intro r hr
      rw [streamStarts_append, List.mem_append] at hr
      rcases hr with hr | hr
      · simp [hvb1 r hr]
      · exact List.mem_cons_of_mem _ (hvb2 r hr)
    · intro hnd vbno flog inp blob hmem hread
      rw [List.map_cons, List.nodup_cons] at hnd
      rw [streamStarts_append, List.filter_append]
      rcases List.mem_cons.mp hmem with heq | htail
      · have hv : vbno = vb0 := congrArg Prod.fst heq
        have hi : inp = inp0 := congrArg (fun y => y.2.2) heq
        rw [hi] at hread
        rw [hv]
        have h1 : (streamStarts acts1).filter (fun r => decide (r.1 = vb0)) =
            streamStarts acts1 := by
          apply List.filter_eq_self.mpr
          intro r hr
          simp [hvb1 r hr]
        have h2 : (streamStarts acts2).filter (fun r => decide (r.1 = vb0)) = [] := by
          apply List.filter_eq_nil_iff.mpr
          intro r hr
          have := hvb2 r hr
          intro hdec
          have hrv : r.1 = vb0 := by simpa using hdec
          exact hnd.1 (hrv ▸ this)
        rw [h1, h2, List.append_nil]
        exact hst1 blob hread
      · have hin : vbno ∈ rest.map Prod.fst := List.mem_map_of_mem Prod.fst htail
        have h1 : (streamStarts acts1).filter (fun r => decide (r.1 = vbno)) = [] := by
          apply List.filter_eq_nil_iff.mpr
          intro r hr hdec
          have hrv : r.1 = vbno := by simpa using hdec
          have h0 := hvb1 r hr
          exact hnd.1 (h0 ▸ hrv ▸ hin)
        rw [h1, List.nil_append, hst2 hnd.2 vbno flog inp blob htail hread, hid1]

/-! ## C6: the start sequence of `startDcp` for a stored blob -/

/-- C6 (as amended): when `startDcp` gets past its guard on `BucketSeqnos`
(the fetch succeeded or the stream boundary is `everything`) and no index into
`vbSeqnos` is out of range, it runs to its end, and for every vbucket of the
failover logs with a stored blob it has requested the stream exactly once,
with the vbuuid of the blob and start sequence
`min(LastSeqNoProcessed, LastDocTimerFeedbackSeqNo)`, when the blob belongs to
this node, and not at all when the blob belongs to another node. -/
theorem C6_startDcp_stored_blob (env : Env) (c : Consumer) (seqnosErr : Bool)
    (vbSeqnos : List Nat) (flogs : List (Nat × FailoverLog × StartDcpVbInputs))
    (vbno : Nat) (flog : FailoverLog) (inp : StartDcpVbInputs) (blob : VbucketKVBlob)
    (hguard : ¬ (seqnosErr = true ∧ c.dcpStreamBoundary ≠ DcpEverything))
    (hidx : c.dcpStreamBoundary = DcpFromNow →
      ∀ x ∈ flogs, x.2.2.read = none → x.1 < vbSeqnos.length)
    (hkeys : (flogs.map Prod.fst).Nodup)
    (hmem : (vbno, flog, inp) ∈ flogs)
    (hread : inp.read = some blob) :
    ∃ c2 acts, startDcp env c seqnosErr vbSeqnos flogs = Except.ok (c2, acts) ∧
      (streamStarts acts).filter (fun r => decide (r.1 = vbno)) =
        if blob.NodeUUID = c.NodeUUID then
          [(vbno, blob.VBuuid, min blob.LastSeqNoProcessed blob.LastDocTimerFeedbackSeqNo)]
        else [] := by
  obtain ⟨c2, acts, hrun, _, hst⟩ := startDcpLoop_spec env vbSeqnos flogs c hidx
  refine ⟨c2, [Action.getEventingNodeAddrOpCallback, Action.BucketSeqnos] ++ acts, ?_, ?_⟩
  · simp only [startDcp, hguard, hrun, if_false]
  · have h := hst hkeys vbno flog inp blob hmem hread
    rw [streamStarts_append]
    exact h

/-- C6 (as amended) at the failover logs of vbucket 7 (blob of this node) and
vbucket 8 (blob of node `node-b`). -/
theorem C6_startDcp_stored_blob_witness :
    ∃ c2 acts, startDcp exEnv exConsumer false []
        [(7, [], exStartInputs "node-a"), (8, [], exStartInputs "node-b")] =
        Except.ok (c2, acts) ∧
      (streamStarts acts).filter (fun r => decide (r.1 = 7)) =
        if (exBlob "node-a").NodeUUID = exConsumer.NodeUUID then
          [(7, (exBlob "node-a").VBuuid,
            min (exBlob "node-a").LastSeqNoProcessed (exBlob "node-a").LastDocTimerFeedbackSeqNo)]
        else [] :=
  C6_startDcp_stored_blob exEnv exConsumer false []
    [(7, [], exStartInputs "node-a"), (8, [], exStartInputs "node-b")] 7 []
    (exStartInputs "node-a") (exBlob "node-a") (by decide) (by decide) (by decide)
    (by simp) rfl

/-- C6 as stated fails: when `BucketSeqnos` returns an error and the stream
boundary is `from_now`, `startDcp` returns before its loop, and the vbucket 7,
whose stored blob belongs to this node, gets no stream request. -/
theorem C6_counterexample :
    (exBlob "node-a").NodeUUID = ({ exConsumer with dcpStreamBoundary := DcpFromNow }).NodeUUID ∧
    ∃ c2 acts, startDcp exEnv { exConsumer with dcpStreamBoundary := DcpFromNow } true []
        [(7, [], exStartInputs "node-a")] = Except.ok (c2, acts) ∧
      streamStarts acts = [] :=
  ⟨by decide, { exConsumer with dcpStreamBoundary := DcpFromNow }, _, rfl, rfl⟩

/-! ## C7: retries issued by `handleFailoverLog` -/

/-- C7: for an entry of `vbFlogChan` with `streamReqRetry = true` (and not a
stream-end signal) `handleFailoverLog` issues exactly one stream request for
the vbucket of the entry, with the vbuuid of the blob it read and with start
sequence the `seqNo` of the entry when the status is `ROLLBACK` and 0 for
every other status; an entry with `signalStreamEnd = true` or
`streamReqRetry = false` causes no stream request. -/
theorem C7_handleFailoverLog_retry (c : Consumer) (vbFlog : VbFlogEntry)
    (read : Option VbucketKVBlob) (inp : StreamInputs) :
    streamStarts (handleFailoverLog c vbFlog read inp).2 =
      if vbFlog.streamReqRetry = true ∧ vbFlog.signalStreamEnd = false then
        [(vbFlog.vb, (read.getD VbucketKVBlob.zero).VBuuid,
          if vbFlog.statusCode = Status.ROLLBACK then vbFlog.seqNo else 0)]
      else [] := by
  unfold handleFailoverLog
  cases hse : vbFlog.signalStreamEnd
  · cases hr : vbFlog.streamReqRetry
    · by_cases hs : vbFlog.statusCode = Status.SUCCESS <;> simp [hs, streamStarts]
    · simp only [Bool.not_true, Bool.false_and, if_true, and_self]
      simp only [Bool.false_eq_true, if_false]
      rw [streamStarts_read, dcpRequestStreamHandle_starts]
  · simp [streamStarts]

/-! ## C8: the arguments of `DcpRequestStream` -/

theorem streamRequests_append (a b : List Action) :
    streamRequests (a ++ b) = streamRequests a ++ streamRequests b := by
  simp [streamRequests, List.filter_append]

theorem streamRequests_nil_of_starts (acts : List Action) (h : streamStarts acts = []) :
    streamRequests acts = [] := by
  induction acts with
  | nil => rfl
  | cons a rest ih =>
    cases a
    all_goals first
      | exact ih h
      | exact absurd h (List.cons_ne_nil _ _)

/-- C8: `dcpRequestStreamHandle(vb, blob, s)` calls `DcpRequestStream`
exactly once, with vbucket `vb`, opaque `vb`, flags 0, vbuuid `blob.VBuuid`,
start sequence `s`, end sequence `0xFFFFFFFFFFFFFFFF`, snapshot start `s` and
snapshot end `s`. -/
theorem C8_dcpRequestStream_arguments (c : Consumer) (vb : Nat) (blob : VbucketKVBlob)
    (s : Nat) (inp : StreamInputs) :
    ∃ dcpFeed, streamRequests (dcpRequestStreamHandle c vb blob s inp).2.1 =
      [Action.DcpRequestStream dcpFeed vb vb 0 blob.VBuuid s 0xFFFFFFFFFFFFFFFF s s] := by
  have hc := streamRequests_nil_of_starts _
    (cleanupStaleDcpFeedHandles_starts { c with kvVbMap := inp.kvVbMap } inp.cleanup)
  unfold dcpRequestStreamHandle
  simp only []
  generalize cleanupStaleDcpFeedHandles { c with kvVbMap := inp.kvVbMap } inp.cleanup = cl
    at hc
  obtain ⟨c2, a2⟩ := cl
  simp only [] at hc
  cases hf : c2.kvHostDcpFeedMap (inp.kvVbMap vb) with
  | none =>
    refine ⟨inp.startedFeed.getD none, ?_⟩
    cases hr : inp.requestFails <;>
      simp [streamRequests, hr] at hc ⊢ <;>
      exact hc
  | some feed =>
    refine ⟨feed, ?_⟩
    cases hr : inp.requestFails <;>
      simp [streamRequests, hr] at hc ⊢ <;>
      exact hc

/-! ## C9: the entry of `vbFlogChan` made for a `DCP_STREAMREQ` event -/

/-- Unfolding of one iteration of `processEvents` on a `DCP_STREAMREQ` event. -/
theorem processEvents_streamReq (env : Env) (c : Consumer) (e : DcpEvent) (inp : Inputs)
    (hop : e.Opcode = Opcode.DCP_STREAMREQ) :
    processEvents env c e inp = Except.ok (processStreamReq env (countMessage c e) e inp) := by
  unfold processEvents
  simp only [hop]

/-- C9: for a `DCP_STREAMREQ` event `processEvents` sends at most one entry
on `vbFlogChan`, for the vbucket of the event: status `SUCCESS`, `KEY_EEXISTS`
or `NOT_MY_VBUCKET` gives an entry with `streamReqRetry = false`; status
`EINVAL`, `ROLLBACK` or `ENOMEM` gives an entry with `streamReqRetry = true`
that carries the failover log and the sequence number of the event; any
other status gives no entry. -/
theorem C9_streamReq_flog_entry (env : Env) (c : Consumer) (e : DcpEvent) (inp : Inputs)
    (hop : e.Opcode = Opcode.DCP_STREAMREQ) :
    ∃ c2 acts, processEvents env c e inp = Except.ok (c2, acts) ∧
      (sentToVbFlogChan acts).length ≤ 1 ∧
      sentToVbFlogChan acts =
        if e.Status = Status.SUCCESS ∨ e.Status = Status.KEY_EEXISTS ∨
            e.Status = Status.NOT_MY_VBUCKET then
          [{ flog := [], seqNo := 0, signalStreamEnd := false, statusCode := e.Status,
             streamReqRetry := false, vb := e.VBucket }]
        else if e.Status = Status.EINVAL ∨ e.Status = Status.ROLLBACK ∨
            e.Status = Status.ENOMEM then
          [{ flog := e.FailoverLog, seqNo := e.Seqno, signalStreamEnd := false,
             statusCode := e.Status, streamReqRetry := true, vb := e.VBucket }]
        else [] := by
  have key : sentToVbFlogChan (processStreamReq env (countMessage c e) e inp).2 =
      if e.Status = Status.SUCCESS ∨ e.Status = Status.KEY_EEXISTS ∨
          e.Status = Status.NOT_MY_VBUCKET then
        [{ flog := [], seqNo := 0, signalStreamEnd := false, statusCode := e.Status,
           streamReqRetry := false, vb := e.VBucket }]
      else if e.Status = Status.EINVAL ∨ e.Status = Status.ROLLBACK ∨
          e.Status = Status.ENOMEM then
        [{ flog := e.FailoverLog, seqNo := e.Seqno, signalStreamEnd := false,
           statusCode := e.Status, streamReqRetry := true, vb := e.VBucket }]
      else [] := by
    unfold processStreamReq
    by_cases h1 : e.Status = Status.SUCCESS
    · simp only [h1, if_true, true_or]
      rcases hl : env.Latest e.FailoverLog with ⟨vbuuid, seqNo, ok⟩
      cases ok <;> rfl
    · by_cases h2 : e.Status = Status.KEY_EEXISTS ∨ e.Status = Status.NOT_MY_VBUCKET
      · have h12 : e.Status = Status.SUCCESS ∨ e.Status = Status.KEY_EEXISTS ∨
            e.Status = Status.NOT_MY_VBUCKET := Or.inr h2
        rw [if_neg h1, if_pos h2, if_pos h12]
        rfl
      · have h12 : ¬ (e.Status = Status.SUCCESS ∨ e.Status = Status.KEY_EEXISTS ∨
            e.Status = Status.NOT_MY_VBUCKET) := by
          rintro (h | h)
          · exact h1 h
          · exact h2 h
        rw [if_neg h1, if_neg h2, if_neg h12]
        by_cases h3 : e.Status = Status.EINVAL ∨ e.Status = Status.ROLLBACK ∨
            e.Status = Status.ENOMEM
        · rw [if_pos h3, if_pos h3]
          rfl
        · rw [if_neg h3, if_neg h3]
          rfl
  refine ⟨(processStreamReq env (countMessage c e) e inp).1,
    (processStreamReq env (countMessage c e) e inp).2,
    processEvents_streamReq env c e inp hop, ?_, key⟩
  rw [key]
  split
  · simp
  · split <;> simp

/-- C9 at a `DCP_STREAMREQ` event of vbucket 7 with status `ROLLBACK` and
sequence number 80. -/
theorem C9_streamReq_flog_entry_witness :
    ∃ c2 acts, processEvents exEnv exConsumer (exStreamReq Status.ROLLBACK 80 [(99, 80)])
        exInputs = Except.ok (c2, acts) ∧
      (sentToVbFlogChan acts).length ≤ 1 ∧
      sentToVbFlogChan acts =
        if (exStreamReq Status.ROLLBACK 80 [(99, 80)]).Status = Status.SUCCESS ∨
            (exStreamReq Status.ROLLBACK 80 [(99, 80)]).Status = Status.KEY_EEXISTS ∨
            (exStreamReq Status.ROLLBACK 80 [(99, 80)]).Status = Status.NOT_MY_VBUCKET then
          [{ flog := [], seqNo := 0, signalStreamEnd := false,
             statusCode := (exStreamReq Status.ROLLBACK 80 [(99, 80)]).Status,
             streamReqRetry := false, vb := (exStreamReq Status.ROLLBACK 80 [(99, 80)]).VBucket }]
        else if (exStreamReq Status.ROLLBACK 80 [(99, 80)]).Status = Status.EINVAL ∨
            (exStreamReq Status.ROLLBACK 80 [(99, 80)]).Status = Status.ROLLBACK ∨
            (exStreamReq Status.ROLLBACK 80 [(99, 80)]).Status = Status.ENOMEM then
          [{ flog := (exStreamReq Status.ROLLBACK 80 [(99, 80)]).FailoverLog,
             seqNo := (exStreamReq Status.ROLLBACK 80 [(99, 80)]).Seqno,
             signalStreamEnd := false,
             statusCode := (exStreamReq Status.ROLLBACK 80 [(99, 80)]).Status,
             streamReqRetry := true,
             vb := (exStreamReq Status.ROLLBACK 80 [(99, 80)]).VBucket }]
        else [] :=
  C9_streamReq_flog_entry exEnv exConsumer (exStreamReq Status.ROLLBACK 80 [(99, 80)])
    exInputs rfl

/-! ## C10: what is persisted on `DCP_STREAMREQ` with status `SUCCESS` -/

/-- C10: for a `DCP_STREAMREQ` event with status `SUCCESS` whose failover log
has a latest entry `(vbuuid, seq)`, the only write to the metadata bucket is
one call of `addOwnershipHistorySRCallback`, handed a blob with
`AssignedWorker` the name of this consumer, `CurrentVBOwner` the host:port of
this node, `DCPStreamStatus` running, `VBuuid = vbuuid` and
`LastSeqNoProcessed = seq`, together with one ownership entry whose operation
is running; when the failover log has no latest entry nothing is written. -/
theorem C10_streamReq_success_persists (env : Env) (c : Consumer) (e : DcpEvent)
    (inp : Inputs)
    (hop : e.Opcode = Opcode.DCP_STREAMREQ)
    (hst : e.Status = Status.SUCCESS) :
    ∃ c2 acts, processEvents env c e inp = Except.ok (c2, acts) ∧
      (∀ vbuuid seq, env.Latest e.FailoverLog = (vbuuid, seq, true) →
        ∃ blob entry,
          acts.filter isMetadataWrite =
            [Action.addOwnershipHistorySRCallback (vbKey c e.VBucket) blob entry] ∧
          blob.AssignedWorker = c.ConsumerName ∧
          blob.CurrentVBOwner = c.HostPortAddr ∧
          blob.DCPStreamStatus = dcpStreamRunning ∧
          blob.VBuuid = vbuuid ∧
          blob.LastSeqNoProcessed = seq ∧
          entry.Operation = dcpStreamRunning) ∧
      ((env.Latest e.FailoverLog).2.2 = false → acts.filter isMetadataWrite = []) := by
  refine ⟨(processStreamReq env (countMessage c e) e inp).1,
    (processStreamReq env (countMessage c e) e inp).2,
    processEvents_streamReq env c e inp hop, ?_, ?_⟩
  · intro vbuuid seq hl
    unfold processStreamReq
    simp only [hst, if_true, hl]
    exact ⟨_, _, rfl, rfl, rfl, rfl, rfl, rfl, rfl⟩
  · intro hl
    unfold processStreamReq
    rcases hlat : env.Latest e.FailoverLog with ⟨vbuuid, seqNo, ok⟩
    rw [hlat] at hl
    simp only [] at hl
    subst hl
    simp only [hst, if_true]
    rfl

/-- C10 at a `DCP_STREAMREQ` event of vbucket 7 with status `SUCCESS` and
failover log `[(99, 80)]`. -/
theorem C10_streamReq_success_persists_witness :
    ∃ c2 acts, processEvents exEnv exConsumer (exStreamReq Status.SUCCESS 0 [(99, 80)])
        exInputs = Except.ok (c2, acts) ∧
      (∀ vbuuid seq,
        exEnv.Latest (exStreamReq Status.SUCCESS 0 [(99, 80)]).FailoverLog =
          (vbuuid, seq, true) →
        ∃ blob entry,
          acts.filter isMetadataWrite =
            [Action.addOwnershipHistorySRCallback
              (vbKey exConsumer (exStreamReq Status.SUCCESS 0 [(99, 80)]).VBucket) blob entry] ∧
          blob.AssignedWorker = exConsumer.ConsumerName ∧
          blob.CurrentVBOwner = exConsumer.HostPortAddr ∧
          blob.DCPStreamStatus = dcpStreamRunning ∧
          blob.VBuuid = vbuuid ∧
          blob.LastSeqNoProcessed = seq ∧
          entry.Operation = dcpStreamRunning) ∧
      ((exEnv.Latest (exStreamReq Status.SUCCESS 0 [(99, 80)]).FailoverLog).2.2 = false →
        acts.filter isMetadataWrite = []) :=
  C10_streamReq_success_persists exEnv exConsumer (exStreamReq Status.SUCCESS 0 [(99, 80)])
    exInputs rfl rfl

/-! ## The fuel of `decodeFrames` -/

theorem beUint32_len (s : GoSlice) (n : Nat) (h : s.beUint32 = some n) : 4 ≤ s.len := by
  unfold GoSlice.beUint32 at h
  by_cases h4 : 4 ≤ s.len
  · exact h4
  · simp [h4] at h

theorem sliceFrom_len (s t : GoSlice) (lo : Nat) (h : s.sliceFrom lo = some t) :
    lo ≤ s.len ∧ t.len = s.len - lo := by
  unfold GoSlice.sliceFrom at h
  by_cases hlo : lo ≤ s.len
  · simp [hlo] at h
    exact ⟨hlo, by rw [← h]⟩
  · simp [hlo] at h

theorem decodeFrames_done (env : Env) (total fuel bytesDecoded : Nat) (data : GoSlice)
    (xMeta : XattrMetadata) (h : ¬ bytesDecoded < total) :
    decodeFrames env total (fuel + 1) bytesDecoded data xMeta = Except.ok xMeta := by
  simp [decodeFrames, h]

/-- The result of `decodeFrames` does not depend on the fuel once the fuel
exceeds the length of the data still to decode: the fuel `len + 1` used by
`decodeXattrs` never runs out. -/
theorem decodeFrames_fuel (env : Env) (total : Nat) :
    ∀ (n fuel1 fuel2 bytesDecoded : Nat) (data : GoSlice) (xMeta : XattrMetadata),
      data.len ≤ n → data.len < fuel1 → data.len < fuel2 →
      decodeFrames env total fuel1 bytesDecoded data xMeta =
        decodeFrames env total fuel2 bytesDecoded data xMeta := by
  intro n
  induction n with
  | zero =>
    intro fuel1 fuel2 bd data xMeta hn h1 h2
    obtain ⟨g1, rfl⟩ : ∃ g, fuel1 = g + 1 := ⟨fuel1 - 1, by omega⟩
    obtain ⟨g2, rfl⟩ : ∃ g, fuel2 = g + 1 := ⟨fuel2 - 1, by omega⟩
    by_cases hbd : bd < total
    · have hb : data.beUint32 = none := by
        cases hb : data.beUint32 with
        | none => rfl
        | some v =>
          have := beUint32_len data v hb
          omega
      simp only [decodeFrames, hbd, hb, if_true]
    · rw [decodeFrames_done env total g1 bd data xMeta hbd,
        decodeFrames_done env total g2 bd data xMeta hbd]
  | succ n ih =>
    intro fuel1 fuel2 bd data xMeta hn h1 h2
    obtain ⟨g1, rfl⟩ : ∃ g, fuel1 = g + 1 := ⟨fuel1 - 1, by omega⟩
    obtain ⟨g2, rfl⟩ : ∃ g, fuel2 = g + 1 := ⟨fuel2 - 1, by omega⟩
    by_cases hbd : bd < total
    · cases hb : data.beUint32 with
      | none => simp only [decodeFrames, hbd, hb, if_true]
      | some fl =>
        have h4 := beUint32_len data fl hb
        cases hs : data.slice 4 (u32 (4 + fl - 1)) with
        | none => simp only [decodeFrames, hbd, hb, hs, if_true]
        | some frameData =>
          by_cases hbd2 : u32 (u32 (bd + 4) + fl) < total
          · cases hnx : data.sliceFrom (u32 (4 + fl)) with
            | none => simp only [decodeFrames, hbd, hb, hs, hbd2, hnx, if_true]
            | some data2 =>
              by_cases hadv : u32 (4 + fl) = 0
              · simp only [decodeFrames, hbd, hb, hs, hbd2, hnx, hadv, if_true, and_self]
              · have hl := sliceFrom_len data data2 _ hnx
                have e1 := ih g1 g2 (u32 (u32 (bd + 4) + fl)) data2
                simp only [decodeFrames, hbd, hb, hs, hbd2, hnx, hadv, if_true, and_false,
                  if_false]
                apply e1 <;> omega
          · obtain ⟨k1, rfl⟩ : ∃ g, g1 = g + 1 := ⟨g1 - 1, by omega⟩
            obtain ⟨k2, rfl⟩ : ∃ g, g2 = g + 1 := ⟨g2 - 1, by omega⟩
            simp only [decodeFrames, hbd, hb, hs, hbd2, if_true, false_and, if_false]
    · rw [decodeFrames_done env total g1 bd data xMeta hbd,
        decodeFrames_done env total g2 bd data xMeta hbd]

/-! ## C12: throttling against the worker queues -/

/-- C12 (as amended): when the worker has reported queue sizes, the head of
an iteration of `processEvents` sleeps (once, for one second) exactly when the
aggregate queue depth is strictly greater than `workerQueueCap` or the
doc-timer queue depth is strictly greater than `feedbackQueueCap`; a depth
equal to its cap does not make it sleep. -/
theorem C12_throttle_strict (c : Consumer) (q : CppQueueSizes)
    (hq : c.cppQueueSizes = some q) :
    (throttle c = [Action.timeSleep 1] ↔
      (c.workerQueueCap < q.AggQueueSize ∨ c.feedbackQueueCap < q.DocTimerQueueSize)) ∧
    (throttle c = [] ↔
      (q.AggQueueSize ≤ c.workerQueueCap ∧ q.DocTimerQueueSize ≤ c.feedbackQueueCap)) := by
  unfold throttle
  rw [hq]
  by_cases h : c.workerQueueCap < q.AggQueueSize ∨ c.feedbackQueueCap < q.DocTimerQueueSize
  · have h2 : ¬ (q.AggQueueSize ≤ c.workerQueueCap ∧
        q.DocTimerQueueSize ≤ c.feedbackQueueCap) := by
      intro hle
      rcases h with h | h <;> omega
    simp [h, h2]
  · have h2 : q.AggQueueSize ≤ c.workerQueueCap ∧
        q.DocTimerQueueSize ≤ c.feedbackQueueCap := by
      constructor <;> omega
    simp [h, h2]

/-- C12 (as amended) with caps 100 and 50 and reported depths 101 and 0. -/
theorem C12_throttle_strict_witness :
    (throttle (exConsumerQueues 101 0) = [Action.timeSleep 1] ↔
      ((exConsumerQueues 101 0).workerQueueCap < (⟨101, 0⟩ : CppQueueSizes).AggQueueSize ∨
        (exConsumerQueues 101 0).feedbackQueueCap <
          (⟨101, 0⟩ : CppQueueSizes).DocTimerQueueSize)) ∧
    (throttle (exConsumerQueues 101 0) = [] ↔
      ((⟨101, 0⟩ : CppQueueSizes).AggQueueSize ≤ (exConsumerQueues 101 0).workerQueueCap ∧
        (⟨101, 0⟩ : CppQueueSizes).DocTimerQueueSize ≤
          (exConsumerQueues 101 0).feedbackQueueCap)) :=
  C12_throttle_strict (exConsumerQueues 101 0) ⟨101, 0⟩ rfl

/-- C12 as stated fails: with `workerQueueCap = 100`, `feedbackQueueCap = 50`
and reported depths 100 (aggregate, equal to its cap) and 50 (doc timers,
equal to its cap) the head of the iteration does not sleep. -/
theorem C12_counterexample :
    (exConsumerQueues 100 50).cppQueueSizes = some ⟨100, 50⟩ ∧
    (⟨100, 50⟩ : CppQueueSizes).AggQueueSize ≥ (exConsumerQueues 100 50).workerQueueCap ∧
    (⟨100, 50⟩ : CppQueueSizes).DocTimerQueueSize ≥ (exConsumerQueues 100 50).feedbackQueueCap ∧
    throttle (exConsumerQueues 100 50) = [] :=
  ⟨rfl, by decide, by decide, by decide⟩

/-! ## C13: the shape of a timer entry -/

theorem enqueueTimers_value (e : DcpEvent) (body : GoSlice) (timers : List String) :
    sentToTimerStore (enqueueTimers { e with Value := body } timers) =
      sentToTimerStore (enqueueTimers e timers) := by
  rw [enqueueTimers_timers, enqueueTimers_timers]
  rfl

theorem enqueueTimers_split (e : DcpEvent) (pre post : List String) (s : String) :
    sentToTimerStore (enqueueTimers e (pre ++ s :: post)) =
      sentToTimerStore (enqueueTimers e pre) ++
        (if (stringsSplit s).length = 3 then
          [{ callbackFn := (stringsSplit s).getD 2 "", key := e.Key,
             timerTs := (stringsSplit s).getD 1 "", vb := e.VBucket }]
        else []) ++
        sentToTimerStore (enqueueTimers e post) := by
  rw [enqueueTimers_timers, enqueueTimers_timers, enqueueTimers_timers, List.filter_append,
    List.map_append, List.append_assoc]
  congr 1
  by_cases h : (stringsSplit s).length = 3
  · have hb : hasThreeFields s = true := by simp [hasThreeFields, h]
    rw [List.filter_cons_of_pos hb, if_pos h]
    rfl
  · have hb : ¬ (hasThreeFields s = true) := by simp [hasThreeFields, h]
    rw [List.filter_cons_of_neg hb, if_neg h]
    rfl

/-- C13: on a mutation whose timers are enqueued (xattr cas equal to the cas
of the event, or cas different and checksum equal to the digest), a string `s`
of `xattr.timers` contributes an entry to the timer store exactly when
`strings.Split(s, "::")` has three fields; the entry has `timerTs` = field 1,
`callbackFn` = field 2, `key` = the key of the event and `vb` = its vbucket;
a string with another field count contributes nothing, and the entries of the
strings before and after `s` are the same either way. -/
theorem C13_timer_entry_shape (env : Env) (c : Consumer) (e : DcpEvent) (inp : Inputs)
    (totalXattrLen : Nat) (xMeta : XattrMetadata) (pre post : List String) (s : String)
    (hop : e.Opcode = Opcode.DCP_MUTATION)
    (hdt : e.Datatype = Datatype.dcpDatatypeJSONXattr)
    (hdec : decodeXattrs env e.Value = Except.ok (totalXattrLen, xMeta))
    (hcas : xMeta.Cas ≠ "")
    (hbranch : env.ConvertBigEndianToUint64 xMeta.Cas = some e.Cas ∨
      ∃ cas body, env.ConvertBigEndianToUint64 xMeta.Cas = some cas ∧ cas ≠ e.Cas ∧
        e.Value.sliceFrom (u32 (4 + totalXattrLen)) = some body ∧
        env.crc32Update body.toList = xMeta.Digest)
    (htimers : xMeta.Timers = pre ++ s :: post) :
    ∃ c2 acts, processEvents env c e inp = Except.ok (c2, acts) ∧
      sentToTimerStore acts =
        sentToTimerStore (enqueueTimers e pre) ++
          (if (stringsSplit s).length = 3 then
            [{ callbackFn := (stringsSplit s).getD 2 "", key := e.Key,
               timerTs := (stringsSplit s).getD 1 "", vb := e.VBucket }]
          else []) ++
          sentToTimerStore (enqueueTimers e post) := by
  rcases hbranch with hconv | ⟨cas, body, hconv, hne, hbody, hcrc⟩
  · refine ⟨(debuggerHandshake (countMessage c e) inp).1,
      (debuggerHandshake (countMessage c e) inp).2 ++ enqueueTimers e xMeta.Timers, ?_, ?_⟩
    · rw [processEvents_xattr env c e inp hop hdt]
      simp [processXattrMutation, hdec, hcas, hconv]
    · rw [sentToTimerStore_append, debuggerHandshake_timers, htimers, enqueueTimers_split]
      rfl
  · refine ⟨(debuggerHandshake (countMessage c e) inp).1,
      (debuggerHandshake (countMessage c e) inp).2 ++
        enqueueTimers { e with Value := body } xMeta.Timers, ?_, ?_⟩
    · rw [processEvents_xattr env c e inp hop hdt]
      simp [processXattrMutation, hdec, hcas, hconv, hne, hbody, hcrc]
    · rw [sentToTimerStore_append, debuggerHandshake_timers, enqueueTimers_value, htimers,
        enqueueTimers_split]
      rfl

/-- C13 at the mutation with xattr cas `0xABCD`, event cas `0xABCD` and the
timers `o::2025-01-01T00:00:01Z::cb`, `bad`, `a::b::c::d`, for the string
`bad`. -/
theorem C13_timer_entry_shape_witness :
    ∃ c2 acts, processEvents exEnv exConsumer (exMutation 43981 [118]) exInputs =
        Except.ok (c2, acts) ∧
      sentToTimerStore acts =
        sentToTimerStore (enqueueTimers (exMutation 43981 [118])
            ["o::2025-01-01T00:00:01Z::cb"]) ++
          (if (stringsSplit "bad").length = 3 then
            [{ callbackFn := (stringsSplit "bad").getD 2 "", key := (exMutation 43981 [118]).Key,
               timerTs := (stringsSplit "bad").getD 1 "", vb := (exMutation 43981 [118]).VBucket }]
          else []) ++
          sentToTimerStore (enqueueTimers (exMutation 43981 [118]) ["a::b::c::d"]) :=
  C13_timer_entry_shape exEnv exConsumer (exMutation 43981 [118]) exInputs 10 exMeta
    ["o::2025-01-01T00:00:01Z::cb"] ["a::b::c::d"] "bad" rfl rfl rfl (by decide)
    (Or.inl rfl) rfl

/-! ## C14: acceptance of a doc-timer response -/

/-- Unfolding of one iteration of `processEvents` on a `DCP_STREAMEND` event. -/
theorem processEvents_streamEnd (env : Env) (c : Consumer) (e : DcpEvent) (inp : Inputs)
    (hop : e.Opcode = Opcode.DCP_STREAMEND) :
    processEvents env c e inp = Except.ok (processStreamEnd (countMessage c e) e inp) := by
  unfold processEvents
  simp only [hop]

/-- C15: after `processEvents` has handled a `DCP_STREAMEND` event of
vbucket `v`, `v` is absent from `vbStreamRequested`, `v` is marked in
`vbsStreamClosed`, a checkpoint write for `v` has been issued when `v` was not
marked closed before, and `vbsRemainingToRestream` is the old list with `v`
appended when `checkIfCurrentConsumerShouldOwnVb(v)` holds and the old list
otherwise. -/
theorem C15_streamEnd_state (env : Env) (c : Consumer) (e : DcpEvent) (inp : Inputs)
    (hop : e.Opcode = Opcode.DCP_STREAMEND) :
    ∃ c2 acts, processEvents env c e inp = Except.ok (c2, acts) ∧
      c2.vbStreamRequested e.VBucket = false ∧
      (c2.vbsStreamClosed e.VBucket).isSome = true ∧
      (c.vbsStreamClosed e.VBucket = none → checkpointWrites e.VBucket acts ≠ []) ∧
      c2.vbsRemainingToRestream =
        if inp.shouldOwnVb = true then c.vbsRemainingToRestream ++ [e.VBucket]
        else c.vbsRemainingToRestream := by
  refine ⟨(processStreamEnd (countMessage c e) e inp).1,
    (processStreamEnd (countMessage c e) e inp).2,
    processEvents_streamEnd env c e inp hop, ?_⟩
  unfold processStreamEnd countMessage
  cases hown : inp.shouldOwnVb <;> cases hcl : c.vbsStreamClosed e.VBucket <;>
    simp [hcl, checkpointWrites]

/-- C15 at a `DCP_STREAMEND` event of vbucket 7 on the example consumer. -/
theorem C15_streamEnd_state_witness :
    ∃ c2 acts, processEvents exEnv exConsumer exStreamEnd exInputs = Except.ok (c2, acts) ∧
      c2.vbStreamRequested exStreamEnd.VBucket = false ∧
      (c2.vbsStreamClosed exStreamEnd.VBucket).isSome = true ∧
      (exConsumer.vbsStreamClosed exStreamEnd.VBucket = none →
        checkpointWrites exStreamEnd.VBucket acts ≠ []) ∧
      c2.vbsRemainingToRestream =
        if exInputs.shouldOwnVb = true then
          exConsumer.vbsRemainingToRestream ++ [exStreamEnd.VBucket]
        else exConsumer.vbsRemainingToRestream :=
  C15_streamEnd_state exEnv exConsumer exStreamEnd exInputs rfl

/-! ## C16: the restream ticker after undeploy -/

/-- C16: when the restream ticker fires with a non-empty
`vbsRemainingToRestream` and the name of the handler is not among the locally
deployed apps, `controlRoutine` leaves the retry loop after one pass with
`vbsRemainingToRestream` empty, having made no stream request and no read or
write of a vbucket blob. -/
theorem C16_restream_undeployed (env : Env) (inps : Nat → RestreamInputs) (fuel k : Nat)
    (c : Consumer)
    (hne : c.vbsRemainingToRestream ≠ [])
    (happ : ¬ (c.AppName ∈ (inps k).deployedApps)) :
    ∃ c2 acts, restreamTick env inps (fuel + 1) k c = Except.ok (c2, acts) ∧
      c2.vbsRemainingToRestream = [] ∧
      streamRequests acts = [] ∧
      acts.filter touchesVbucketBlob = [] := by
  have hlen : ¬ (c.vbsRemainingToRestream.length = 0) := by
    intro h
    exact hne (List.length_eq_zero.mp h)
  have hpass : restreamPass env c (inps k) =
      ({ c with vbsRemainingToRestream := [] }, [Action.GetLocallyDeployedApps], false) := by
    simp only [restreamPass, hlen, happ, if_false, not_false_eq_true, if_true]
  refine ⟨{ c with vbsRemainingToRestream := [] }, [Action.GetLocallyDeployedApps], ?_, rfl,
    rfl, rfl⟩
  simp only [restreamTick, hpass]

/-- C16 on the example consumer with `[9, 4, 7]` left to restream and no
deployed app. -/
theorem C16_restream_undeployed_witness :
    ∃ c2 acts, restreamTick exEnv (fun _ => exRestreamInputs []) (0 + 1) 0
        exConsumerRestream = Except.ok (c2, acts) ∧
      c2.vbsRemainingToRestream = [] ∧
      streamRequests acts = [] ∧
      acts.filter touchesVbucketBlob = [] :=
  C16_restream_undeployed exEnv (fun _ => exRestreamInputs []) 0 0 exConsumerRestream
    (by decide) (by decide)

/-! ## C17: one pass of the restream retry -/

theorem restreamVbs_list (inp : Nat → RestreamVbInputs) (l : List Nat) (i : Nat)
    (c : Consumer) :
    (restreamVbs inp i c l).1.vbsRemainingToRestream = c.vbsRemainingToRestream := by
  induction l generalizing i c with
  | nil => rfl
  | cons vb rest ih =>
    unfold restreamVbs
    by_cases h1 : (inp i).alreadyOwned = true
    · simp only [h1, if_true]
      exact ih (i + 1) c
    · by_cases h2 : (inp i).shouldOwn = true
      · by_cases h3 : (inp i).startFails = true
        · simp only [h1, h2, h3, if_true, if_false, Bool.not_true, Bool.false_eq_true]
          exact ih (i + 1) _
        · simp only [h1, h2, h3, if_true, if_false, Bool.not_true, Bool.false_eq_true]
          exact ih (i + 1) c
      · have h2f : (inp i).shouldOwn = false := by
          cases hh : (inp i).shouldOwn
          · rfl
          · exact absurd hh h2
        simp only [h1, h2f, if_true, if_false, Bool.not_false, Bool.false_eq_true]
        exact ih (i + 1) c

/-- The list `vbsFailedToStartStream` holds the vbuckets of the positions at
which `updateVbOwnerAndStartDCPStream` was called and returned an error. -/
theorem restreamVbs_failed (inp : Nat → RestreamVbInputs) (l : List Nat) (i : Nat)
    (c : Consumer) (v : Nat) :
    v ∈ (restreamVbs inp i c l).2.2 ↔
      ∃ j, l[j]? = some v ∧ (inp (i + j)).alreadyOwned = false ∧
        (inp (i + j)).shouldOwn = true ∧ (inp (i + j)).startFails = true := by
  induction l generalizing i c with
  | nil => simp [restreamVbs]
  | cons vb rest ih =>
    have shift : ∀ c1 : Consumer, (v ∈ (restreamVbs inp (i + 1) c1 rest).2.2 ↔
        ∃ j, (vb :: rest)[j + 1]? = some v ∧ (inp (i + (j + 1))).alreadyOwned = false ∧
          (inp (i + (j + 1))).shouldOwn = true ∧ (inp (i + (j + 1))).startFails = true) := by
      intro c1
      rw [ih (i + 1) c1]
      constructor
      · rintro ⟨j, hj, h⟩
        refine ⟨j, by simpa using hj, ?_⟩
        rw [show i + (j + 1) = i + 1 + j by omega]
        exact h
      · rintro ⟨j, hj, h⟩
        refine ⟨j, by simpa using hj, ?_⟩
        rw [show i + 1 + j = i + (j + 1) by omega]
        exact h
    have split : ∀ P : Nat → Prop, (∃ j, P j) ↔ (P 0 ∨ ∃ j, P (j + 1)) := by
      intro P
      constructor
      · rintro ⟨j, hj⟩
        cases j with
        | zero => exact Or.inl hj
        | succ j => exact Or.inr ⟨j, hj⟩
      · rintro (h | ⟨j, hj⟩)
        · exact ⟨0, h⟩
        · exact ⟨j + 1, hj⟩
    rw [split]
    unfold restreamVbs
    by_cases h1 : (inp i).alreadyOwned = true
    · simp only [h1, if_true]
      rw [shift c]
      simp [h1]
    · have h1f : (inp i).alreadyOwned = false := by
        cases hh : (inp i).alreadyOwned
        · rfl
        · exact absurd hh h1
      by_cases h2 : (inp i).shouldOwn = true
      · by_cases h3 : (inp i).startFails = true
        · simp only [h1f, h2, h3, if_true, if_false, Bool.not_true, Bool.false_eq_true,
            List.mem_cons]
          rw [shift _]
          have h0 : ((vb :: rest)[0]? = some v ∧ (inp (i + 0)).alreadyOwned = false ∧
              (inp (i + 0)).shouldOwn = true ∧ (inp (i + 0)).startFails = true) ↔ v = vb := by
            simp only [Nat.add_zero, h1f, h2, h3, and_true, List.getElem?_cons_zero,
              Option.some.injEq]
            exact eq_comm
          rw [h0]
        · have h3f : (inp i).startFails = false := by
            cases hh : (inp i).startFails
            · rfl
            · exact absurd hh h3
          simp only [h1f, h2, h3f, if_true, if_false, Bool.not_true, Bool.false_eq_true]
          rw [shift c]
          simp [h3f]
      · have h2f : (inp i).shouldOwn = false := by
          cases hh : (inp i).shouldOwn
          · rfl
          · exact absurd hh h2
        simp only [h1f, h2f, if_true, if_false, Bool.not_false, Bool.false_eq_true]
        rw [shift c]
        simp [h2f]

/-- C17: for one pass of the restream retry over the snapshot
`L = c.vbsRemainingToRestream` (app deployed, list not modified during the
pass, `util.VbsSliceDiff` a symmetric difference): after the pass
`vbsRemainingToRestream` holds exactly the vbuckets of the sorted snapshot
for which `updateVbOwnerAndStartDCPStream` was called and returned an error; a
vbucket that at each of its positions was already owned, not assigned by the
planner or started successfully is no longer in the list; and the pass ends
without `goto retryVbsRemainingToRestream` exactly when the list is empty. -/
theorem C17_restream_pass (env : Env) (c : Consumer) (inp : RestreamInputs)
    (hdiff : ∀ X Y v, v ∈ env.VbsSliceDiff X Y ↔ (v ∈ X ∧ v ∉ Y) ∨ (v ∈ Y ∧ v ∉ X))
    (happ : c.AppName ∈ inp.deployedApps) :
    (∀ v, v ∈ (restreamPass env c inp).1.vbsRemainingToRestream ↔
      ∃ j, (c.vbsRemainingToRestream.insertionSort (· ≤ ·))[j]? = some v ∧
        (inp.vbs j).alreadyOwned = false ∧ (inp.vbs j).shouldOwn = true ∧
        (inp.vbs j).startFails = true) ∧
    (∀ v, (∀ j, (c.vbsRemainingToRestream.insertionSort (· ≤ ·))[j]? = some v →
        (inp.vbs j).alreadyOwned = true ∨ (inp.vbs j).shouldOwn = false ∨
          (inp.vbs j).startFails = false) →
      v ∉ (restreamPass env c inp).1.vbsRemainingToRestream) ∧
    ((restreamPass env c inp).2.2 = false ↔
      (restreamPass env c inp).1.vbsRemainingToRestream = []) := by
  have main : (∀ v, v ∈ (restreamPass env c inp).1.vbsRemainingToRestream ↔
      ∃ j, (c.vbsRemainingToRestream.insertionSort (· ≤ ·))[j]? = some v ∧
        (inp.vbs j).alreadyOwned = false ∧ (inp.vbs j).shouldOwn = true ∧
        (inp.vbs j).startFails = true) ∧
      ((restreamPass env c inp).2.2 = false ↔
        (restreamPass env c inp).1.vbsRemainingToRestream = []) := by
    by_cases hlen : c.vbsRemainingToRestream.length = 0
    · have hnil : c.vbsRemainingToRestream = [] := List.length_eq_zero.mp hlen
      have hpass : restreamPass env c inp = (c, [], false) := by
        simp only [restreamPass, hlen, if_true]
      rw [hpass]
      refine ⟨?_, ?_⟩
      · intro v
        simp [hnil]
      · simp [hnil]
    · rcases hr : restreamVbs inp.vbs 0 c (c.vbsRemainingToRestream.insertionSort (· ≤ ·))
        with ⟨c1, acts, failed⟩
      have hlist : c1.vbsRemainingToRestream = c.vbsRemainingToRestream := by
        have h := restreamVbs_list inp.vbs (c.vbsRemainingToRestream.insertionSort (· ≤ ·)) 0 c
        rw [hr] at h
        exact h
      have hfailed : ∀ v, v ∈ failed ↔
          ∃ j, (c.vbsRemainingToRestream.insertionSort (· ≤ ·))[j]? = some v ∧
            (inp.vbs j).alreadyOwned = false ∧ (inp.vbs j).shouldOwn = true ∧
            (inp.vbs j).startFails = true := by
        intro v
        have h := restreamVbs_failed inp.vbs
          (c.vbsRemainingToRestream.insertionSort (· ≤ ·)) 0 c v
        rw [hr] at h
        simpa using h
      have hpass : restreamPass env c inp =
          ({ c1 with vbsRemainingToRestream :=
              (env.VbsSliceDiff (env.VbsSliceDiff failed
                (c.vbsRemainingToRestream.insertionSort (· ≤ ·)))
                c1.vbsRemainingToRestream).insertionSort (· ≤ ·) },
            Action.GetLocallyDeployedApps :: acts,
            decide ((env.VbsSliceDiff (env.VbsSliceDiff failed
                (c.vbsRemainingToRestream.insertionSort (· ≤ ·)))
                c1.vbsRemainingToRestream).length > 0)) := by
        simp only [restreamPass, hlen, happ, hr, if_false, not_true_eq_false]
      rw [hpass]
      have hsorted : ∀ v, v ∈ c.vbsRemainingToRestream.insertionSort (· ≤ ·) ↔
          v ∈ c.vbsRemainingToRestream :=
        fun v => (List.perm_insertionSort _ _).mem_iff
      have hmem : ∀ v, v ∈ env.VbsSliceDiff (env.VbsSliceDiff failed
          (c.vbsRemainingToRestream.insertionSort (· ≤ ·))) c1.vbsRemainingToRestream ↔
          v ∈ failed := by
        intro v
        have hsub : v ∈ failed → v ∈ c.vbsRemainingToRestream := by
          intro hv
          obtain ⟨j, hj, _⟩ := (hfailed v).mp hv
          exact (hsorted v).mp (List.getElem?_mem hj)
        rw [hdiff, hdiff, hlist, hsorted]
        constructor
        · rintro (⟨h1, h2⟩ | ⟨h1, h2⟩)
          · rcases h1 with ⟨hf, hn⟩ | ⟨hs, _⟩
            · exact hf
            · exact absurd hs h2
          · by_contra hnf
            exact h2 (Or.inr ⟨h1, hnf⟩)
        · intro hf
          refine Or.inr ⟨hsub hf, ?_⟩
          rintro (⟨_, hn⟩ | ⟨_, hn⟩)
          · exact hn (hsub hf)
          · exact hn hf
      refine ⟨?_, ?_⟩
      · intro v
        show v ∈ List.insertionSort _ _ ↔ _
        rw [(List.perm_insertionSort _ _).mem_iff, hmem, hfailed]
      · show decide _ = false ↔ List.insertionSort _ _ = []
        rw [decide_eq_false_iff_not, ← List.length_eq_zero, List.length_insertionSort]
        omega
  refine ⟨main.1, ?_, main.2⟩
  intro v hall hv
  obtain ⟨j, hj, h1, h2, h3⟩ := (main.1 v).mp hv
  rcases hall j hj with h | h | h
  · rw [h1] at h
    cases h
  · rw [h2] at h
    cases h
  · rw [h3] at h
    cases h

/-- C17 on the example consumer with `[9, 4, 7]` left to restream: vbucket 4
is already owned, the stream of vbucket 7 fails to start, the stream of
vbucket 9 starts. -/
theorem C17_restream_pass_witness :
    (∀ v, v ∈ (restreamPass exEnv exConsumerRestream
        (exRestreamInputs ["app"])).1.vbsRemainingToRestream ↔
      ∃ j, (exConsumerRestream.vbsRemainingToRestream.insertionSort (· ≤ ·))[j]? = some v ∧
        ((exRestreamInputs ["app"]).vbs j).alreadyOwned = false ∧
        ((exRestreamInputs ["app"]).vbs j).shouldOwn = true ∧
        ((exRestreamInputs ["app"]).vbs j).startFails = true) ∧
    (∀ v, (∀ j, (exConsumerRestream.vbsRemainingToRestream.insertionSort (· ≤ ·))[j]? =
          some v →
        ((exRestreamInputs ["app"]).vbs j).alreadyOwned = true ∨
          ((exRestreamInputs ["app"]).vbs j).shouldOwn = false ∨
          ((exRestreamInputs ["app"]).vbs j).startFails = false) →
      v ∉ (restreamPass exEnv exConsumerRestream
        (exRestreamInputs ["app"])).1.vbsRemainingToRestream) ∧
    ((restreamPass exEnv exConsumerRestream (exRestreamInputs ["app"])).2.2 = false ↔
      (restreamPass exEnv exConsumerRestream
        (exRestreamInputs ["app"])).1.vbsRemainingToRestream = []) :=
  C17_restream_pass exEnv exConsumerRestream (exRestreamInputs ["app"])
    (by
      intro X Y v
      simp only [exEnv, List.mem_append, List.mem_filter, Bool.not_eq_true',
        List.contains_eq_any_beq, List.any_eq_false, beq_iff_eq]
      constructor
      · rintro (⟨h1, h2⟩ | ⟨h1, h2⟩)
        · exact Or.inl ⟨h1, fun h => h2 v h rfl⟩
        · exact Or.inr ⟨h1, fun h => h2 v h rfl⟩
      · rintro (⟨h1, h2⟩ | ⟨h1, h2⟩)
        · exact Or.inl ⟨h1, fun x hx hxe => h2 (hxe ▸ hx)⟩
        · exact Or.inr ⟨h1, fun x hx hxe => h2 (hxe ▸ hx)⟩)
    (by decide)

/-- The example pass of the restream retry leaves exactly vbucket 7 in the
list and ends with `goto`. -/
theorem restreamPass_example :
    (restreamPass exEnv exConsumerRestream (exRestreamInputs ["app"])).1.vbsRemainingToRestream =
        [7] ∧
      (restreamPass exEnv exConsumerRestream (exRestreamInputs ["app"])).2.2 = true := by
  decide

/-! ## C18: ownership-history entries of a stopped stream -/

/-- C18 at its failing inputs, for vbucket 7 with `vbsStreamClosed` empty at
the start.  First sequence: `clearUpOnwershipInfoFromMeta(7)` marks the
vbucket closed and appends one `stopped` entry, and the `DCP_STREAMEND` event
that follows appends a second one although the vbucket is marked.  Second
sequence: two `DCP_STREAMEND` events in a row append one `stopped` entry
each.  Only in the order `DCP_STREAMEND`, then
`clearUpOnwershipInfoFromMeta(7)` is the second append skipped. -/
theorem C18_stopped_entry_appended_twice :
    (∃ c2 a2,
      processEvents exEnv
        (clearUpOnwershipInfoFromMeta exConsumer 7 VbucketKVBlob.zero exInputs.nowRFC3339
          exInputs.nowString).1 exStreamEnd exInputs = Except.ok (c2, a2) ∧
      ((clearUpOnwershipInfoFromMeta exConsumer 7 VbucketKVBlob.zero exInputs.nowRFC3339
        exInputs.nowString).1.vbsStreamClosed 7).isSome = true ∧
      (stoppedAppends ((clearUpOnwershipInfoFromMeta exConsumer 7 VbucketKVBlob.zero
        exInputs.nowRFC3339 exInputs.nowString).2 ++ a2)).length = 2) ∧
    (∃ c1 a1 c2 a2,
      processEvents exEnv exConsumer exStreamEnd exInputs = Except.ok (c1, a1) ∧
      processEvents exEnv c1 exStreamEnd exInputs = Except.ok (c2, a2) ∧
      (c1.vbsStreamClosed 7).isSome = true ∧
      (stoppedAppends (a1 ++ a2)).length = 2 ∧
      (stoppedAppends (a1 ++ (clearUpOnwershipInfoFromMeta c1 7 VbucketKVBlob.zero
        exInputs.nowRFC3339 exInputs.nowString).2)).length = 1) :=
  ⟨⟨(processStreamEnd (countMessage
        (clearUpOnwershipInfoFromMeta exConsumer 7 VbucketKVBlob.zero exInputs.nowRFC3339
          exInputs.nowString).1 exStreamEnd) exStreamEnd exInputs).1, _,
      rfl, by decide, by decide⟩,
    ⟨(processStreamEnd (countMessage exConsumer exStreamEnd) exStreamEnd exInputs).1, _,
      (processStreamEnd (countMessage
        (processStreamEnd (countMessage exConsumer exStreamEnd) exStreamEnd exInputs).1
        exStreamEnd) exStreamEnd exInputs).1, _,
      rfl, rfl, by decide, by decide, by decide⟩⟩

/-! ## C19: `startDcp` for a vbucket without a stored blob -/

theorem sameIdentity_refl (c : Consumer) : sameIdentity c c :=
  ⟨rfl, rfl, rfl, rfl, rfl⟩

theorem sameIdentity_trans {c2 c1 c : Consumer} (h2 : sameIdentity c2 c1)
    (h1 : sameIdentity c1 c) : sameIdentity c2 c :=
  ⟨h2.1.trans h1.1, h2.2.1.trans h1.2.1, h2.2.2.1.trans h1.2.2.1,
    h2.2.2.2.1.trans h1.2.2.2.1, h2.2.2.2.2.trans h1.2.2.2.2⟩

theorem clearUpVbs_identity (inp : CleanupInputs) (vbs : List Nat) (c : Consumer) :
    sameIdentity (clearUpVbs inp c vbs).1 c := by
  induction vbs generalizing c with
  | nil => exact sameIdentity_refl c
  | cons vb rest ih =>
    unfold clearUpVbs
    simp only []
    exact sameIdentity_trans (ih _) ⟨rfl, rfl, rfl, rfl, rfl⟩

theorem closeFeeds_identity (inp : CleanupInputs) (addrs : List String) (c : Consumer) :
    sameIdentity (closeFeeds inp c addrs).1 c := by
  induction addrs generalizing c with
  | nil => exact sameIdentity_refl c
  | cons a rest ih =>
    unfold closeFeeds
    simp only []
    exact sameIdentity_trans (ih _)
      (sameIdentity_trans (clearUpVbs_identity inp _ _) ⟨rfl, rfl, rfl, rfl, rfl⟩)

theorem cleanupStaleDcpFeedHandles_identity (c : Consumer) (inp : CleanupInputs) :
    sameIdentity (cleanupStaleDcpFeedHandles c inp).1 c := by
  unfold cleanupStaleDcpFeedHandles
  split
  · exact sameIdentity_trans (closeFeeds_identity inp _ _) ⟨rfl, rfl, rfl, rfl, rfl⟩
  · exact sameIdentity_refl c

theorem dcpRequestStreamHandle_identity (c : Consumer) (vbno : Nat) (vbBlob : VbucketKVBlob)
    (start : Nat) (inp : StreamInputs) :
    sameIdentity (dcpRequestStreamHandle c vbno vbBlob start inp).1 c := by
  have hc : sameIdentity
      (cleanupStaleDcpFeedHandles { c with kvVbMap := inp.kvVbMap } inp.cleanup).1 c :=
    sameIdentity_trans (cleanupStaleDcpFeedHandles_identity _ _) ⟨rfl, rfl, rfl, rfl, rfl⟩
  unfold dcpRequestStreamHandle
  simp only []
  generalize cleanupStaleDcpFeedHandles { c with kvVbMap := inp.kvVbMap } inp.cleanup = cl
    at hc
  obtain ⟨c2, a2⟩ := cl
  simp only [] at hc
  cases hf : c2.kvHostDcpFeedMap (inp.kvVbMap vbno) <;>
    cases hr : inp.requestFails <;>
    simp [hf, hr] <;>
    exact hc

theorem startDcpVb_identity (env : Env) (vbSeqnos : List Nat) (c : Consumer) (vbno : Nat)
    (flog : FailoverLog) (inp : StartDcpVbInputs) (c1 : Consumer) (acts : List Action)
    (h : startDcpVb env vbSeqnos c vbno flog inp = Except.ok (c1, acts)) :
    sameIdentity c1 c := by
  unfold startDcpVb at h
  cases hread : inp.read with
  | none =>
    simp only [hread] at h
    by_cases hE : c.dcpStreamBoundary = DcpEverything
    · simp only [hE, if_true] at h
      cases h
      exact dcpRequestStreamHandle_identity _ _ _ _ _
    · by_cases hN : c.dcpStreamBoundary = DcpFromNow
      · simp only [hE, hN, if_true, if_false] at h
        cases hs : vbSeqnos.get? vbno with
        | none =>
          rw [hs] at h
          cases h
        | some start =>
          rw [hs] at h
          cases h
          exact dcpRequestStreamHandle_identity _ _ _ _ _
      · simp only [hE, hN, if_false] at h
        cases h
        exact sameIdentity_refl c
  | some b =>
    simp only [hread] at h
    by_cases hown : b.NodeUUID = c.NodeUUID
    · simp only [hown, if_true] at h
      cases h
      exact dcpRequestStreamHandle_identity _ _ _ _ _
    · simp only [hown, if_false] at h
      cases h
      exact sameIdentity_refl c

theorem startDcpLoop_identity (env : Env) (vbSeqnos : List Nat)
    (flogs : List (Nat × FailoverLog × StartDcpVbInputs)) (c c2 : Consumer)
    (acts : List Action)
    (h : startDcpLoop env vbSeqnos c flogs = Except.ok (c2, acts)) :
    sameIdentity c2 c := by
  induction flogs generalizing c acts with
  | nil =>
    simp only [startDcpLoop] at h
    cases h
    exact sameIdentity_refl _
  | cons x rest ih =>
    obtain ⟨vb0, flog0, inp0⟩ := x
    simp only [startDcpLoop] at h
    cases h1 : startDcpVb env vbSeqnos c vb0 flog0 inp0 with
    | error f =>
      rw [h1] at h
      cases h
    | ok r1 =>
      obtain ⟨c1, a1⟩ := r1
      rw [h1] at h
      simp only [] at h
      cases h2 : startDcpLoop env vbSeqnos c1 rest with
      | error f =>
        rw [h2] at h
        cases h
      | ok r2 =>
        obtain ⟨c3, a3⟩ := r2
        rw [h2] at h
        simp only [] at h
        cases h
        exact sameIdentity_trans (ih c1 a3 h2) (startDcpVb_identity _ _ _ _ _ _ _ _ h1)

/-- The loop of `startDcp` over `before ++ after` is the loop over `before`
followed by the loop over `after`. -/
theorem startDcpLoop_append (env : Env) (vbSeqnos : List Nat)
    (before after : List (Nat × FailoverLog × StartDcpVbInputs)) (c cb c2 : Consumer)
    (ab aa : List Action)
    (hb : startDcpLoop env vbSeqnos c before = Except.ok (cb, ab))
    (ha : startDcpLoop env vbSeqnos cb after = Except.ok (c2, aa)) :
    startDcpLoop env vbSeqnos c (before ++ after) = Except.ok (c2, ab ++ aa) := by
  induction before generalizing c ab with
  | nil =>
    simp only [startDcpLoop] at hb
    cases hb
    simpa using ha
  | cons x rest ih =>
    obtain ⟨vb0, flog0, inp0⟩ := x
    simp only [startDcpLoop, List.cons_append] at hb ⊢
    cases h1 : startDcpVb env vbSeqnos c vb0 flog0 inp0 with
    | error f =>
      rw [h1] at hb
      cases hb
    | ok r1 =>
      obtain ⟨c1, a1⟩ := r1
      rw [h1] at hb
      simp only [] at hb ⊢
      cases h2 : startDcpLoop env vbSeqnos c1 rest with
      | error f =>
        rw [h2] at hb
        cases hb
      | ok r2 =>
        obtain ⟨c3, a3⟩ := r2
        rw [h2] at hb
        simp only [] at hb
        cases hb
        rw [show rest.append after = rest ++ after from rfl, ih c1 a3 h2]
        simp

/-- One iteration of the loop of `startDcp` for a vbucket without a stored
blob: the blob is stored first, the stream request follows. -/
theorem startDcpVb_new_blob (env : Env) (vbSeqnos : List Nat) (c : Consumer) (vbno : Nat)
    (flog : FailoverLog) (inp : StartDcpVbInputs)
    (hread : inp.read = none)
    (hidx : c.dcpStreamBoundary = DcpFromNow → vbno < vbSeqnos.length) :
    ∃ c1 blob reqs,
      startDcpVb env vbSeqnos c vbno flog inp =
        Except.ok (c1, [Action.getOpCallback (vbKey c vbno),
          Action.setOpCallback (vbKey c vbno) blob] ++ reqs) ∧
      blob.VBuuid = (env.Latest flog).1 ∧ blob.VBId = vbno ∧
      blob.AssignedWorker = c.ConsumerName ∧ blob.CurrentVBOwner = c.HostPortAddr ∧
      blob.PreviousAssignedWorker = c.ConsumerName ∧
      blob.PreviousVBOwner = c.HostPortAddr ∧ blob.PreviousNodeUUID = c.NodeUUID ∧
      (∃ entry, blob.OwnershipHistory = [entry] ∧ entry.Operation = dcpStreamBootstrap ∧
        entry.AssignedWorker = c.ConsumerName ∧ entry.CurrentVBOwner = c.HostPortAddr) ∧
      streamStarts reqs =
        (if c.dcpStreamBoundary = DcpEverything then [(vbno, blob.VBuuid, 0)]
        else if c.dcpStreamBoundary = DcpFromNow then
          [(vbno, blob.VBuuid, vbSeqnos.getD vbno 0)]
        else []) ∧
      (c.dcpStreamBoundary ≠ DcpEverything → c.dcpStreamBoundary ≠ DcpFromNow → reqs = []) := by
  by_cases hE : c.dcpStreamBoundary = DcpEverything
  · refine ⟨_, _, _, by simp only [startDcpVb, hread, hE, if_true]; rfl, rfl, rfl, rfl, rfl,
      rfl, rfl, rfl, ⟨_, rfl, rfl, rfl, rfl⟩, ?_, ?_⟩
    · rw [dcpRequestStreamHandle_starts, if_pos hE]
    · intro h
      exact absurd hE h
  · by_cases hN : c.dcpStreamBoundary = DcpFromNow
    · have hlt := hidx hN
      have hs : vbSeqnos.get? vbno = some (vbSeqnos.getD vbno 0) := by
        rw [List.get?_eq_getElem?, List.getD_eq_getElem?_getD, List.getElem?_eq_getElem hlt]
        rfl
      refine ⟨_, _, _,
        by simp only [startDcpVb, hread, hE, hN, hs, if_true, if_false]; rfl, rfl, rfl, rfl,
        rfl, rfl, rfl, rfl, ⟨_, rfl, rfl, rfl, rfl⟩, ?_, ?_⟩
      · rw [dcpRequestStreamHandle_starts, if_neg hE, if_pos hN]
      · intro _ h
        exact absurd hN h
    · refine ⟨c, _, [], by simp only [startDcpVb, hread, hE, hN, if_false]; rfl, rfl, rfl,
        rfl, rfl, rfl, rfl, rfl, ⟨_, rfl, rfl, rfl, rfl⟩, ?_, ?_⟩
      · rw [if_neg hE, if_neg hN]
        rfl
      · intro _ _
        rfl

/-- C19 (as amended): when `startDcp` gets past its guard on `BucketSeqnos`
(the fetch succeeded or the stream boundary is `everything`) and no index into
`vbSeqnos` is out of range, it runs to its end, and in the iteration for a
vbucket of the failover logs without a stored blob it first stores a new blob
(vbuuid the latest vbuuid of the failover log, current and previous owner and
worker this consumer, one ownership entry, with operation `bootstrap`) and
then requests the stream, with start sequence 0 when the stream boundary is
`everything` and `vbSeqnos[vb]` when it is `from_now`; for any other boundary
it makes no request. -/
theorem C19_startDcp_new_blob (env : Env) (c : Consumer) (seqnosErr : Bool)
    (vbSeqnos : List Nat) (before after : List (Nat × FailoverLog × StartDcpVbInputs))
    (vbno : Nat) (flog : FailoverLog) (inp : StartDcpVbInputs)
    (hguard : ¬ (seqnosErr = true ∧ c.dcpStreamBoundary ≠ DcpEverything))
    (hidx : c.dcpStreamBoundary = DcpFromNow →
      ∀ x ∈ before ++ (vbno, flog, inp) :: after, x.2.2.read = none → x.1 < vbSeqnos.length)
    (hread : inp.read = none) :
    ∃ c2 cb ab blob reqs aa,
      startDcp env c seqnosErr vbSeqnos (before ++ (vbno, flog, inp) :: after) =
        Except.ok (c2, [Action.getEventingNodeAddrOpCallback, Action.BucketSeqnos] ++ ab ++
          ([Action.getOpCallback (vbKey c vbno), Action.setOpCallback (vbKey c vbno) blob] ++
            reqs) ++ aa) ∧
      startDcpLoop env vbSeqnos c before = Except.ok (cb, ab) ∧
      blob.VBuuid = (env.Latest flog).1 ∧ blob.VBId = vbno ∧
      blob.AssignedWorker = c.ConsumerName ∧ blob.CurrentVBOwner = c.HostPortAddr ∧
      blob.PreviousAssignedWorker = c.ConsumerName ∧
      blob.PreviousVBOwner = c.HostPortAddr ∧ blob.PreviousNodeUUID = c.NodeUUID ∧
      (∃ entry, blob.OwnershipHistory = [entry] ∧ entry.Operation = dcpStreamBootstrap ∧
        entry.AssignedWorker = c.ConsumerName ∧ entry.CurrentVBOwner = c.HostPortAddr) ∧
      streamStarts reqs =
        (if c.dcpStreamBoundary = DcpEverything then [(vbno, blob.VBuuid, 0)]
        else if c.dcpStreamBoundary = DcpFromNow then
          [(vbno, blob.VBuuid, vbSeqnos.getD vbno 0)]
        else []) ∧
      (c.dcpStreamBoundary ≠ DcpEverything → c.dcpStreamBoundary ≠ DcpFromNow → reqs = []) := by
  obtain ⟨cb, ab, hb, _, _⟩ := startDcpLoop_spec env vbSeqnos before c
    (fun hN x hx hr => hidx hN x (List.mem_append_left _ hx) hr)
  have idb := startDcpLoop_identity env vbSeqnos before c cb ab hb
  obtain ⟨n1, n2, n3, n4, n5⟩ := idb
  obtain ⟨c1, blob, reqs, h1, b1, b2, b3, b4, b5, b6, b7, ⟨entry, e1, e2, e3, e4⟩, hs, hno⟩ :=
    startDcpVb_new_blob env vbSeqnos cb vbno flog inp hread
      (fun hN => hidx (n5 ▸ hN) (vbno, flog, inp)
        (List.mem_append_right _ (List.mem_cons_self _ _)) hread)
  have id1 := startDcpVb_identity env vbSeqnos cb vbno flog inp c1 _ h1
  obtain ⟨c2, aa, ha, _, _⟩ := startDcpLoop_spec env vbSeqnos after c1
    (fun hN x hx hr => hidx ((id1.2.2.2.2.trans n5) ▸ hN) x
      (List.mem_append_right _ (List.mem_cons_of_mem _ hx)) hr)
  have hkey : vbKey cb vbno = vbKey c vbno := by
    unfold vbKey
    rw [n4]
  rw [hkey] at h1
  have htail : startDcpLoop env vbSeqnos cb ((vbno, flog, inp) :: after) =
      Except.ok (c2, ([Action.getOpCallback (vbKey c vbno),
        Action.setOpCallback (vbKey c vbno) blob] ++ reqs) ++ aa) := by
    simp only [startDcpLoop, h1, ha]
  have hall := startDcpLoop_append env vbSeqnos before ((vbno, flog, inp) :: after) c cb c2
    ab _ hb htail
  refine ⟨c2, cb, ab, blob, reqs, aa, ?_, hb, b1, b2, b3.trans n1, b4.trans n2, b5.trans n1,
    b6.trans n2, b7.trans n3, ⟨entry, e1, e2, e3.trans n1, e4.trans n2⟩, ?_, ?_⟩
  · simp only [startDcp, hguard, hall, if_false]
    simp
  · rw [hs, n5]
  · intro hE hN
    exact hno (n5 ▸ hE) (n5 ▸ hN)

/-- C19 (as amended) at the failover logs of vbucket 7 (stored blob of this
node) and vbucket 8 (no stored blob), with stream boundary `everything`. -/
theorem C19_startDcp_new_blob_witness :
    ∃ c2 cb ab blob reqs aa,
      startDcp exEnv exConsumer false []
          ([(7, [], exStartInputs "node-a")] ++ (8, [(99, 5)], exStartInputsNew) :: []) =
        Except.ok (c2, [Action.getEventingNodeAddrOpCallback, Action.BucketSeqnos] ++ ab ++
          ([Action.getOpCallback (vbKey exConsumer 8),
            Action.setOpCallback (vbKey exConsumer 8) blob] ++ reqs) ++ aa) ∧
      startDcpLoop exEnv [] exConsumer [(7, [], exStartInputs "node-a")] = Except.ok (cb, ab) ∧
      blob.VBuuid = (exEnv.Latest [(99, 5)]).1 ∧ blob.VBId = 8 ∧
      blob.AssignedWorker = exConsumer.ConsumerName ∧
      blob.CurrentVBOwner = exConsumer.HostPortAddr ∧
      blob.PreviousAssignedWorker = exConsumer.ConsumerName ∧
      blob.PreviousVBOwner = exConsumer.HostPortAddr ∧
      blob.PreviousNodeUUID = exConsumer.NodeUUID ∧
      (∃ entry, blob.OwnershipHistory = [entry] ∧ entry.Operation = dcpStreamBootstrap ∧
        entry.AssignedWorker = exConsumer.ConsumerName ∧
        entry.CurrentVBOwner = exConsumer.HostPortAddr) ∧
      streamStarts reqs =
        (if exConsumer.dcpStreamBoundary = DcpEverything then [(8, blob.VBuuid, 0)]
        else if exConsumer.dcpStreamBoundary = DcpFromNow then
          [(8, blob.VBuuid, ([] : List Nat).getD 8 0)]
        else []) ∧
      (exConsumer.dcpStreamBoundary ≠ DcpEverything →
        exConsumer.dcpStreamBoundary ≠ DcpFromNow → reqs = []) :=
  C19_startDcp_new_blob exEnv exConsumer false [] [(7, [], exStartInputs "node-a")] [] 8
    [(99, 5)] exStartInputsNew (by decide) (by decide) rfl

/-- C19 as stated fails: when `BucketSeqnos` returns an error and the stream
boundary is `from_now`, `startDcp` returns before its loop; for vbucket 8,
which has no stored blob, no blob is stored and no stream is requested. -/
theorem C19_counterexample :
    exStartInputsNew.read = none ∧
    ∃ c2 acts, startDcp exEnv { exConsumer with dcpStreamBoundary := DcpFromNow } true []
        [(8, [(99, 5)], exStartInputsNew)] = Except.ok (c2, acts) ∧
      storedBlobs acts = [] ∧ streamStarts acts = [] :=
  ⟨rfl, { exConsumer with dcpStreamBoundary := DcpFromNow }, _, rfl, rfl, rfl⟩

theorem makeHeader_example :
    GetRootAsHeader (makeHeader 1 (-2) 300 [104, 105]) =
      [(0, [1]), (1, [254]), (2, [1, 44]), (3, [104, 105])] := by
  decide

/-! ## C20: round trip of the header -/

theorem uint8_toNat_ofNat (k : Nat) (h : k < 256) : (UInt8.ofNat k).toNat = k := by
  simp [UInt8.ofNat, UInt8.toNat, Fin.ofNat, Nat.mod_eq_of_lt h]

theorem decodeVarint_encodeVarintAux (fuel n : Nat) (rest : List UInt8) (h : n < fuel) :
    decodeVarint (encodeVarintAux fuel n ++ rest) = some (n, rest) := by
  induction fuel generalizing n with
  | zero => omega
  | succ fuel ih =>
    unfold encodeVarintAux
    by_cases hn : n < 128
    · simp only [hn, if_true, List.singleton_append, decodeVarint]
      rw [uint8_toNat_ofNat n (by omega)]
      simp [hn]
    · simp only [hn, if_false, List.cons_append, decodeVarint]
      rw [uint8_toNat_ofNat (n % 128 + 128) (by omega)]
      have h2 : ¬ (n % 128 + 128 < 128) := by omega
      rw [if_neg h2, ih (n / 128) (by omega)]
      simp only [Option.some.injEq, Prod.mk.injEq, and_true]
      omega

theorem decodeVarint_encodeVarint (n : Nat) (rest : List UInt8) :
    decodeVarint (encodeVarint n ++ rest) = some (n, rest) :=
  decodeVarint_encodeVarintAux (n + 1) n rest (by omega)

theorem decodeFields_encodeField (fuel tag : Nat) (payload rest : List UInt8)
    (htag : tag < 256) :
    decodeFields (fuel + 1) (encodeField tag payload ++ rest) =
      match decodeFields fuel rest with
      | none => none
      | some fields => some ((tag, payload) :: fields) := by
  have hv := decodeVarint_encodeVarint payload.length (payload ++ rest)
  have hcons : encodeField tag payload ++ rest =
      UInt8.ofNat tag :: (encodeVarint payload.length ++ (payload ++ rest)) := by
    simp [encodeField]
  rw [hcons]
  simp only [decodeFields, hv, List.length_append, Nat.le_add_right, if_true, List.drop_left,
    List.take_left]
  rw [uint8_toNat_ofNat tag htag]

theorem decodeFields_encodeFields (fields : List (Nat × List UInt8)) (fuel : Nat)
    (hfuel : fields.length < fuel) (htags : ∀ f ∈ fields, f.1 < 256) :
    decodeFields fuel (encodeFields fields) = some fields := by
  induction fields generalizing fuel with
  | nil =>
    obtain ⟨g, rfl⟩ : ∃ g, fuel = g + 1 := ⟨fuel - 1, by simp at hfuel; omega⟩
    rfl
  | cons f rest ih =>
    obtain ⟨tag, payload⟩ := f
    obtain ⟨g, rfl⟩ : ∃ g, fuel = g + 1 := ⟨fuel - 1, by simp at hfuel; omega⟩
    unfold encodeFields
    rw [decodeFields_encodeField g tag payload _ (htags (tag, payload) (List.mem_cons_self _ _)),
      ih g (by simp at hfuel; omega) (fun f hf => htags f (List.mem_cons_of_mem _ hf))]

theorem encodeFields_length (fields : List (Nat × List UInt8)) :
    fields.length ≤ (encodeFields fields).length := by
  induction fields with
  | nil => simp [encodeFields]
  | cons f rest ih =>
    obtain ⟨tag, payload⟩ := f
    simp only [encodeFields, encodeField, List.length_cons, List.length_append]
    omega

theorem GetRootAsHeader_encodeFields (fields : List (Nat × List UInt8))
    (htags : ∀ f ∈ fields, f.1 < 256) :
    GetRootAsHeader (encodeFields fields) = fields := by
  unfold GetRootAsHeader
  rw [decodeFields_encodeFields fields _
    (Nat.lt_succ_of_le (encodeFields_length fields)) htags]
  rfl

theorem int8OfByte_int8Byte (x : Int) (hlo : -128 ≤ x) (hhi : x ≤ 127) :
    int8OfByte (int8Byte x) = x := by
  unfold int8OfByte int8Byte
  have hlt : (x % 256).toNat < 256 := by omega
  rw [uint8_toNat_ofNat _ hlt]
  split <;> omega

theorem int16OfBytes_int16Bytes (x : Int) (hlo : -32768 ≤ x) (hhi : x ≤ 32767) :
    int16OfBytes (int16Bytes x) = x := by
  unfold int16Bytes int16OfBytes
  have hlt : (x % 65536).toNat < 65536 := by omega
  simp only []
  rw [uint8_toNat_ofNat _ (by omega), uint8_toNat_ofNat _ (by omega)]
  have hsum : (x % 65536).toNat / 256 * 256 + (x % 65536).toNat % 256 = (x % 65536).toNat := by
    omega
  rw [hsum]
  split <;> omega

theorem mem_optional_field (c : Prop) [Decidable c] (g f : Nat × List UInt8)
    (h : f ∈ (if c then [] else [g])) : f = g := by
  split at h
  · simp at h
  · simpa using h

/-- The bytes of `makeHeader` are the tagged fields of the non-default
scalars followed by the metadata string. -/
theorem makeHeader_fields (event opcode partition : Int) (metaStr : List UInt8) :
    makeHeader event opcode partition metaStr =
      encodeFields
        ((if event = 0 then [] else [(0, [int8Byte event])]) ++
          ((if opcode = 0 then [] else [(1, [int8Byte opcode])]) ++
            ((if partition = 0 then [] else [(2, int16Bytes partition)]) ++
              [(3, metaStr)]))) := by
  unfold makeHeader
  by_cases he : event = 0 <;> by_cases ho : opcode = 0 <;> by_cases hp : partition = 0 <;>
    simp [getBuilder, Builder.CreateString, HeaderStart, HeaderAddEvent, HeaderAddOpcode,
      HeaderAddPartition, HeaderAddMetadata, HeaderEnd, Builder.Finish,
      Builder.FinishedBytes, he, ho, hp]

/-- C20: for every `int8` event and opcode, every `int16` partition and every
metadata string, the header decoded from the bytes of
`makeHeader(event, opcode, partition, meta)` has exactly these four values as
its `Event`, `Opcode`, `Partition` and `Metadata`, and `readHeader` returns
the event. -/
theorem C20_header_round_trip (event opcode partition : Int) (metaStr : List UInt8)
    (he : -128 ≤ event ∧ event ≤ 127)
    (ho : -128 ≤ opcode ∧ opcode ≤ 127)
    (hp : -32768 ≤ partition ∧ partition ≤ 32767) :
    HeaderEvent (GetRootAsHeader (makeHeader event opcode partition metaStr)) = event ∧
    HeaderOpcode (GetRootAsHeader (makeHeader event opcode partition metaStr)) = opcode ∧
    HeaderPartition (GetRootAsHeader (makeHeader event opcode partition metaStr)) = partition ∧
    HeaderMetadata (GetRootAsHeader (makeHeader event opcode partition metaStr)) = metaStr ∧
    readHeader (makeHeader event opcode partition metaStr) = event := by
  have h8e := int8OfByte_int8Byte event he.1 he.2
  have h8o := int8OfByte_int8Byte opcode ho.1 ho.2
  have h16 := int16OfBytes_int16Bytes partition hp.1 hp.2
  unfold readHeader
  rw [makeHeader_fields, GetRootAsHeader_encodeFields]
  · by_cases h1 : event = 0 <;> by_cases h2 : opcode = 0 <;> by_cases h3 : partition = 0 <;>
      simp [HeaderEvent, HeaderOpcode, HeaderPartition, HeaderMetadata, slotOf, h1, h2, h3,
        h8e, h8o, h16]
  · intro f hf
    have hle : f.1 ≤ 3 := by
      simp only [List.mem_append, List.mem_singleton] at hf
      rcases hf with hf | hf | hf | hf
      · rw [mem_optional_field _ _ _ hf]
        simp
      · rw [mem_optional_field _ _ _ hf]
        simp
      · rw [mem_optional_field _ _ _ hf]
        simp
      · rw [hf]
    omega

/-- C20 at event 1, opcode -2, partition 300 and the metadata `hi`. -/
theorem C20_header_round_trip_witness :
    HeaderEvent (GetRootAsHeader (makeHeader 1 (-2) 300 [104, 105])) = 1 ∧
    HeaderOpcode (GetRootAsHeader (makeHeader 1 (-2) 300 [104, 105])) = -2 ∧
    HeaderPartition (GetRootAsHeader (makeHeader 1 (-2) 300 [104, 105])) = 300 ∧
    HeaderMetadata (GetRootAsHeader (makeHeader 1 (-2) 300 [104, 105])) = [104, 105] ∧
    readHeader (makeHeader 1 (-2) 300 [104, 105]) = 1 :=
  C20_header_round_trip 1 (-2) 300 [104, 105] (by decide) (by decide) (by decide)

/-! ## C21: plain mutations and deletions -/

theorem debuggerHandshake_deletionCounter (c : Consumer) (inp : Inputs) :
    (debuggerHandshake c inp).1.dcpDeletionCounter = c.dcpDeletionCounter := by
  unfold debuggerHandshake
  split
  · split <;> rfl
  · rfl

/-- Unfolding of one iteration of `processEvents` on a JSON mutation. -/
theorem processEvents_json (env : Env) (c : Consumer) (e : DcpEvent) (inp : Inputs)
    (hop : e.Opcode = Opcode.DCP_MUTATION)
    (hdt : e.Datatype = Datatype.dcpDatatypeJSON) :
    processEvents env c e inp =
      Except.ok ((forwardMutation (debuggerHandshake (countMessage c e) inp).1 e).1,
        (debuggerHandshake (countMessage c e) inp).2 ++
          (forwardMutation (debuggerHandshake (countMessage c e) inp).1 e).2) := by
  unfold processEvents processMutation
  simp only [hop, hdt]

/-- Unfolding of one iteration of `processEvents` on a deletion. -/
theorem processEvents_deletion (env : Env) (c : Consumer) (e : DcpEvent) (inp : Inputs)
    (hop : e.Opcode = Opcode.DCP_DELETION) :
    processEvents env c e inp =
      Except.ok ((forwardDeletion (debuggerHandshake (countMessage c e) inp).1 e).1,
        (debuggerHandshake (countMessage c e) inp).2 ++
          (forwardDeletion (debuggerHandshake (countMessage c e) inp).1 e).2) := by
  unfold processEvents processDeletion
  simp only [hop]

/-- C21: a `DCP_MUTATION` event with datatype JSON is forwarded to the worker
exactly once, `dcpMutationCounter` goes up by one (as a `uint64`) and
`dcpDeletionCounter` keeps its value; a `DCP_DELETION` event is forwarded
exactly once, `dcpDeletionCounter` goes up by one and `dcpMutationCounter`
keeps its value. -/
theorem C21_plain_events_forwarded (env : Env) (c : Consumer) (e : DcpEvent) (inp : Inputs) :
    (e.Opcode = Opcode.DCP_MUTATION → e.Datatype = Datatype.dcpDatatypeJSON →
      ∃ c2 acts, processEvents env c e inp = Except.ok (c2, acts) ∧
        forwardedToWorker acts = [e] ∧
        c2.dcpMutationCounter = u64 (c.dcpMutationCounter + 1) ∧
        c2.dcpDeletionCounter = c.dcpDeletionCounter) ∧
    (e.Opcode = Opcode.DCP_DELETION →
      ∃ c2 acts, processEvents env c e inp = Except.ok (c2, acts) ∧
        forwardedToWorker acts = [e] ∧
        c2.dcpDeletionCounter = u64 (c.dcpDeletionCounter + 1) ∧
        c2.dcpMutationCounter = c.dcpMutationCounter) := by
  constructor
  · intro hop hdt
    refine ⟨_, _, processEvents_json env c e inp hop hdt, ?_, ?_, ?_⟩
    · rw [forwardedToWorker_append, debuggerHandshake_forwarded]
      rfl
    · show u64 ((debuggerHandshake (countMessage c e) inp).1.dcpMutationCounter + 1) = _
      rw [debuggerHandshake_counter]
      rfl
    · show (debuggerHandshake (countMessage c e) inp).1.dcpDeletionCounter = _
      rw [debuggerHandshake_deletionCounter]
      rfl
  · intro hop
    refine ⟨_, _, processEvents_deletion env c e inp hop, ?_, ?_, ?_⟩
    · rw [forwardedToWorker_append, debuggerHandshake_forwarded]
      rfl
    · show u64 ((debuggerHandshake (countMessage c e) inp).1.dcpDeletionCounter + 1) = _
      rw [debuggerHandshake_deletionCounter]
      rfl
    · show (debuggerHandshake (countMessage c e) inp).1.dcpMutationCounter = _
      rw [debuggerHandshake_counter]
      rfl

/-- C21 at a JSON mutation and at a deletion of vbucket 5. -/
theorem C21_plain_events_forwarded_witness :
    (∃ c2 acts, processEvents exEnv exConsumer exJsonMutation exInputs = Except.ok (c2, acts) ∧
      forwardedToWorker acts = [exJsonMutation] ∧
      c2.dcpMutationCounter = u64 (exConsumer.dcpMutationCounter + 1) ∧
      c2.dcpDeletionCounter = exConsumer.dcpDeletionCounter) ∧
    (∃ c2 acts, processEvents exEnv exConsumer exDeletion exInputs = Except.ok (c2, acts) ∧
      forwardedToWorker acts = [exDeletion] ∧
      c2.dcpDeletionCounter = u64 (exConsumer.dcpDeletionCounter + 1) ∧
      c2.dcpMutationCounter = exConsumer.dcpMutationCounter) :=
  ⟨(C21_plain_events_forwarded exEnv exConsumer exJsonMutation exInputs).1 rfl rfl,
    (C21_plain_events_forwarded exEnv exConsumer exDeletion exInputs).2 rfl⟩

/-! ## C25: clearing the ownership information of a vbucket -/

/-- C25: `clearUpOnwershipInfoFromMeta(vb)` builds a blob with empty
`AssignedWorker`, `CurrentVBOwner` and `NodeUUID`, status stopped, the
`Previous*` fields naming this consumer and a fresh `LastCheckpointTime`, every
other field as read from the store; the stopped history entry and the blob are
the only writes, made in that order under the key of the vbucket, and they are
made only if the vbucket was not yet marked in `vbsStreamClosed`; the four
ownership stats of the vbucket are set from the blob either way. -/
theorem C25_clear_ownership_frame (c : Consumer) (vb : Nat) (read : VbucketKVBlob)
    (nowRFC3339 nowString : String) :
    ∃ blob entry,
      blob.AssignedWorker = "" ∧ blob.CurrentVBOwner = "" ∧ blob.NodeUUID = "" ∧
      blob.DCPStreamStatus = dcpStreamStopped ∧
      blob.PreviousAssignedWorker = c.ConsumerName ∧
      blob.PreviousNodeUUID = c.NodeUUID ∧
      blob.PreviousVBOwner = c.HostPortAddr ∧
      blob.LastCheckpointTime = nowRFC3339 ∧
      blob.VBuuid = read.VBuuid ∧
      blob.LastSeqNoProcessed = read.LastSeqNoProcessed ∧
      blob.LastDocTimerFeedbackSeqNo = read.LastDocTimerFeedbackSeqNo ∧
      blob.OwnershipHistory = read.OwnershipHistory ∧
      blob.VBId = read.VBId ∧
      blob.CurrentProcessedDocIDTimer = read.CurrentProcessedDocIDTimer ∧
      blob.LastProcessedDocIDTimerEvent = read.LastProcessedDocIDTimerEvent ∧
      blob.NextDocIDTimerToProcess = read.NextDocIDTimerToProcess ∧
      entry = ⟨c.ConsumerName, c.HostPortAddr, dcpStreamStopped, 0, nowString⟩ ∧
      (clearUpOnwershipInfoFromMeta c vb read nowRFC3339 nowString).2 =
        Action.getOpCallback (vbKey c vb) ::
          (if (c.vbsStreamClosed vb).isSome then []
           else [Action.addOwnershipHistorySECallback (vbKey c vb) entry,
             Action.updateCheckpointCallback (vbKey c vb) blob]) ∧
      ((clearUpOnwershipInfoFromMeta c vb read nowRFC3339 nowString).1.vbsStreamClosed
        vb).isSome = true ∧
      getVbStat (clearUpOnwershipInfoFromMeta c vb read nowRFC3339 nowString).1.vbProcessingStats
        vb "assigned_worker" = some (StatVal.str blob.AssignedWorker) ∧
      getVbStat (clearUpOnwershipInfoFromMeta c vb read nowRFC3339 nowString).1.vbProcessingStats
        vb "current_vb_owner" = some (StatVal.str blob.CurrentVBOwner) ∧
      getVbStat (clearUpOnwershipInfoFromMeta c vb read nowRFC3339 nowString).1.vbProcessingStats
        vb "dcp_stream_status" = some (StatVal.str blob.DCPStreamStatus) ∧
      getVbStat (clearUpOnwershipInfoFromMeta c vb read nowRFC3339 nowString).1.vbProcessingStats
        vb "node_uuid" = some (StatVal.str blob.NodeUUID) := by
  refine ⟨{ read with
      AssignedWorker := ""
      CurrentVBOwner := ""
      DCPStreamStatus := dcpStreamStopped
      LastCheckpointTime := nowRFC3339
      NodeUUID := ""
      PreviousAssignedWorker := c.ConsumerName
      PreviousNodeUUID := c.NodeUUID
      PreviousVBOwner := c.HostPortAddr }, _, rfl, rfl, rfl, rfl, rfl, rfl, rfl, rfl, rfl, rfl,
    rfl, rfl, rfl, rfl, rfl, rfl, rfl, ?_, ?_, ?_, ?_, ?_, ?_⟩
  · unfold clearUpOnwershipInfoFromMeta
    by_cases h : (c.vbsStreamClosed vb).isSome = true
    · simp [h]
    · simp [h]
  · unfold clearUpOnwershipInfoFromMeta
    by_cases h : (c.vbsStreamClosed vb).isSome = true
    · simp [h]
    · simp [h]
  · simp [clearUpOnwershipInfoFromMeta, getVbStat, updateVbStat]
  · simp [clearUpOnwershipInfoFromMeta, getVbStat, updateVbStat]
  · simp [clearUpOnwershipInfoFromMeta, getVbStat, updateVbStat]
  · simp [clearUpOnwershipInfoFromMeta, getVbStat, updateVbStat]

/-! ## C26: a JSON+XATTR mutation without eventing cas -/

/-- C26: a JSON+XATTR mutation whose xattr section decodes (declared length
`totalXattrLen`) to metadata with an empty cas, and whose value has a body
`value[4+totalXattrLen:]`, is forwarded to the worker exactly once with the
value replaced by that body; `dcpMutationCounter` goes up by one and no timer
entry is enqueued. -/
theorem C26_no_cas_forwards_body (env : Env) (c : Consumer) (e : DcpEvent) (inp : Inputs)
    (totalXattrLen : Nat) (xMeta : XattrMetadata) (body : GoSlice)
    (hop : e.Opcode = Opcode.DCP_MUTATION)
    (hdt : e.Datatype = Datatype.dcpDatatypeJSONXattr)
    (hdec : decodeXattrs env e.Value = Except.ok (totalXattrLen, xMeta))
    (hcas : xMeta.Cas = "")
    (hbody : e.Value.sliceFrom (u32 (4 + totalXattrLen)) = some body) :
    ∃ c2 acts, processEvents env c e inp = Except.ok (c2, acts) ∧
      forwardedToWorker acts = [{ e with Value := body }] ∧
      c2.dcpMutationCounter = u64 (c.dcpMutationCounter + 1) ∧
      sentToTimerStore acts = [] := by
  have hx : processXattrMutation env (debuggerHandshake (countMessage c e) inp).1 e =
      Except.ok (forwardMutation (debuggerHandshake (countMessage c e) inp).1
        { e with Value := body }) := by
    unfold processXattrMutation
    simp only [hdec, hcas, hbody, ne_eq, not_true_eq_false, if_false]
  have hp : processEvents env c e inp =
      Except.ok ((forwardMutation (debuggerHandshake (countMessage c e) inp).1
          { e with Value := body }).1,
        (debuggerHandshake (countMessage c e) inp).2 ++
          (forwardMutation (debuggerHandshake (countMessage c e) inp).1
            { e with Value := body }).2) := by
    rw [processEvents_xattr env c e inp hop hdt, hx]
  refine ⟨_, _, hp, ?_, ?_, ?_⟩
  · rw [forwardedToWorker_append, debuggerHandshake_forwarded]
    rfl
  · show u64 ((debuggerHandshake (countMessage c e) inp).1.dcpMutationCounter + 1) = _
    rw [debuggerHandshake_counter]
    rfl
  · rw [sentToTimerStore_append, debuggerHandshake_timers]
    rfl

/-- C26 at a mutation whose only xattr frame is not an eventing frame and whose
body is `v1`. -/
theorem C26_no_cas_forwards_body_witness :
    ∃ c2 acts,
      processEvents exEnv exConsumer (exForeignXattrMutation [118, 49]) exInputs =
        Except.ok (c2, acts) ∧
      forwardedToWorker acts =
        [{ exForeignXattrMutation [118, 49] with
            Value := GoSlice.ofList [118, 49] }] ∧
      c2.dcpMutationCounter = u64 (exConsumer.dcpMutationCounter + 1) ∧
      sentToTimerStore acts = [] :=
  C26_no_cas_forwards_body exEnv exConsumer (exForeignXattrMutation [118, 49]) exInputs
    10 XattrMetadata.zero ⟨[118, 49], 2⟩ rfl rfl rfl rfl rfl

/-! ## C27: a mutation of another datatype -/

/-- C27 (as amended): a `DCP_MUTATION` event whose datatype is neither JSON nor
JSON+XATTR is not forwarded to the worker, enqueues no timer entry and leaves
`dcpMutationCounter` alone, while `dcpMessagesProcessed[DCP_MUTATION]` goes up
by one; when `debuggerState` is not `startDebug` that count is the only change
of the consumer and nothing leaves it.  When `debuggerState` is `startDebug`
the debugger handshake runs as for every mutation: a send on
`signalUpdateDebuggerInstBlobCh` is made and `debuggerState` becomes
`stopDebug`; if the debugger start was signalled, `go c.startDebuggerServer()`
is run as well and `sendMsgToDebugger` is set, and otherwise nothing else
happens.  In each case the consumer and the calls are exactly these. -/
theorem C27_other_datatype (env : Env) (c : Consumer) (e : DcpEvent) (inp : Inputs) (code : Nat)
    (hop : e.Opcode = Opcode.DCP_MUTATION)
    (hdt : e.Datatype = Datatype.other code) :
    ∃ c2 acts, processEvents env c e inp = Except.ok (c2, acts) ∧
      forwardedToWorker acts = [] ∧
      sentToTimerStore acts = [] ∧
      c2.dcpMutationCounter = c.dcpMutationCounter ∧
      c2.dcpMessagesProcessed Opcode.DCP_MUTATION =
        u64 (c.dcpMessagesProcessed Opcode.DCP_MUTATION + 1) ∧
      (c.debuggerState ≠ startDebug → c2 = countMessage c e ∧ acts = []) ∧
      (c.debuggerState = startDebug → inp.startDebuggerSignalled = true →
        c2 = { countMessage c e with sendMsgToDebugger := true, debuggerState := stopDebug } ∧
        acts = [Action.signalUpdateDebuggerInstBlob, Action.startDebuggerServer]) ∧
      (c.debuggerState = startDebug → inp.startDebuggerSignalled = false →
        c2 = { countMessage c e with debuggerState := stopDebug } ∧
        acts = [Action.signalUpdateDebuggerInstBlob]) := by
  have hp : processEvents env c e inp =
      Except.ok ((debuggerHandshake (countMessage c e) inp).1,
        (debuggerHandshake (countMessage c e) inp).2) := by
    unfold processEvents processMutation
    simp only [hop, hdt]
  refine ⟨_, _, hp, debuggerHandshake_forwarded _ _, debuggerHandshake_timers _ _,
    ?_, ?_, ?_, ?_, ?_⟩
  · rw [debuggerHandshake_counter]
    rfl
  · have h : (debuggerHandshake (countMessage c e) inp).1.dcpMessagesProcessed =
        (countMessage c e).dcpMessagesProcessed := by
      unfold debuggerHandshake
      split
      · split <;> rfl
      · rfl
    rw [h]
    simp [countMessage, hop]
  · intro hne
    have h : (countMessage c e).debuggerState ≠ startDebug := hne
    unfold debuggerHandshake
    simp only [h, if_false, and_self]
  · intro heq hsig
    have h : (countMessage c e).debuggerState = startDebug := heq
    unfold debuggerHandshake
    simp only [h, hsig, if_true, and_self]
  · intro heq hsig
    have h : (countMessage c e).debuggerState = startDebug := heq
    unfold debuggerHandshake
    simp only [h, hsig, if_true, Bool.false_eq_true, if_false, and_self]

/-- C27 (as amended) at a mutation of datatype 0, for a consumer whose
debugger is idle and for one whose debugger start is signalled. -/
theorem C27_other_datatype_witness :
    (∃ c2 acts, processEvents exEnv exConsumer exRawMutation exInputs = Except.ok (c2, acts) ∧
      forwardedToWorker acts = [] ∧
      sentToTimerStore acts = [] ∧
      c2.dcpMutationCounter = exConsumer.dcpMutationCounter ∧
      c2.dcpMessagesProcessed Opcode.DCP_MUTATION = 1 ∧
      c2 = countMessage exConsumer exRawMutation ∧ acts = []) ∧
    (∃ c2 acts,
      processEvents exEnv exConsumerStartDebug exRawMutation exInputsDebug =
        Except.ok (c2, acts) ∧
      forwardedToWorker acts = [] ∧
      c2 = { countMessage exConsumerStartDebug exRawMutation with
              sendMsgToDebugger := true, debuggerState := stopDebug } ∧
      acts = [Action.signalUpdateDebuggerInstBlob, Action.startDebuggerServer]) :=
  ⟨(C27_other_datatype exEnv exConsumer exRawMutation exInputs 0 rfl rfl).elim
      fun c2 h => h.elim fun acts h =>
        ⟨c2, acts, h.1, h.2.1, h.2.2.1, h.2.2.2.1, h.2.2.2.2.1,
          (h.2.2.2.2.2.1 (by decide)).1, (h.2.2.2.2.2.1 (by decide)).2⟩,
    (C27_other_datatype exEnv exConsumerStartDebug exRawMutation exInputsDebug 0 rfl rfl).elim
      fun c2 h => h.elim fun acts h =>
        ⟨c2, acts, h.1, h.2.1, (h.2.2.2.2.2.2.1 rfl rfl).1, (h.2.2.2.2.2.2.1 rfl rfl).2⟩⟩

/-- C27 fails as stated: with `debuggerState = startDebug` a mutation of
datatype 0 changes `debuggerState` to `stopDebug` and sends on
`signalUpdateDebuggerInstBlobCh`, so the message count is not the only change. -/
theorem C27_counterexample :
    ∃ c2 acts,
      processEvents exEnv exConsumerStartDebug exRawMutation exInputs = Except.ok (c2, acts) ∧
      exConsumerStartDebug.debuggerState = 1 ∧ c2.debuggerState = 2 ∧
      acts = [Action.signalUpdateDebuggerInstBlob] :=
  ⟨_, _, rfl, rfl, rfl, rfl⟩

/-! ## C24: malformed xattr sections -/

/-- C24: the xattr decoding of `processEvents` does not survive every value.
Each of these JSON+XATTR mutations ends the iteration with a run-time panic of
an out-of-range access: a value of three bytes (`binary.BigEndian.Uint32`
reads four), a declared total xattr length of 0 (`e.Value[4:3]`), a declared
total length of 100 on a value of six bytes (`e.Value[4:103]`), a frame length
of 0 (`totalXattrData[4:3]`) and a frame length of 100 inside an xattr section
of nine bytes (`totalXattrData[4:103]`). -/
theorem C24_malformed_xattr_panics :
    processEvents exEnv exConsumer (exXattrMutationOf [0, 0, 0]) exInputs =
      Except.error Fault.panic ∧
    processEvents exEnv exConsumer (exXattrMutationOf [0, 0, 0, 0, 123, 125]) exInputs =
      Except.error Fault.panic ∧
    processEvents exEnv exConsumer (exXattrMutationOf [0, 0, 0, 100, 1, 2]) exInputs =
      Except.error Fault.panic ∧
    processEvents exEnv exConsumer
      (exXattrMutationOf [0, 0, 0, 10, 0, 0, 0, 0, 101, 118, 0, 123, 125, 0, 123, 125])
      exInputs = Except.error Fault.panic ∧
    processEvents exEnv exConsumer
      (exXattrMutationOf [0, 0, 0, 10, 0, 0, 0, 100, 101, 118, 0, 123, 125, 0, 123, 125])
      exInputs = Except.error Fault.panic :=
  ⟨rfl, rfl, rfl, rfl, rfl⟩

/-! ## C28: the state of an app -/

/-- C28: with `d` the deployment status read for the app and `p` its
processing status (an absent key reads as `false`), `GetAppState` returns
`AppStateEnabled` when `d` and `p` are true, `AppStateDisabled` when `d` is true
and `p` is false, and `AppStateUndeployed` when `d` is false; so it returns
`AppStateEnabled` exactly when both are true, `AppStateDisabled` exactly when
`d` is true and `p` is false, and never `AppStateUnexpected` or `AppState`. -/
theorem C28_get_app_state (s : SuperSupervisor) (appName : String) :
    s.GetAppState appName =
      (if (mapGet s.appDeploymentStatus appName).getD false then
        (if (mapGet s.appProcessingStatus appName).getD false then AppStateEnabled
         else AppStateDisabled)
       else AppStateUndeployed) ∧
    (s.GetAppState appName = AppStateEnabled ↔
      (mapGet s.appDeploymentStatus appName).getD false = true ∧
        (mapGet s.appProcessingStatus appName).getD false = true) ∧
    (s.GetAppState appName = AppStateDisabled ↔
      (mapGet s.appDeploymentStatus appName).getD false = true ∧
        (mapGet s.appProcessingStatus appName).getD false = false) ∧
    (s.GetAppState appName = AppStateUndeployed ↔
      (mapGet s.appDeploymentStatus appName).getD false = false) ∧
    s.GetAppState appName ≠ AppStateUnexpected ∧
    s.GetAppState appName ≠ AppState := by
  unfold SuperSupervisor.GetAppState
  cases (mapGet s.appDeploymentStatus appName).getD false <;>
    cases (mapGet s.appProcessingStatus appName).getD false <;>
    simp [AppState, AppStateUndeployed, AppStateEnabled, AppStateDisabled, AppStateUnexpected]

/-! ## C29: rebalance status of a producer and of the supervisor -/

theorem mapGet_mapSet {V : Type} (m : List (String × V)) (k : String) (v : V) (x : String) :
    mapGet (mapSet m k v) x = if x = k then some v else mapGet m x := by
  induction m with
  | nil => rfl
  | cons kv t ih =>
    obtain ⟨k0, v0⟩ := kv
    unfold mapSet
    by_cases hk : k = k0
    · subst hk
      by_cases hx : x = k <;> simp [mapGet, hx]
    · by_cases hx0 : x = k0
      · subst hx0
        have hxk : ¬ x = k := fun h => hk h.symm
        simp [mapGet, hk, hxk]
      · simp only [hk, if_false, mapGet, hx0, ih]

theorem mapSet_keys_mem {V : Type} (m : List (String × V)) (k : String) (v : V) (x : String) :
    x ∈ (mapSet m k v).map Prod.fst ↔ x = k ∨ x ∈ m.map Prod.fst := by
  induction m with
  | nil => simp [mapSet]
  | cons kv t ih =>
    obtain ⟨k0, v0⟩ := kv
    unfold mapSet
    by_cases hk : k = k0
    · subst hk
      simp
    · simp only [hk, if_false, List.map_cons, List.mem_cons, ih]
      constructor
      · rintro (h | h | h)
        · exact Or.inr (Or.inl h)
        · exact Or.inl h
        · exact Or.inr (Or.inr h)
      · rintro (h | h | h)
        · exact Or.inr (Or.inl h)
        · exact Or.inl h
        · exact Or.inr (Or.inr h)

theorem mapSet_keys_nodup {V : Type} (m : List (String × V)) (k : String) (v : V)
    (h : (m.map Prod.fst).Nodup) : ((mapSet m k v).map Prod.fst).Nodup := by
  induction m with
  | nil => simp [mapSet]
  | cons kv t ih =>
    obtain ⟨k0, v0⟩ := kv
    unfold mapSet
    rw [List.map_cons, List.nodup_cons] at h
    by_cases hk : k = k0
    · subst hk
      simp only [if_true, List.map_cons, List.nodup_cons]
      exact h
    · simp only [hk, if_false, List.map_cons, List.nodup_cons]
      refine ⟨?_, ih h.2⟩
      intro hmem
      rcases (mapSet_keys_mem t k v k0).1 hmem with h1 | h1
      · exact hk h1.symm
      · exact h.1 h1

theorem mapGet_of_mem {V : Type} (m : List (String × V)) (h : (m.map Prod.fst).Nodup)
    (k : String) (v : V) : (k, v) ∈ m ↔ mapGet m k = some v := by
  induction m with
  | nil => simp [mapGet]
  | cons kv t ih =>
    obtain ⟨k0, v0⟩ := kv
    rw [List.map_cons, List.nodup_cons] at h
    by_cases hk : k = k0
    · subst hk
      simp only [mapGet, if_true, List.mem_cons, Prod.mk.injEq, true_and, Option.some.injEq]
      constructor
      · rintro (h1 | h1)
        · exact h1.symm
        · exact absurd (List.mem_map_of_mem Prod.fst h1) h.1
      · intro h1
        exact Or.inl h1.symm
    · simp only [mapGet, hk, if_false, List.mem_cons, Prod.mk.injEq, false_and, false_or]
      exact ih h.2

/-- The status map built from a list of named reports. -/
theorem statusMap_spec (entries : List (String × Bool)) :
    ∀ m : List (String × Bool), (m.map Prod.fst).Nodup →
      (entries.map Prod.fst).Nodup →
      ((entries.foldl (fun m e => mapSet m e.1 e.2) m).map Prod.fst).Nodup ∧
      ∀ k, mapGet (entries.foldl (fun m e => mapSet m e.1 e.2) m) k = some true ↔
        ((k, true) ∈ entries ∨ (k ∉ entries.map Prod.fst ∧ mapGet m k = some true)) := by
  induction entries with
  | nil =>
    intro m hm _
    exact ⟨hm, fun k => by simp⟩
  | cons e rest ih =>
    intro m hm hn
    rw [List.map_cons, List.nodup_cons] at hn
    obtain ⟨hfresh, hrest⟩ := hn
    have h1 := ih (mapSet m e.1 e.2) (mapSet_keys_nodup m e.1 e.2 hm) hrest
    refine ⟨h1.1, fun k => ?_⟩
    rw [List.foldl_cons, h1.2 k, mapGet_mapSet]
    obtain ⟨k0, v0⟩ := e
    simp only [List.mem_cons, Prod.mk.injEq, List.map_cons, not_or]
    by_cases hk : k = k0
    · subst hk
      simp only [true_and, if_true, Option.some.injEq, not_true_eq_false, false_and, or_false]
      have hfresh2 : k ∉ rest.map Prod.fst := hfresh
      constructor
      · rintro (h | ⟨_, h⟩)
        · exact Or.inr h
        · exact Or.inl h.symm
      · rintro (h | h)
        · exact Or.inr ⟨hfresh2, h.symm⟩
        · exact Or.inl h
    · simp only [hk, false_and, false_or, if_false, not_false_eq_true, true_and]

theorem anyStatus_statusMap (entries : List (String × Bool))
    (hn : (entries.map Prod.fst).Nodup) :
    anyStatus (entries.foldl (fun m e => mapSet m e.1 e.2) []) = true ↔
      ∃ e ∈ entries, e.2 = true := by
  have h := statusMap_spec entries [] List.nodup_nil hn
  unfold anyStatus
  rw [List.any_eq_true]
  constructor
  · rintro ⟨⟨k, v⟩, hmem, hv⟩
    have hv2 : v = true := hv
    subst hv2
    have hg := (mapGet_of_mem _ h.1 k true).1 hmem
    rcases (h.2 k).1 hg with h1 | ⟨_, h1⟩
    · exact ⟨(k, true), h1, rfl⟩
    · simp [mapGet] at h1
  · rintro ⟨⟨k, v⟩, hmem, hv⟩
    have hv2 : v = true := hv
    subst hv2
    exact ⟨(k, true), (mapGet_of_mem _ h.1 k true).2 ((h.2 k).2 (Or.inl hmem)), rfl⟩

theorem foldl_mapSet_map {A : Type} (f : A → String) (g : A → Bool) (xs : List A) :
    ∀ m : List (String × Bool),
      xs.foldl (fun m c => mapSet m (f c) (g c)) m =
        (xs.map fun c => (f c, g c)).foldl (fun m e => mapSet m e.1 e.2) m := by
  induction xs with
  | nil => intro m; rfl
  | cons x rest ih => intro m; exact ih _

/-- C29: when the running consumers of a producer have pairwise distinct
names, `Producer.RebalanceStatus` is true exactly when one of them reports
`RebalanceStatus() = true`; `SuperSupervisor.RebalanceStatus` (whose running
producers are the entries of a map, each app name once) is true exactly when
one running producer reports true; both are false when nothing is running. -/
theorem C29_rebalance_status (p : Producer) (s : SuperSupervisor)
    (hp : (p.runningConsumers.map fun c => c.ConsumerName).Nodup)
    (hs : (s.runningProducers.map fun ap => ap.1).Nodup) :
    (p.RebalanceStatus = true ↔ ∃ c ∈ p.runningConsumers, c.RebalanceStatus = true) ∧
    (s.RebalanceStatus = true ↔
      ∃ ap ∈ s.runningProducers, ap.2.RebalanceStatus = true) ∧
    Producer.RebalanceStatus { runningConsumers := [] } = false ∧
    SuperSupervisor.RebalanceStatus { s with runningProducers := [] } = false := by
  refine ⟨?_, ?_, rfl, rfl⟩
  · unfold Producer.RebalanceStatus
    simp only []
    rw [foldl_mapSet_map, anyStatus_statusMap _ (by simpa [List.map_map] using hp)]
    simp
  · unfold SuperSupervisor.RebalanceStatus
    simp only []
    rw [foldl_mapSet_map (fun ap : String × Producer => ap.1) (fun ap => ap.2.RebalanceStatus),
      anyStatus_statusMap _ (by simpa [List.map_map] using hs)]
    constructor
    · rintro ⟨e, hmem, he⟩
      obtain ⟨ap, hap, rfl⟩ := List.mem_map.1 hmem
      exact ⟨ap, hap, he⟩
    · rintro ⟨ap, hap, he⟩
      exact ⟨(ap.1, ap.2.RebalanceStatus), List.mem_map.2 ⟨ap, hap, rfl⟩, he⟩

/-- C29 at a producer with two consumers, one of them rebalancing, and a
supervisor that runs it next to an idle producer. -/
theorem C29_rebalance_status_witness :
    (exProducer.RebalanceStatus = true ↔
      ∃ c ∈ exProducer.runningConsumers, c.RebalanceStatus = true) ∧
    (exSupervisorRunning.RebalanceStatus = true ↔
      ∃ ap ∈ exSupervisorRunning.runningProducers, ap.2.RebalanceStatus = true) ∧
    Producer.RebalanceStatus { runningConsumers := [] } = false ∧
    SuperSupervisor.RebalanceStatus { exSupervisorRunning with runningProducers := [] } = false :=
  C29_rebalance_status exProducer exSupervisorRunning (by decide) (by decide)

/-! ## C22: aggregation over the running consumers -/

theorem mapGet_addStat (m : List (String × Nat)) (k : String) (v : Nat) (x : String) :
    mapGet (addStat m k v) x =
      if x = k then some (u64 ((mapGet m k).getD 0 + v)) else mapGet m x := by
  unfold addStat
  cases hm : mapGet m k with
  | none =>
    simp only [Option.isSome_none, Bool.false_eq_true, if_false, mapGet_mapSet, if_true,
      Option.getD_some, Option.getD_none]
    by_cases hx : x = k <;> simp [hx]
  | some a =>
    simp only [Option.isSome_some, if_true, mapGet_mapSet, hm, Option.getD_some]

theorem u64_add_u64 (a b : Nat) : u64 (u64 a + b) = u64 (a + b) := by
  unfold u64
  omega

theorem foldl_addStat (k : String) (es : List (String × Nat)) :
    ∀ m : List (String × Nat),
      mapGet (es.foldl (fun m kv => addStat m kv.1 kv.2) m) k =
        if statValues k es = [] then mapGet m k
        else some (u64 ((mapGet m k).getD 0 + (statValues k es).sum)) := by
  induction es with
  | nil => intro m; rfl
  | cons e rest ih =>
    intro m
    obtain ⟨k0, v0⟩ := e
    rw [List.foldl_cons, ih, mapGet_addStat]
    by_cases hk : k0 = k
    · subst hk
      have hs : statValues k0 ((k0, v0) :: rest) = v0 :: statValues k0 rest := by
        simp [statValues]
      rw [hs]
      simp only [if_true, Option.getD_some, List.sum_cons]
      by_cases hr : statValues k0 rest = []
      · simp [hr]
      · simp only [hr, if_false, List.cons_ne_nil, Option.some.injEq]
        rw [u64_add_u64, Nat.add_assoc]
    · have hk2 : ¬ k = k0 := fun h => hk h.symm
      have hs : statValues k ((k0, v0) :: rest) = statValues k rest := by
        simp [statValues, hk]
      rw [hs]
      simp only [hk2, if_false]

/-- The aggregation loop shared by the three stats getters of the producer. -/
theorem aggregate_spec {A : Type} (f : A → List (String × Nat)) (k : String) (cs : List A) :
    ∀ m : List (String × Nat),
      mapGet (cs.foldl (fun agg c => (f c).foldl (fun m kv => addStat m kv.1 kv.2) agg) m) k =
        if reportedValues k (cs.map f) = [] then mapGet m k
        else some (u64 ((mapGet m k).getD 0 + (reportedValues k (cs.map f)).sum)) := by
  induction cs with
  | nil => intro m; rfl
  | cons c rest ih =>
    intro m
    rw [List.foldl_cons, ih, foldl_addStat]
    have hv : reportedValues k ((c :: rest).map f) =
        statValues k (f c) ++ reportedValues k (rest.map f) := by
      simp [reportedValues]
    rw [hv]
    by_cases h1 : statValues k (f c) = []
    · simp [h1]
    · by_cases h2 : reportedValues k (rest.map f) = []
      · simp [h1, h2]
      · simp only [h1, h2, if_false, Option.getD_some, List.append_eq_nil, and_self,
          List.sum_append, Option.some.injEq]
        rw [u64_add_u64, Nat.add_assoc]

theorem goInt_add (a b : Int) : goInt (goInt a + b) = goInt (a + b) := by
  unfold goInt
  omega

theorem goInt_of_range (x : Int) (h1 : -(2 ^ 63) ≤ x) (h2 : x < 2 ^ 63) : goInt x = x := by
  unfold goInt
  omega

theorem rebalanceProgress_fold (cs : List EventingConsumer) :
    ∀ a b : Int,
      cs.foldl
        (fun (acc : RebalanceProgress) (c : EventingConsumer) =>
          ({ VbsRemainingToShuffle :=
              goInt (acc.VbsRemainingToShuffle + c.RebalanceTaskProgress.VbsRemainingToShuffle)
             VbsOwnedPerPlan :=
              goInt (acc.VbsOwnedPerPlan + c.RebalanceTaskProgress.VbsOwnedPerPlan) } :
            RebalanceProgress))
        { VbsRemainingToShuffle := goInt a, VbsOwnedPerPlan := goInt b } =
      { VbsRemainingToShuffle :=
          goInt (a + (cs.map fun c => c.RebalanceTaskProgress.VbsRemainingToShuffle).sum)
        VbsOwnedPerPlan :=
          goInt (b + (cs.map fun c => c.RebalanceTaskProgress.VbsOwnedPerPlan).sum) } := by
  induction cs with
  | nil => intro a b; simp
  | cons c rest ih =>
    intro a b
    rw [List.foldl_cons]
    simp only [goInt_add]
    rw [ih]
    simp only [List.map_cons, List.sum_cons, Int.add_assoc]

/-- C22: for every producer and stat key `k`, each of `GetLatencyStats`,
`GetEventProcessingStats` and `GetLcbExceptionsStats` returns a map in which `k`
is absent when no running consumer reports a value under `k` and otherwise holds
the sum modulo 2^64 of the values reported under `k`; `RebalanceTaskProgress`
returns in each of its two fields the sum of that field over the running
consumers, computed in Go's 64-bit `int` (so equal to the sum whenever the sum
is in the range of `int`), and both fields are 0 when no consumer runs. -/
theorem C22_aggregation (p : Producer) (k : String) :
    (mapGet p.GetLatencyStats k =
      if reportedValues k (p.runningConsumers.map fun c => c.GetLatencyStats) = [] then none
      else some (u64 (reportedValues k
        (p.runningConsumers.map fun c => c.GetLatencyStats)).sum)) ∧
    (mapGet p.GetEventProcessingStats k =
      if reportedValues k (p.runningConsumers.map fun c => c.GetEventProcessingStats) = []
      then none
      else some (u64 (reportedValues k
        (p.runningConsumers.map fun c => c.GetEventProcessingStats)).sum)) ∧
    (mapGet p.GetLcbExceptionsStats k =
      if reportedValues k (p.runningConsumers.map fun c => c.GetLcbExceptionsStats) = []
      then none
      else some (u64 (reportedValues k
        (p.runningConsumers.map fun c => c.GetLcbExceptionsStats)).sum)) ∧
    p.RebalanceTaskProgress.VbsRemainingToShuffle =
      goInt (p.runningConsumers.map fun c =>
        c.RebalanceTaskProgress.VbsRemainingToShuffle).sum ∧
    p.RebalanceTaskProgress.VbsOwnedPerPlan =
      goInt (p.runningConsumers.map fun c => c.RebalanceTaskProgress.VbsOwnedPerPlan).sum ∧
    (-(2 ^ 63) ≤ (p.runningConsumers.map fun c =>
        c.RebalanceTaskProgress.VbsRemainingToShuffle).sum ∧
      (p.runningConsumers.map fun c =>
        c.RebalanceTaskProgress.VbsRemainingToShuffle).sum < 2 ^ 63 →
      p.RebalanceTaskProgress.VbsRemainingToShuffle =
        (p.runningConsumers.map fun c =>
          c.RebalanceTaskProgress.VbsRemainingToShuffle).sum) ∧
    (-(2 ^ 63) ≤ (p.runningConsumers.map fun c =>
        c.RebalanceTaskProgress.VbsOwnedPerPlan).sum ∧
      (p.runningConsumers.map fun c => c.RebalanceTaskProgress.VbsOwnedPerPlan).sum < 2 ^ 63 →
      p.RebalanceTaskProgress.VbsOwnedPerPlan =
        (p.runningConsumers.map fun c => c.RebalanceTaskProgress.VbsOwnedPerPlan).sum) ∧
    Producer.RebalanceTaskProgress { runningConsumers := [] } =
      { VbsRemainingToShuffle := 0, VbsOwnedPerPlan := 0 } := by
  have hprog : p.RebalanceTaskProgress =
      { VbsRemainingToShuffle :=
          goInt (p.runningConsumers.map fun c =>
            c.RebalanceTaskProgress.VbsRemainingToShuffle).sum
        VbsOwnedPerPlan :=
          goInt (p.runningConsumers.map fun c =>
            c.RebalanceTaskProgress.VbsOwnedPerPlan).sum } := by
    have h := rebalanceProgress_fold p.runningConsumers 0 0
    simp only [Int.zero_add] at h
    exact h
  refine ⟨?_, ?_, ?_, ?_, ?_, ?_, ?_, rfl⟩
  · unfold Producer.GetLatencyStats
    rw [aggregate_spec (fun c : EventingConsumer => c.GetLatencyStats)]
    simp [mapGet]
  · unfold Producer.GetEventProcessingStats
    rw [aggregate_spec (fun c : EventingConsumer => c.GetEventProcessingStats)]
    simp [mapGet]
  · unfold Producer.GetLcbExceptionsStats
    rw [aggregate_spec (fun c : EventingConsumer => c.GetLcbExceptionsStats)]
    simp [mapGet]
  · rw [hprog]
  · rw [hprog]
  · intro h
    rw [hprog]
    exact goInt_of_range _ h.1 h.2
  · intro h
    rw [hprog]
    exact goInt_of_range _ h.1 h.2

/-- C22 at a producer with two consumers and the key `DCP_MUTATION`, whose
event counts 2^64 - 1 and 2 add up to 1 modulo 2^64; the rebalance progress is
3 vbuckets to shuffle and 1024 owned per plan. -/
theorem C22_aggregation_witness :
    mapGet exProducer.GetEventProcessingStats "DCP_MUTATION" = some 1 ∧
    mapGet exProducer.GetLatencyStats "200" = some 5 ∧
    mapGet exProducer.GetLcbExceptionsStats "13" = none ∧
    exProducer.RebalanceTaskProgress = { VbsRemainingToShuffle := 3, VbsOwnedPerPlan := 1024 } ∧
    exProducer.RebalanceTaskProgress.VbsRemainingToShuffle =
      (exProducer.runningConsumers.map fun c =>
        c.RebalanceTaskProgress.VbsRemainingToShuffle).sum ∧
    exProducer.RebalanceTaskProgress.VbsOwnedPerPlan =
      (exProducer.runningConsumers.map fun c => c.RebalanceTaskProgress.VbsOwnedPerPlan).sum :=
  ⟨by decide, by decide, by decide, by decide,
    (C22_aggregation exProducer "DCP_MUTATION").2.2.2.2.2.1 (by decide),
    (C22_aggregation exProducer "DCP_MUTATION").2.2.2.2.2.2.1 (by decide)⟩

/-! ## C30: a settings change -/

theorem intSetting_of_number (env : Env) (settings : List (String × JsonValue)) (key : String)
    (h : numberOrAbsent settings key) :
    intSetting env settings key =
      Except.ok (match mapGet settings key with
        | some (JsonValue.num bits) => some (env.intOfFloat64 bits)
        | _ => none) := by
  unfold intSetting
  rcases h with h | ⟨bits, h⟩ <;> rw [h]

theorem numberSetting_getD (env : Env) (settings : List (String × JsonValue)) (key : String)
    (old : Int) :
    (match mapGet settings key with
      | some (JsonValue.num bits) => some (env.intOfFloat64 bits)
      | _ => none).getD old = numberSetting env settings key old := by
  unfold numberSetting
  cases mapGet settings key with
  | none => rfl
  | some v => cases v <;> rfl

/-- C30 (as amended): on a settings-change notification, when fetching the
settings fails or `json.Unmarshal` of the fetched bytes fails, the consumer is
left as it was and no call is made; when the bytes decode to a map in which
`log_level`, if present, is a string and each of `skip_timer_threshold`,
`vb_ownership_giveup_routine_count` and `vb_ownership_takeover_routine_count`,
if present, is a number, the consumer changes in the fields `logLevel`,
`skipTimerThreshold`, `vbOwnershipGiveUpRoutineCount` and
`vbOwnershipTakeoverRoutineCount` only: each takes the value of its key (a
number converted with `int(...)`) when the key is present and keeps its value
otherwise, and the new log level is passed to `logging.SetLogLevel` and
`sendLogLevel`. -/
theorem C30_settings_change (env : Env) (c : Consumer) (data : List UInt8)
    (settings : List (String × JsonValue)) :
    settingsChange env c none = Except.ok (c, []) ∧
    (env.unmarshalSettings data = none →
      settingsChange env c (some data) = Except.ok (c, [])) ∧
    (env.unmarshalSettings data = some settings →
      stringOrAbsent settings "log_level" →
      numberOrAbsent settings "skip_timer_threshold" →
      numberOrAbsent settings "vb_ownership_giveup_routine_count" →
      numberOrAbsent settings "vb_ownership_takeover_routine_count" →
      settingsChange env c (some data) =
        Except.ok
          ({ c with
              logLevel := stringSetting settings "log_level" c.logLevel
              skipTimerThreshold :=
                numberSetting env settings "skip_timer_threshold" c.skipTimerThreshold
              vbOwnershipGiveUpRoutineCount :=
                numberSetting env settings "vb_ownership_giveup_routine_count"
                  c.vbOwnershipGiveUpRoutineCount
              vbOwnershipTakeoverRoutineCount :=
                numberSetting env settings "vb_ownership_takeover_routine_count"
                  c.vbOwnershipTakeoverRoutineCount },
            match mapGet settings "log_level" with
            | some (JsonValue.str s) => [Action.SetLogLevel s, Action.sendLogLevel s false]
            | _ => [])) := by
  refine ⟨rfl, ?_, ?_⟩
  · intro h
    unfold settingsChange
    simp only [h]
  · intro h hl hs hg ht
    unfold settingsChange
    simp only [h, intSetting_of_number env settings _ hs, intSetting_of_number env settings _ hg,
      intSetting_of_number env settings _ ht, numberSetting_getD]
    unfold applyLogLevel stringSetting
    rcases hl with hl | ⟨s, hl⟩ <;> rw [hl]

/-- C30 at a failed fetch, at bytes that do not decode, and at the settings
`{"log_level":"DEBUG","skip_timer_threshold":3.5,"tick_duration":5000}`: the
log level becomes `DEBUG`, the skip threshold `int(3.5) = 3`, the two routine
counts keep their values and `tick_duration` is ignored. -/
theorem C30_settings_change_witness :
    settingsChange exEnv exConsumer none = Except.ok (exConsumer, []) ∧
    settingsChange exEnv exConsumer (some [91, 49, 93]) = Except.ok (exConsumer, []) ∧
    settingsChange exEnv exConsumer (some exSettingsBytes) =
      Except.ok
        ({ exConsumer with logLevel := "DEBUG", skipTimerThreshold := 3 },
          [Action.SetLogLevel "DEBUG", Action.sendLogLevel "DEBUG" false]) :=
  ⟨(C30_settings_change exEnv exConsumer [91, 49, 93] []).1,
    (C30_settings_change exEnv exConsumer [91, 49, 93] []).2.1 rfl,
    (C30_settings_change exEnv exConsumer exSettingsBytes
      [("log_level", JsonValue.str "DEBUG"),
        ("skip_timer_threshold", JsonValue.num 0x400c000000000000),
        ("tick_duration", JsonValue.num 0x40b3880000000000)]).2.2 rfl
      (Or.inr ⟨"DEBUG", rfl⟩) (Or.inr ⟨0x400c000000000000, rfl⟩) (Or.inl rfl) (Or.inl rfl)⟩

/-- C30 fails as stated: for the settings `{"skip_timer_threshold":"86400"}`
the key `skip_timer_threshold` is present, yet `skipTimerThreshold` is not set
to its value: the type assertion `val.(float64)` panics. -/
theorem C30_counterexample :
    exEnv.unmarshalSettings exSettingsBytesMistyped =
      some [("skip_timer_threshold", JsonValue.str "86400")] ∧
    settingsChange exEnv exConsumer (some exSettingsBytesMistyped) =
      Except.error Fault.panic :=
  ⟨rfl, rfl⟩

/-! ## C23: order of the hand-offs to the worker -/

theorem startedAsGoroutine_append (a b : List Action) :
    startedAsGoroutine (a ++ b) = startedAsGoroutine a ++ startedAsGoroutine b := by
  simp [startedAsGoroutine, List.filterMap_append]

theorem enqueueTimers_started (e : DcpEvent) (timers : List String) :
    startedAsGoroutine (enqueueTimers e timers) = [] := by
  induction timers with
  | nil => rfl
  | cons t ts ih =>
    unfold enqueueTimers at ih ⊢
    unfold startedAsGoroutine at ih ⊢
    rw [List.filterMap_cons]
    by_cases h : (stringsSplit t).length = 3
    · simp only [h, if_true, List.filterMap_cons]
      exact ih
    · simp only [h, if_false]
      exact ih

/-- While events do not go to the debugger, the debugger handshake does nothing. -/
theorem debuggerHandshake_idle (c : Consumer) (inp : Inputs)
    (h : c.debuggerState ≠ startDebug) : debuggerHandshake c inp = (c, []) := by
  unfold debuggerHandshake
  simp only [h, if_false]

theorem processXattrMutation_inline (env : Env) (c c2 : Consumer) (e : DcpEvent)
    (acts : List Action) (hoff : c.sendMsgToDebugger = false)
    (h : processXattrMutation env c e = Except.ok (c2, acts)) :
    c2.sendMsgToDebugger = false ∧ c2.debuggerState = c.debuggerState ∧
      startedAsGoroutine acts = [] := by
  unfold processXattrMutation at h
  have hf : ∀ e2 : DcpEvent, startedAsGoroutine (forwardMutation c e2).2 = [] := by
    intro e2
    simp [forwardMutation, startedAsGoroutine, hoff]
  repeat' split at h
  all_goals
    cases h <;> first
      | exact ⟨hoff, rfl, hf _⟩
      | exact ⟨hoff, rfl, enqueueTimers_started _ _⟩
      | exact ⟨hoff, rfl, rfl⟩

/-- While events do not go to the debugger, an iteration of `processEvents`
leaves it so and starts no `sendDcpEvent` goroutine. -/
theorem processEvents_inline (env : Env) (c c1 : Consumer) (e : DcpEvent) (inp : Inputs)
    (acts : List Action) (hoff : c.sendMsgToDebugger = false)
    (hstate : c.debuggerState ≠ startDebug)
    (h : processEvents env c e inp = Except.ok (c1, acts)) :
    c1.sendMsgToDebugger = false ∧ c1.debuggerState ≠ startDebug ∧
      startedAsGoroutine acts = [] := by
  have hoff0 : (countMessage c e).sendMsgToDebugger = false := hoff
  have hstate0 : (countMessage c e).debuggerState ≠ startDebug := hstate
  have hshake := debuggerHandshake_idle (countMessage c e) inp hstate0
  unfold processEvents at h
  cases hop : e.Opcode with
  | DCP_MUTATION =>
    simp only [hop] at h
    unfold processMutation at h
    rw [hshake] at h
    cases hdt : e.Datatype with
    | dcpDatatypeJSON =>
      simp only [hdt] at h
      cases h
      exact ⟨hoff, hstate, by simp [forwardMutation, startedAsGoroutine, countMessage, hoff]⟩
    | dcpDatatypeJSONXattr =>
      simp only [hdt] at h
      cases hx : processXattrMutation env (countMessage c e) e with
      | error f => rw [hx] at h; cases h
      | ok r =>
        obtain ⟨c2, a2⟩ := r
        rw [hx] at h
        cases h
        have h3 := processXattrMutation_inline env (countMessage c e) c1 e a2 hoff0 hx
        exact ⟨h3.1, by rw [h3.2.1]; exact hstate, by simpa using h3.2.2⟩
    | other n =>
      simp only [hdt] at h
      cases h
      exact ⟨hoff, hstate, rfl⟩
  | DCP_DELETION =>
    simp only [hop] at h
    unfold processDeletion at h
    rw [hshake] at h
    cases h
    exact ⟨hoff, hstate, by simp [forwardDeletion, startedAsGoroutine, countMessage, hoff]⟩
  | DCP_STREAMREQ =>
    simp only [hop] at h
    unfold processStreamReq at h
    injection h with h
    repeat' split at h
    all_goals
      cases h
      exact ⟨hoff, hstate, rfl⟩
  | DCP_STREAMEND =>
    simp only [hop] at h
    unfold processStreamEnd at h
    injection h with h
    repeat' split at h
    all_goals
      cases h
      refine ⟨?_, ?_, ?_⟩ <;>
        first
          | exact hoff
          | exact hstate
          | (split <;> first | exact hoff | exact hstate)
          | (split <;> simp [startedAsGoroutine])
  | other n =>
    simp only [hop] at h
    cases h
    exact ⟨hoff, hstate, rfl⟩

theorem processEvents_forwardedAsIs (env : Env) (c c1 : Consumer) (e : DcpEvent) (inp : Inputs)
    (acts : List Action) (hp : forwardedAsIs e)
    (h : processEvents env c e inp = Except.ok (c1, acts)) :
    forwardedToWorker acts = [e] := by
  rcases hp with ⟨hop, hdt⟩ | hop
  · rw [processEvents_json env c e inp hop hdt] at h
    cases h
    rw [forwardedToWorker_append, debuggerHandshake_forwarded]
    rfl
  · rw [processEvents_deletion env c e inp hop] at h
    cases h
    rw [forwardedToWorker_append, debuggerHandshake_forwarded]
    rfl

theorem processEventsLoop_cons (env : Env) (inp : Nat → Inputs) (c c2 : Consumer) (i : Nat)
    (e : DcpEvent) (rest : List DcpEvent) (acts : List Action)
    (h : processEventsLoop env inp c i (e :: rest) = Except.ok (c2, acts)) :
    ∃ c1 acts1 acts2, processEvents env c e (inp i) = Except.ok (c1, acts1) ∧
      processEventsLoop env inp c1 (i + 1) rest = Except.ok (c2, acts2) ∧
      acts = acts1 ++ acts2 := by
  unfold processEventsLoop at h
  cases h1 : processEvents env c e (inp i) with
  | error f => rw [h1] at h; cases h
  | ok r =>
    obtain ⟨c1, acts1⟩ := r
    rw [h1] at h
    simp only [] at h
    cases h2 : processEventsLoop env inp c1 (i + 1) rest with
    | error f => rw [h2] at h; cases h
    | ok r2 =>
      obtain ⟨c3, acts2⟩ := r2
      rw [h2] at h
      cases h
      exact ⟨c1, acts1, acts2, rfl, h2, rfl⟩

theorem processEventsLoop_inline (env : Env) (inp : Nat → Inputs) (events : List DcpEvent) :
    ∀ (c c2 : Consumer) (i : Nat) (acts : List Action),
      c.sendMsgToDebugger = false → c.debuggerState ≠ startDebug →
      processEventsLoop env inp c i events = Except.ok (c2, acts) →
      startedAsGoroutine acts = [] := by
  induction events with
  | nil =>
    intro c c2 i acts _ _ h
    unfold processEventsLoop at h
    cases h
    rfl
  | cons e rest ih =>
    intro c c2 i acts hoff hstate h
    obtain ⟨c1, acts1, acts2, h1, h2, rfl⟩ := processEventsLoop_cons env inp c c2 i e rest acts h
    have hs := processEvents_inline env c c1 e (inp i) acts1 hoff hstate h1
    rw [startedAsGoroutine_append, hs.2.2, ih c1 c2 (i + 1) acts2 hs.1 hs.2.1 h2]
    rfl

/-- When no `sendDcpEvent` call of a trace is started with a `go` statement,
the worker is handed the events in the order of the calls. -/
theorem handOff_inline (acts : List Action) (started out : List DcpEvent)
    (h : HandOff acts started out) :
    started = [] → startedAsGoroutine acts = [] → out = forwardedToWorker acts := by
  induction h with
  | done => intro _ _; rfl
  | call e d rest started out _ ih =>
    intro hs hg
    have hg2 : startedAsGoroutine rest = [] := hg
    rw [ih hs hg2]
    rfl
  | go e d rest started out _ _ =>
    intro _ hg
    exact absurd hg (List.cons_ne_nil _ _)
  | run e acts pre post out _ _ =>
    intro hs _
    exact absurd hs (by simp)
  | skip a rest started out ha _ ih =>
    intro hs hg
    have hg2 : startedAsGoroutine rest = [] := by
      have h3 := startedAsGoroutine_append [a] rest
      rw [List.singleton_append, hg] at h3
      exact (List.append_eq_nil.1 h3.symm).2
    rw [ih hs hg2, ← List.singleton_append, forwardedToWorker_append, ha]
    rfl

theorem processXattrMutation_handedOver (env : Env) (c c2 : Consumer) (e : DcpEvent)
    (acts : List Action) (hop : e.Opcode = Opcode.DCP_MUTATION)
    (hdt : e.Datatype = Datatype.dcpDatatypeJSONXattr)
    (h : processXattrMutation env c e = Except.ok (c2, acts)) :
    forwardedToWorker acts = (handedOver env e).toList := by
  unfold processXattrMutation at h
  unfold handedOver
  simp only [hop, hdt]
  cases hd : decodeXattrs env e.Value with
  | error f =>
    simp only [hd] at h
    cases h
  | ok r =>
    obtain ⟨total, xMeta⟩ := r
    simp only [hd] at h ⊢
    by_cases hc : xMeta.Cas = ""
    · simp only [hc, ne_eq, not_true_eq_false, if_false, if_true] at h ⊢
      cases hb : e.Value.sliceFrom (u32 (4 + total)) with
      | none =>
        simp only [hb] at h
        cases h
      | some body =>
        simp only [hb] at h ⊢
        cases h
        simp [forwardedToWorker, forwardMutation, hop, hdt]
    · simp only [ne_eq, hc, not_false_eq_true, if_true, if_false] at h ⊢
      cases hcv : env.ConvertBigEndianToUint64 xMeta.Cas with
      | none =>
        simp only [hcv] at h ⊢
        cases h
        cases e.Value.sliceFrom (u32 (4 + total)) <;> rfl
      | some cas =>
        simp only [hcv] at h ⊢
        by_cases hne : cas = e.Cas
        · simp only [hne, not_true_eq_false, if_false, false_and] at h ⊢
          cases h
          rw [enqueueTimers_forwarded]
          cases e.Value.sliceFrom (u32 (4 + total)) <;> rfl
        · simp only [hne, not_false_eq_true, if_true, true_and] at h ⊢
          cases hb : e.Value.sliceFrom (u32 (4 + total)) with
          | none =>
            simp only [hb] at h
            cases h
          | some body =>
            simp only [hb] at h ⊢
            by_cases hcrc : env.crc32Update body.toList = xMeta.Digest
            · simp only [hcrc, not_true_eq_false, if_false] at h ⊢
              cases h
              rw [enqueueTimers_forwarded]
              rfl
            · simp only [hcrc, not_false_eq_true, if_true] at h ⊢
              cases h
              simp [forwardedToWorker, forwardMutation, hop, hdt]

/-- What an iteration of `processEvents` hands to `sendDcpEvent` depends on the
event alone. -/
theorem processEvents_handedOver (env : Env) (c c1 : Consumer) (e : DcpEvent) (inp : Inputs)
    (acts : List Action) (h : processEvents env c e inp = Except.ok (c1, acts)) :
    forwardedToWorker acts = (handedOver env e).toList := by
  cases hop : e.Opcode with
  | DCP_MUTATION =>
    cases hdt : e.Datatype with
    | dcpDatatypeJSON =>
      rw [processEvents_forwardedAsIs env c c1 e inp acts (Or.inl ⟨hop, hdt⟩) h]
      simp only [handedOver, hop, hdt, Option.toList]
    | dcpDatatypeJSONXattr =>
      rw [processEvents_xattr env c e inp hop hdt] at h
      cases hx : processXattrMutation env (debuggerHandshake (countMessage c e) inp).1 e with
      | error f => rw [hx] at h; cases h
      | ok r =>
        obtain ⟨c2, a2⟩ := r
        rw [hx] at h
        cases h
        rw [forwardedToWorker_append, debuggerHandshake_forwarded,
          processXattrMutation_handedOver env _ c1 e a2 hop hdt hx]
        rfl
    | other n =>
      have hp : processEvents env c e inp =
          Except.ok ((debuggerHandshake (countMessage c e) inp).1,
            (debuggerHandshake (countMessage c e) inp).2) := by
        unfold processEvents processMutation
        simp only [hop, hdt]
      rw [hp] at h
      cases h
      rw [debuggerHandshake_forwarded]
      simp only [handedOver, hop, hdt, Option.toList]
  | DCP_DELETION =>
    rw [processEvents_forwardedAsIs env c c1 e inp acts (Or.inr hop) h]
    simp only [handedOver, hop, Option.toList]
  | DCP_STREAMREQ =>
    unfold processEvents at h
    simp only [hop] at h
    unfold processStreamReq at h
    injection h with h
    simp only [handedOver, hop, Option.toList]
    repeat' split at h
    all_goals
      cases h
      rfl
  | DCP_STREAMEND =>
    unfold processEvents at h
    simp only [hop] at h
    unfold processStreamEnd at h
    injection h with h
    simp only [handedOver, hop, Option.toList]
    repeat' split at h
    all_goals
      cases h
      first
        | rfl
        | (split <;> rfl)
  | other n =>
    unfold processEvents at h
    simp only [hop] at h
    cases h
    simp only [handedOver, hop, Option.toList]
    rfl

theorem processEventsLoop_handedOver (env : Env) (inp : Nat → Inputs) (events : List DcpEvent) :
    ∀ (c c2 : Consumer) (i : Nat) (acts : List Action),
      processEventsLoop env inp c i events = Except.ok (c2, acts) →
      forwardedToWorker acts = events.filterMap (handedOver env) := by
  induction events with
  | nil =>
    intro c c2 i acts h
    unfold processEventsLoop at h
    cases h
    rfl
  | cons e rest ih =>
    intro c c2 i acts h
    obtain ⟨c1, acts1, acts2, h1, h2, rfl⟩ := processEventsLoop_cons env inp c c2 i e rest acts h
    rw [forwardedToWorker_append, processEvents_handedOver env c c1 e (inp i) acts1 h1,
      ih c1 c2 (i + 1) acts2 h2, List.filterMap_cons]
    cases handedOver env e <;> rfl

theorem addToAggChan_sent (c : Consumer) (received : List DcpEvent) (tail : List FeedSelect) :
    (addToAggChan c (received.map FeedSelect.event ++ tail)).2 =
      received ++ (addToAggChan c tail).2 := by
  induction received with
  | nil => rfl
  | cons e rest ih =>
    simp only [List.map_cons, List.cons_append, addToAggChan]
    exact congrArg (List.cons e) ih

theorem channelOrder_sublist (senders : List (List DcpEvent)) (out : List DcpEvent)
    (h : ChannelOrder senders out) : ∀ s ∈ senders, s.Sublist out := by
  induction h with
  | done senders hnil =>
    intro s hs
    rw [hnil s hs]
  | recv pre post e s0 out _ ih =>
    intro s hs
    rcases List.mem_append.1 hs with hpre | hrest
    · exact (ih s (List.mem_append.2 (Or.inl hpre))).cons e
    · rcases List.mem_cons.1 hrest with heq | hpost
      · subst heq
        exact (ih s0 (List.mem_append.2 (Or.inr (List.mem_cons_self _ _)))).cons₂ e
      · exact (ih s (List.mem_append.2 (Or.inr (List.mem_cons_of_mem _ hpost)))).cons e

theorem handedOver_forwardedAsIs (env : Env) (e : DcpEvent) (h : forwardedAsIs e) :
    handedOver env e = some e := by
  rcases h with ⟨hop, hdt⟩ | hop
  · simp only [handedOver, hop, hdt]
  · simp only [handedOver, hop]

/-- C23 (as amended): let the goroutine of `addToAggChan` of one DCP feed
receive the events `received` in this order, `e1` before `e2` among them, let
`aggDCPFeed` deliver what the goroutines of all feeds send on it, and let the
loop of `processEvents` run over the events of `aggDCPFeed` while events do not
go to the debugger (`sendMsgToDebugger` is false and `debuggerState` is not
`startDebug`).  Then every `sendDcpEvent` call is a plain call, the worker is
handed, in the order of `aggDCPFeed`, what each iteration forwards (a JSON
mutation or deletion as it is, a forwarded JSON+XATTR mutation with its value
cut down to the body, nothing for a suppressed event), and what is forwarded
for `e1` is handed over before what is forwarded for `e2`. -/
theorem C23_order_without_debugger (env : Env) (inp : Nat → Inputs) (c c2 feedConsumer : Consumer)
    (received : List DcpEvent) (tail : List FeedSelect) (senders : List (List DcpEvent))
    (aggDCPFeed : List DcpEvent) (e1 e2 : DcpEvent) (acts : List Action)
    (out : List DcpEvent)
    (hoff : c.sendMsgToDebugger = false) (hstate : c.debuggerState ≠ startDebug)
    (hfeed : [e1, e2].Sublist received)
    (hsender :
      (addToAggChan feedConsumer (received.map FeedSelect.event ++ tail)).2 ∈ senders)
    (hchan : ChannelOrder senders aggDCPFeed)
    (hrun : processEventsLoop env inp c 0 aggDCPFeed = Except.ok (c2, acts))
    (hout : HandOff acts [] out) :
    startedAsGoroutine acts = [] ∧
    out = aggDCPFeed.filterMap (handedOver env) ∧
    ([e1, e2].filterMap (handedOver env)).Sublist out ∧
    (forwardedAsIs e1 → forwardedAsIs e2 → [e1, e2].Sublist out) := by
  have hg := processEventsLoop_inline env inp aggDCPFeed c c2 0 acts hoff hstate hrun
  have ho : out = aggDCPFeed.filterMap (handedOver env) := by
    rw [handOff_inline acts [] out hout rfl hg]
    exact processEventsLoop_handedOver env inp aggDCPFeed c c2 0 acts hrun
  have hsub : [e1, e2].Sublist aggDCPFeed := by
    have h1 := channelOrder_sublist senders aggDCPFeed hchan _ hsender
    rw [addToAggChan_sent] at h1
    exact (hfeed.trans (List.sublist_append_left _ _)).trans h1
  have hf : ([e1, e2].filterMap (handedOver env)).Sublist out := by
    rw [ho]
    exact hsub.filterMap _
  refine ⟨hg, ho, hf, ?_⟩
  intro h1 h2
  have h3 : [e1, e2].filterMap (handedOver env) = [e1, e2] := by
    simp [List.filterMap_cons, handedOver_forwardedAsIs env e1 h1,
      handedOver_forwardedAsIs env e2 h2]
  rw [h3] at hf
  exact hf

/-- C23 (as amended) at a feed that delivers a JSON+XATTR mutation without
eventing frame (body `v1`) and then a deletion of vbucket 5, while another
feed delivers a mutation of another datatype that `aggDCPFeed` places in
between: the worker is handed the mutation with the value `v1`, then the
deletion. -/
theorem C23_order_without_debugger_witness :
    handedOver exEnv (exForeignXattrMutation [118, 49]) =
      some { exForeignXattrMutation [118, 49] with Value := GoSlice.ofList [118, 49] } ∧
    startedAsGoroutine
        [Action.sendDcpEvent
            { exForeignXattrMutation [118, 49] with Value := GoSlice.ofList [118, 49] }
            false false,
          Action.sendDcpEvent exDeletion false false] = [] ∧
    ([exForeignXattrMutation [118, 49], exDeletion].filterMap (handedOver exEnv)).Sublist
      [{ exForeignXattrMutation [118, 49] with Value := GoSlice.ofList [118, 49] },
        exDeletion] :=
  ⟨rfl,
    (C23_order_without_debugger exEnv (fun _ => exInputs) exConsumer
      ((forwardDeletion (countMessage (countMessage
        (forwardMutation (countMessage exConsumer (exForeignXattrMutation [118, 49]))
          (exForeignXattrMutation [118, 49])).1
          exRawMutation) exDeletion) exDeletion).1)
      exConsumer
      [exForeignXattrMutation [118, 49], exDeletion] [FeedSelect.cancel]
      [[exForeignXattrMutation [118, 49], exDeletion], [exRawMutation]]
      [exForeignXattrMutation [118, 49], exRawMutation, exDeletion]
      (exForeignXattrMutation [118, 49]) exDeletion
      [Action.sendDcpEvent
          { exForeignXattrMutation [118, 49] with Value := GoSlice.ofList [118, 49] }
          false false,
        Action.sendDcpEvent exDeletion false false]
      [{ exForeignXattrMutation [118, 49] with Value := GoSlice.ofList [118, 49] },
        exDeletion]
      rfl (by decide) (List.Sublist.refl _)
      (List.mem_cons_self _ _)
      (ChannelOrder.recv [] [[exRawMutation]] _ [exDeletion] _
        (ChannelOrder.recv [[exDeletion]] [] exRawMutation [] _
          (ChannelOrder.recv [] [[]] exDeletion [] _
            (ChannelOrder.done [[], []] (by decide)))))
      rfl
      (HandOff.call _ _ _ _ _ (HandOff.call _ _ _ _ _ HandOff.done))).1,
    (C23_order_without_debugger exEnv (fun _ => exInputs) exConsumer
      ((forwardDeletion (countMessage (countMessage
        (forwardMutation (countMessage exConsumer (exForeignXattrMutation [118, 49]))
          (exForeignXattrMutation [118, 49])).1
          exRawMutation) exDeletion) exDeletion).1)
      exConsumer
      [exForeignXattrMutation [118, 49], exDeletion] [FeedSelect.cancel]
      [[exForeignXattrMutation [118, 49], exDeletion], [exRawMutation]]
      [exForeignXattrMutation [118, 49], exRawMutation, exDeletion]
      (exForeignXattrMutation [118, 49]) exDeletion
      [Action.sendDcpEvent
          { exForeignXattrMutation [118, 49] with Value := GoSlice.ofList [118, 49] }
          false false,
        Action.sendDcpEvent exDeletion false false]
      [{ exForeignXattrMutation [118, 49] with Value := GoSlice.ofList [118, 49] },
        exDeletion]
      rfl (by decide) (List.Sublist.refl _)
      (List.mem_cons_self _ _)
      (ChannelOrder.recv [] [[exRawMutation]] _ [exDeletion] _
        (ChannelOrder.recv [[exDeletion]] [] exRawMutation [] _
          (ChannelOrder.recv [] [[]] exDeletion [] _
            (ChannelOrder.done [[], []] (by decide)))))
      rfl
      (HandOff.call _ _ _ _ _ (HandOff.call _ _ _ _ _ HandOff.done))).2.2.1⟩

/-- C23 fails as stated: once the debugger start is signalled, the JSON
mutation and the deletion of vbucket 5 that arrive in this order are each
handed to `sendDcpEvent` in a goroutine of its own, and the worker can be
handed the deletion before the mutation. -/
theorem C23_counterexample :
    ∃ c2,
      processEventsLoop exEnv (fun _ => exInputsDebug) exConsumerStartDebug 0
          [exJsonMutation, exDeletion] =
        Except.ok (c2,
          [Action.signalUpdateDebuggerInstBlob, Action.startDebuggerServer,
            Action.sendDcpEvent exJsonMutation true true,
            Action.sendDcpEvent exDeletion true true]) ∧
      exJsonMutation.VBucket = exDeletion.VBucket ∧
      HandOff
        [Action.signalUpdateDebuggerInstBlob, Action.startDebuggerServer,
          Action.sendDcpEvent exJsonMutation true true,
          Action.sendDcpEvent exDeletion true true] []
        [exDeletion, exJsonMutation] ∧
      ¬ [exJsonMutation, exDeletion].Sublist [exDeletion, exJsonMutation] :=
  ⟨_, rfl, rfl,
    HandOff.skip _ _ _ _ rfl (HandOff.skip _ _ _ _ rfl
      (HandOff.go _ _ _ _ _ (HandOff.go _ _ _ _ _
        (HandOff.run exDeletion [] [exJsonMutation] [] _
          (HandOff.run exJsonMutation [] [] [] _ HandOff.done))))),
    by decide⟩

/-! ## C11: the stored `lastProcessedSeq` never decreases -/

end Eventing
